import Mathlib

/-!
nc_conf.c: configuration validation and registry membership reconciliation

A shallow embedding of `src/src/nc_conf.c`.

Conventions of the embedding.

* `struct string` is a Lean `String` (`len` is `String.length`); `struct array`
  is a `List` of its live elements (`array_n` is `List.length`, `array_push`
  appends at the end, `array_idx` of the pushed element is the previous length).
* `array_get` does no bounds check when assertions are compiled out: an index
  at or past `nelem` reads whatever the storage holds there.  The embedding
  makes that content an explicit argument (`stale`), so every function stays
  total and every theorem holds whatever the storage held.
* `ASSERT` is the release-build no-op; logging is dropped.
* Functions and constants that live in other files of the repository
  (`hash_crc16`, `string_compare`, `array_sort`, the `CONF_*` constants of
  `nc_conf.h`) are arguments of the definitions that use them.
* C `int` fields are `Int`; `uint16_t` / `uint32_t` results are reduced
  modulo `2^16` / `2^32` where the code casts or can wrap.  Element counts are
  `Nat` (the `int` / `uint32_t` casts of `array_n` are the identity below `2^31`).
-/

namespace NcConf

/-! ## Data model -/

/-- Return codes of `nc_core.h` used by this file. -/
inductive rstatus_t where
  | NC_OK
  | NC_ERROR
  | NC_ENOMEM
  deriving DecidableEq, Repr

open rstatus_t

/-- `struct conf_server`: one server declaration.  `info` stands for the
resolved `struct sockinfo`, which this file only copies. -/
structure conf_server where
  pname : String := ""
  name : String := ""
  addrstr : String := ""
  port : Int := 0
  weight : Int := 0
  info : Nat := 0
  valid : Nat := 0
  deriving DecidableEq, Repr

/-- `struct conf_server_group`: the servers of one `servers:` entry and its
`loop` marker. -/
structure conf_server_group where
  server : List conf_server := []
  loop : Nat := 0
  deriving DecidableEq, Repr

/-- `struct server`: a runtime server.  `owner` is the index of the owning
pool (`none` is `NULL`). -/
structure server where
  idx : Nat := 0
  owner : Option Nat := none
  pname : String := ""
  name : String := ""
  addrstr : String := ""
  port : Nat := 0
  weight : Nat := 0
  connected : Nat := 0
  is_read : Nat := 0
  group : Option Nat := none
  info : Nat := 0
  ns_conn_q : Nat := 0
  s_conn_q : List Nat := []
  next_retry : Int := 0
  failure_count : Nat := 0
  deriving DecidableEq, Repr

/-- `struct server_pool`: the part of a runtime pool this file reads and
writes. `server_identifier` holds the admitted 32-bit fingerprints. -/
structure server_pool where
  idx : Nat := 0
  name : String := ""
  addrstr : String := ""
  port : Nat := 0
  key_hash_type : Int := 0
  dist_type : Int := 0
  hash_tag : String := ""
  tcpkeepalive : Nat := 0
  protocol : Nat := 0
  timeout : Int := 0
  backlog : Int := 0
  redis_db : Int := 0
  redis_auth : String := ""
  require_auth : Nat := 0
  client_connections : Nat := 0
  server_connections : Nat := 0
  server_retry_timeout : Int := 0
  server_failure_limit : Nat := 0
  auto_eject_hosts : Nat := 0
  preconnect : Nat := 0
  master : Nat := 0
  server : List NcConf.server := []
  backup_server : List NcConf.server := []
  server_identifier : List Nat := []
  finish_init : Nat := 0
  deriving DecidableEq

/-! ## Runtime server construction -/

/-- `array_get(a, idx)`: the element at `idx`; past the live elements, the
content `stale` of the storage there. -/
def array_get {α : Type} (a : List α) (idx : Nat) (stale : α) : α :=
  a.getD idx stale

/-- `conf_server_init_new(cs, server, sp)`: push one runtime server built from
the declaration `cs` onto `server`, owned by pool `sp`.  Always `NC_OK`; the
result is the array after the push. -/
def conf_server_init_new (cs : conf_server) (srv : List server) (sp : Nat) : List server :=
  srv ++ [{ idx := srv.length
            owner := some sp
            pname := cs.pname
            name := cs.name
            addrstr := cs.addrstr
            port := (cs.port % 65536).toNat
            weight := (cs.weight % 4294967296).toNat
            connected := 1
            is_read := 1
            group := none
            info := cs.info
            ns_conn_q := 0
            s_conn_q := []
            next_retry := 0
            failure_count := 0 }]

/-! ## Membership reconciliation (`nodes_child_watch`) -/

/-- `crc_sb` of lines 378-379: `(hash_crc16(s) << 16) + hash_crc16(bs)` in
`uint32_t` arithmetic. -/
def crc_pair (hash_crc16 : String → Nat) (s bs : conf_server) : Nat :=
  ((hash_crc16 s.pname % 4294967296) * 65536 % 4294967296
    + hash_crc16 bs.pname % 4294967296) % 4294967296

/-- The inner loop of lines 383-390 over `sp->server_identifier`, started at
`server_index` with `count` misses so far: stops at the first admitted
fingerprint equal to `crc_sb` or `crc_bs`; returns the final
`(server_index, count)`. -/
def identifier_loop (crc_sb crc_bs : Nat) : List Nat → Nat → Nat → Nat × Nat
  | [], server_index, count => (server_index, count)
  | crc :: rest, server_index, count =>
    if crc_sb = crc ∨ crc_bs = crc then (server_index, count)
    else identifier_loop crc_sb crc_bs rest (server_index + 1) (count + 1)

/-- The backward scan of lines 370-397 with `k` pairs left to visit
(`conf_server_index = k - 1`).  `none`: the loop ran out, `conf_index` is
still `-1`.  `some (conf_index, new_crc)`: the `break` of line 395 was taken. -/
def scan_loop (hash_crc16 : String → Nat) (stale_s stale_bs : conf_server)
    (identifier : List Nat) (srv bsrv : List conf_server) : Nat → Option (Nat × Nat)
  | 0 => none
  | k + 1 =>
    let s := array_get srv k stale_s
    let bs := array_get bsrv k stale_bs
    let crc_sb := crc_pair hash_crc16 s bs
    let crc_bs := crc_pair hash_crc16 bs s
    let r := identifier_loop crc_sb crc_bs identifier 0 0
    if r.2 = identifier.length then some (r.1, crc_sb)
    else scan_loop hash_crc16 stale_s stale_bs identifier srv bsrv k

/-- Lines 362-413 of `nodes_child_watch`: the body that runs once the pool is
initialised, on the fetched `server` / `backupserver` lists.  The statistics
endpoint recreated at lines 405-411 is outside `server_pool`. -/
def nodes_child_watch_body (hash_crc16 : String → Nat) (stale_s stale_bs : conf_server)
    (srv bsrv : List conf_server) (sp : server_pool) : server_pool :=
  if srv.length = 0 then sp
  else if srv.length ≠ bsrv.length then sp
  else
    match scan_loop hash_crc16 stale_s stale_bs sp.server_identifier srv bsrv srv.length with
    | none => sp
    | some (conf_index, new_crc) =>
      if 0 < conf_index then
        { sp with
          server := conf_server_init_new (array_get srv conf_index stale_s) sp.server sp.idx
          backup_server :=
            conf_server_init_new (array_get bsrv conf_index stale_bs) sp.backup_server sp.idx
          server_identifier := sp.server_identifier ++ [new_crc] }
      else sp

/-- What the coordination service answered during one callback:
`child_ret` is the result of `zk_get_children` (line 343), `status` and the
two lists are the result of `conf_from_zookeeper` (line 349). -/
structure zk_fetch where
  child_ret : Int := 0
  status : rstatus_t := NC_OK
  server : List conf_server := []
  backupserver : List conf_server := []
  deriving DecidableEq, Repr

/-- `nodes_child_watch`: `is_child_event` is `type == ZOO_CHILD_EVENT`; `sp`
is the pool as read after the wait on `finish_init` (lines 354-360). -/
def nodes_child_watch (hash_crc16 : String → Nat) (stale_s stale_bs : conf_server)
    (is_child_event : Bool) (zk : zk_fetch) (sp : server_pool) : server_pool :=
  if is_child_event then
    if zk.child_ret ≠ 0 then sp
    else if zk.status ≠ NC_OK then sp
    else nodes_child_watch_body hash_crc16 stale_s stale_bs zk.server zk.backupserver sp
  else sp


/-! ## Pool declarations and their validation -/

/-- `struct conf_listen`: the `listen:` declaration of a pool. -/
structure conf_listen where
  pname : String := ""
  name : String := ""
  port : Int := 0
  perm : Nat := 0
  info : Nat := 0
  valid : Nat := 0
  deriving DecidableEq, Repr

/-- `struct conf_pool`: one pool declaration.  A string field that was never
set is the empty string (`string_init`). -/
structure conf_pool where
  name : String := ""
  listen : conf_listen := {}
  hash : Int := 0
  hash_tag : String := ""
  distribution : Int := 0
  timeout : Int := 0
  backlog : Int := 0
  client_connections : Int := 0
  protocol : Int := 0
  tcpkeepalive : Int := 0
  redis_auth : String := ""
  redis_db : Int := 0
  preconnect : Int := 0
  master : Int := 0
  auto_eject_hosts : Int := 0
  server_connections : Int := 0
  server_retry_timeout : Int := 0
  server_failure_limit : Int := 0
  server : List conf_server := []
  servergroup : List conf_server_group := []
  backupserver : List conf_server := []
  zookeeperserver : List conf_server := []
  valid : Nat := 0
  deriving DecidableEq

/-- The constants of `nc_conf.h` and `PROTOCOL_REDIS` that `conf_validate_pool`
reads; the header is not part of the sources, so they are left open. -/
structure conf_constants where
  CONF_UNSET_NUM : Int
  CONF_UNSET_HASH : Int
  CONF_UNSET_DIST : Int
  CONF_DEFAULT_HASH : Int
  CONF_DEFAULT_DIST : Int
  CONF_DEFAULT_TIMEOUT : Int
  CONF_DEFAULT_LISTEN_BACKLOG : Int
  CONF_DEFAULT_CLIENT_CONNECTIONS : Int
  CONF_DEFAULT_REDIS : Int
  CONF_DEFAULT_TCPKEEPALIVE : Int
  CONF_DEFAULT_REDIS_DB : Int
  CONF_DEFAULT_PRECONNECT : Int
  CONF_DEFAULT_MASTER : Int
  CONF_DEFAULT_AUTO_EJECT_HOSTS : Int
  CONF_DEFAULT_SERVER_CONNECTIONS : Int
  CONF_DEFAULT_SERVER_RETRY_TIMEOUT : Int
  CONF_DEFAULT_SERVER_FAILURE_LIMIT : Int
  CONF_DEFAULT_KETAMA_PORT : Int
  PROTOCOL_REDIS : Int
  deriving DecidableEq

/-- `conf_validate_server`: a pool needs at least one flat server. -/
def conf_validate_server (cp : conf_pool) : rstatus_t :=
  if cp.server.length = 0 then NC_ERROR else NC_OK

/-- The defaults of lines 1538-1576, applied before `server_connections` is
looked at.  `client_connections` is assigned without a test (line 1554). -/
def conf_pool_defaults_head (c : conf_constants) (cp : conf_pool) : conf_pool :=
  let cp := if cp.distribution = c.CONF_UNSET_DIST
    then { cp with distribution := c.CONF_DEFAULT_DIST } else cp
  let cp := if cp.hash = c.CONF_UNSET_HASH then { cp with hash := c.CONF_DEFAULT_HASH } else cp
  let cp := if cp.timeout = c.CONF_UNSET_NUM
    then { cp with timeout := c.CONF_DEFAULT_TIMEOUT } else cp
  let cp := if cp.backlog = c.CONF_UNSET_NUM
    then { cp with backlog := c.CONF_DEFAULT_LISTEN_BACKLOG } else cp
  let cp := { cp with client_connections := c.CONF_DEFAULT_CLIENT_CONNECTIONS }
  let cp := if cp.protocol = c.CONF_UNSET_NUM
    then { cp with protocol := c.CONF_DEFAULT_REDIS } else cp
  let cp := if cp.tcpkeepalive = c.CONF_UNSET_NUM
    then { cp with tcpkeepalive := c.CONF_DEFAULT_TCPKEEPALIVE } else cp
  let cp := if cp.redis_db = c.CONF_UNSET_NUM
    then { cp with redis_db := c.CONF_DEFAULT_REDIS_DB } else cp
  let cp := if cp.preconnect = c.CONF_UNSET_NUM
    then { cp with preconnect := c.CONF_DEFAULT_PRECONNECT } else cp
  let cp := if cp.master = c.CONF_UNSET_NUM
    then { cp with master := c.CONF_DEFAULT_MASTER } else cp
  if cp.auto_eject_hosts = c.CONF_UNSET_NUM
    then { cp with auto_eject_hosts := c.CONF_DEFAULT_AUTO_EJECT_HOSTS } else cp

/-- The defaults of lines 1578-1591, on the path where the zero test of
`server_connections` did not fire. -/
def conf_pool_defaults_tail (c : conf_constants) (cp : conf_pool) : conf_pool :=
  let cp := if cp.server_connections = c.CONF_UNSET_NUM
    then { cp with server_connections := c.CONF_DEFAULT_SERVER_CONNECTIONS } else cp
  let cp := if cp.server_retry_timeout = c.CONF_UNSET_NUM
    then { cp with server_retry_timeout := c.CONF_DEFAULT_SERVER_RETRY_TIMEOUT } else cp
  if cp.server_failure_limit = c.CONF_UNSET_NUM
    then { cp with server_failure_limit := c.CONF_DEFAULT_SERVER_FAILURE_LIMIT } else cp

/-- The loop of lines 1607-1613 from group `i` on: for each group, push a copy
of the first slot of that group's server storage (`group->server.elem`) onto
the flat collection.  `stale i` is what that slot holds when group `i` has no
server. -/
def group_copy_loop (stale : Nat → conf_server) :
    List conf_server_group → Nat → List conf_server → List conf_server
  | [], _, srv => srv
  | group :: rest, i, srv =>
    group_copy_loop stale rest (i + 1) (srv ++ [array_get group.server 0 (stale i)])

/-- Lines 1602-1614: the flat server collection after group expansion. -/
def conf_expand_groups (stale : Nat → conf_server) (cp : conf_pool) : List conf_server :=
  if cp.server.length = 0 ∧ cp.servergroup.length > 0 then
    group_copy_loop stale cp.servergroup 0 cp.server
  else cp.server

/-- Lines 1602-1622 of `conf_validate_pool`: group expansion, the server
count test and the `valid` flag. -/
def conf_validate_pool_finish (stale : Nat → conf_server) (cp : conf_pool) :
    rstatus_t × conf_pool :=
  let cp := { cp with server := conf_expand_groups stale cp }
  match conf_validate_server cp with
  | NC_OK => (NC_OK, { cp with valid := 1 })
  | status => (status, cp)

/-- `conf_validate_pool`: the status and the pool as the call leaves it. -/
def conf_validate_pool (c : conf_constants) (stale : Nat → conf_server) (cp : conf_pool) :
    rstatus_t × conf_pool :=
  if cp.listen.valid = 0 then (NC_ERROR, cp)
  else
    let cp := conf_pool_defaults_head c cp
    if cp.server_connections ≠ c.CONF_UNSET_NUM ∧ cp.server_connections = 0 then (NC_ERROR, cp)
    else
      let cp := conf_pool_defaults_tail c cp
      if cp.protocol ≠ c.PROTOCOL_REDIS ∧ cp.redis_auth.length > 0 then (NC_ERROR, cp)
      else conf_validate_pool_finish stale cp

/-- `conf_pool_name_cmp`, over the `string_compare` of `nc_string.c`. -/
def conf_pool_name_cmp (string_compare : String → String → Int) (p1 p2 : conf_pool) : Int :=
  string_compare p1.name p2.name

/-- `conf_pool_listen_cmp`, over the `string_compare` of `nc_string.c`. -/
def conf_pool_listen_cmp (string_compare : String → String → Int) (p1 p2 : conf_pool) : Int :=
  string_compare p1.listen.pname p2.listen.pname

/-- The loop of lines 1643-1650 from pool `i` on: validate the pools in order
and stop at the first failure.  `stale i` is the stale storage seen by pool `i`. -/
def validate_pool_loop (c : conf_constants) (stale : Nat → Nat → conf_server) :
    List conf_pool → Nat → rstatus_t × List conf_pool
  | [], _ => (NC_OK, [])
  | cp :: rest, i =>
    match conf_validate_pool c (stale i) cp with
    | (NC_OK, cp1) =>
      ((validate_pool_loop c stale rest (i + 1)).1,
        cp1 :: (validate_pool_loop c stale rest (i + 1)).2)
    | (status, cp1) => (status, cp1 :: rest)

/-- The loops of lines 1654-1667 and 1674-1686: `valid` stays true unless two
neighbours `p1`, `p2` of the sorted pool array compare equal on `key`. -/
def adjacent_loop (string_compare : String → String → Int) (key : conf_pool → String) :
    List conf_pool → Bool
  | p1 :: p2 :: rest =>
    if string_compare (key p1) (key p2) = 0 then false
    else adjacent_loop string_compare key (p2 :: rest)
  | _ => true

/-- `conf_post_validate`: the status and the pool array as the call leaves it.
`array_sort` is the `qsort` wrapper of `nc_array.c`. -/
def conf_post_validate (c : conf_constants) (stale : Nat → Nat → conf_server)
    (string_compare : String → String → Int)
    (array_sort : (conf_pool → conf_pool → Int) → List conf_pool → List conf_pool)
    (pool : List conf_pool) : rstatus_t × List conf_pool :=
  if pool.length = 0 then (NC_ERROR, pool)
  else
    match validate_pool_loop c stale pool 0 with
    | (NC_OK, pool) =>
      let pool := array_sort (conf_pool_listen_cmp string_compare) pool
      if adjacent_loop string_compare (fun p => p.listen.pname) pool = false then (NC_ERROR, pool)
      else
        let pool := array_sort (conf_pool_name_cmp string_compare) pool
        if adjacent_loop string_compare (fun p => p.name) pool = false then (NC_ERROR, pool)
        else (NC_OK, pool)
    | (status, pool) => (status, pool)

/-- `conf_create`: the configuration handed to the caller, `none` for `NULL`.
`opened` says whether `conf_open` returned a configuration, `pre` is the status
of `conf_pre_validate`, `parsed` the status of `conf_parse` and the pools it
built.  Runtime pools are only ever built from a configuration returned here. -/
def conf_create (c : conf_constants) (stale : Nat → Nat → conf_server)
    (string_compare : String → String → Int)
    (array_sort : (conf_pool → conf_pool → Int) → List conf_pool → List conf_pool)
    (opened : Bool) (pre : rstatus_t) (parsed : rstatus_t × List conf_pool) :
    Option (List conf_pool) :=
  if opened = false then none
  else if pre ≠ NC_OK then none
  else if parsed.1 ≠ NC_OK then none
  else
    match conf_post_validate c stale string_compare array_sort parsed.2 with
    | (NC_OK, pool) => some pool
    | _ => none

/-! ## Specification-side vocabulary -/

/-- A fetched pair is an admission candidate when neither of its two candidate
fingerprints is in the admitted set. -/
def unmatched (hash_crc16 : String → Nat) (identifier : List Nat) (s bs : conf_server) : Prop :=
  crc_pair hash_crc16 s bs ∉ identifier ∧ crc_pair hash_crc16 bs s ∉ identifier

instance (hash_crc16 : String → Nat) (identifier : List Nat) (s bs : conf_server) :
    Decidable (unmatched hash_crc16 identifier s bs) := by
  unfold unmatched; infer_instance

/-- A sample checksum used only to instantiate theorems at concrete inputs. -/
def sample_crc16 (s : String) : Nat :=
  (s.toList.foldl (fun acc c => acc * 31 + c.toNat) 7) % 65536

/-- Sample registry descriptors `{ip, port, slave_ip, slave_port}` as
`conf_from_zookeeper` builds them (weight 1, validity flag left 0). -/
def node_a : conf_server :=
  { pname := "10.0.0.1:8888", name := "10.0.0.1", addrstr := "10.0.0.1", port := 8888, weight := 1 }

def node_a_slave : conf_server :=
  { pname := "10.0.1.1:8888", name := "10.0.1.1", addrstr := "10.0.1.1", port := 8888, weight := 1 }

def node_b : conf_server :=
  { pname := "10.0.0.2:8888", name := "10.0.0.2", addrstr := "10.0.0.2", port := 8888, weight := 1 }

def node_b_slave : conf_server :=
  { pname := "10.0.1.2:8888", name := "10.0.1.2", addrstr := "10.0.1.2", port := 8888, weight := 1 }

def node_c : conf_server :=
  { pname := "10.0.0.3:8888", name := "10.0.0.3", addrstr := "10.0.0.3", port := 8888, weight := 1 }

def node_c_slave : conf_server :=
  { pname := "10.0.1.3:8888", name := "10.0.1.3", addrstr := "10.0.1.3", port := 8888, weight := 1 }

/-- A registry-backed pool that is initialised and holds no server and no
admitted fingerprint. -/
def empty_pool : server_pool := { finish_init := 1 }

/-- A pool that has admitted the pair (`node_a`, `node_a_slave`) under the
checksum `hash_crc16`. -/
def pool_with_a (hash_crc16 : String → Nat) : server_pool :=
  { finish_init := 1
    server := conf_server_init_new node_a [] 0
    backup_server := conf_server_init_new node_a_slave [] 0
    server_identifier := [crc_pair hash_crc16 node_a node_a_slave] }

/-- The protocol a pool runs once defaults are applied (lines 1556-1558). -/
def pool_protocol (c : conf_constants) (cp : conf_pool) : Int :=
  if cp.protocol = c.CONF_UNSET_NUM then c.CONF_DEFAULT_REDIS else cp.protocol

/-- Sample values for the constants, used only to instantiate theorems at
concrete inputs. -/
def sample_constants : conf_constants :=
  { CONF_UNSET_NUM := -1
    CONF_UNSET_HASH := -1
    CONF_UNSET_DIST := -1
    CONF_DEFAULT_HASH := 5
    CONF_DEFAULT_DIST := 0
    CONF_DEFAULT_TIMEOUT := -1
    CONF_DEFAULT_LISTEN_BACKLOG := 512
    CONF_DEFAULT_CLIENT_CONNECTIONS := 0
    CONF_DEFAULT_REDIS := 0
    CONF_DEFAULT_TCPKEEPALIVE := 0
    CONF_DEFAULT_REDIS_DB := 0
    CONF_DEFAULT_PRECONNECT := 0
    CONF_DEFAULT_MASTER := 0
    CONF_DEFAULT_AUTO_EJECT_HOSTS := 0
    CONF_DEFAULT_SERVER_CONNECTIONS := 1
    CONF_DEFAULT_SERVER_RETRY_TIMEOUT := 30000
    CONF_DEFAULT_SERVER_FAILURE_LIMIT := 2
    CONF_DEFAULT_KETAMA_PORT := 11211
    PROTOCOL_REDIS := 0 }

/-- A freshly parsed pool (`conf_pool_init` leaves every tunable unset) with a
valid `listen:` and one flat server. -/
def sample_pool (name listen : String) : conf_pool :=
  { name := name
    listen := { pname := listen, name := "127.0.0.1", port := 6000, valid := 1 }
    hash := -1
    distribution := -1
    timeout := -1
    backlog := -1
    client_connections := -1
    protocol := -1
    tcpkeepalive := -1
    redis_db := -1
    preconnect := -1
    master := -1
    auto_eject_hosts := -1
    server_connections := -1
    server_retry_timeout := -1
    server_failure_limit := -1
    server := [{ pname := "10.0.0.1:11211:1", name := "10.0.0.1", addrstr := "10.0.0.1",
                 port := 11211, weight := 1, valid := 1 }] }

/-- The four tests of `conf_validate_pool`, read on the pool as declared. -/
def pool_acceptable (c : conf_constants) (stale : Nat → conf_server) (cp : conf_pool) : Prop :=
  cp.listen.valid ≠ 0 ∧
  ¬ (cp.server_connections ≠ c.CONF_UNSET_NUM ∧ cp.server_connections = 0) ∧
  ¬ (pool_protocol c cp ≠ c.PROTOCOL_REDIS ∧ cp.redis_auth.length > 0) ∧
  conf_expand_groups stale cp ≠ []


/-- `sort` returns its input rearranged so that `cmp` never puts a later
element before an earlier one: what `qsort` does for a consistent comparator. -/
def sorts_by (cmp : conf_pool → conf_pool → Int) (sort : List conf_pool → List conf_pool) :
    Prop :=
  ∀ l, (sort l).Perm l ∧ (sort l).Pairwise (fun x y => cmp x y ≤ 0)

/-- A sample comparator (0 on equal strings, negative below, positive above),
used only to instantiate theorems at concrete inputs. -/
def sample_string_compare (a b : String) : Int :=
  if a = b then 0 else if a < b then -1 else 1

/-- A sample sort (insertion sort by the comparator), used only to instantiate
theorems at concrete inputs. -/
def sample_array_sort (cmp : conf_pool → conf_pool → Int) (l : List conf_pool) :
    List conf_pool :=
  l.insertionSort (fun x y => cmp x y ≤ 0)

/-! ## Sample pools with server groups -/

/-- A pool declared with `servers:` groups only: no flat server, one group of
two member servers. -/
def grouped_pool : conf_pool :=
  { sample_pool "alpha" "127.0.0.1:6000" with
    server := []
    servergroup :=
      [{ server :=
           [{ pname := "10.0.0.1", name := "10.0.0.1", addrstr := "10.0.0.1",
              port := 11211, weight := 1, valid := 1 },
            { pname := "10.0.0.2", name := "10.0.0.2", addrstr := "10.0.0.2",
              port := 11211, weight := 1, valid := 1 }] }] }

/-! ## Document validation: the token pass and the structural pass -/

/-- `yaml_token_type_t` of the YAML library; `YAML_OTHER_TOKEN` stands for any
integer outside the enumeration (the `default:` arm of the switch). -/
inductive yaml_token_type where
  | YAML_NO_TOKEN
  | YAML_STREAM_START_TOKEN
  | YAML_STREAM_END_TOKEN
  | YAML_VERSION_DIRECTIVE_TOKEN
  | YAML_TAG_DIRECTIVE_TOKEN
  | YAML_DOCUMENT_START_TOKEN
  | YAML_DOCUMENT_END_TOKEN
  | YAML_BLOCK_SEQUENCE_START_TOKEN
  | YAML_BLOCK_MAPPING_START_TOKEN
  | YAML_BLOCK_END_TOKEN
  | YAML_FLOW_SEQUENCE_START_TOKEN
  | YAML_FLOW_SEQUENCE_END_TOKEN
  | YAML_FLOW_MAPPING_START_TOKEN
  | YAML_FLOW_MAPPING_END_TOKEN
  | YAML_BLOCK_ENTRY_TOKEN
  | YAML_FLOW_ENTRY_TOKEN
  | YAML_KEY_TOKEN
  | YAML_VALUE_TOKEN
  | YAML_ALIAS_TOKEN
  | YAML_ANCHOR_TOKEN
  | YAML_TAG_TOKEN
  | YAML_SCALAR_TOKEN
  | YAML_OTHER_TOKEN
  deriving DecidableEq, Repr

open yaml_token_type

/-- The switch of lines 1228-1317 on one token: the new `(done, error)`. -/
def token_switch (type : yaml_token_type) (done error : Bool) : Bool × Bool :=
  match type with
  | YAML_NO_TOKEN => (done, true)
  | YAML_VERSION_DIRECTIVE_TOKEN => (done, true)
  | YAML_TAG_DIRECTIVE_TOKEN => (done, true)
  | YAML_DOCUMENT_START_TOKEN => (done, true)
  | YAML_DOCUMENT_END_TOKEN => (done, true)
  | YAML_FLOW_SEQUENCE_START_TOKEN => (done, true)
  | YAML_FLOW_SEQUENCE_END_TOKEN => (done, true)
  | YAML_FLOW_MAPPING_START_TOKEN => (done, true)
  | YAML_FLOW_MAPPING_END_TOKEN => (done, true)
  | YAML_FLOW_ENTRY_TOKEN => (done, true)
  | YAML_ALIAS_TOKEN => (done, true)
  | YAML_ANCHOR_TOKEN => (done, true)
  | YAML_TAG_TOKEN => (done, true)
  | YAML_BLOCK_SEQUENCE_START_TOKEN => (done, error)
  | YAML_BLOCK_MAPPING_START_TOKEN => (done, error)
  | YAML_BLOCK_END_TOKEN => (done, error)
  | YAML_BLOCK_ENTRY_TOKEN => (done, error)
  | YAML_KEY_TOKEN => (done, error)
  | YAML_VALUE_TOKEN => (done, error)
  | YAML_SCALAR_TOKEN => (done, error)
  | YAML_STREAM_START_TOKEN => (done, error)
  | YAML_STREAM_END_TOKEN => (true, error)
  | YAML_OTHER_TOKEN => (done, true)

/-- The `do ... while (!done && !error)` loop of `conf_validate_tokens` over
the tokens the scanner yields, in order.  `none`: the scanner failed
(`conf_token_next` returned an error; a list that runs out stands for that).
`some error`: the loop ended with this `error` flag. -/
def token_loop : List yaml_token_type → Bool → Bool → Option Bool
  | [], _, _ => none
  | type :: rest, done, error =>
    if (token_switch type done error).1 = false ∧ (token_switch type done error).2 = false then
      token_loop rest (token_switch type done error).1 (token_switch type done error).2
    else some (token_switch type done error).2

/-- `conf_validate_tokens`, on the token stream of the file (`conf_yaml_init`
taken to succeed). -/
def conf_validate_tokens (tokens : List yaml_token_type) : rstatus_t :=
  match token_loop tokens false false with
  | none => NC_ERROR
  | some error => if error = false then NC_OK else NC_ERROR

/-- The allow-list of the token pass. -/
def token_allowed (type : yaml_token_type) : Bool :=
  type = YAML_STREAM_START_TOKEN ∨ type = YAML_STREAM_END_TOKEN ∨
  type = YAML_BLOCK_SEQUENCE_START_TOKEN ∨ type = YAML_BLOCK_MAPPING_START_TOKEN ∨
  type = YAML_BLOCK_END_TOKEN ∨ type = YAML_BLOCK_ENTRY_TOKEN ∨
  type = YAML_KEY_TOKEN ∨ type = YAML_VALUE_TOKEN ∨ type = YAML_SCALAR_TOKEN

/-- `yaml_event_t` of the YAML library: the event type and, for a scalar, its
text. -/
inductive yaml_event where
  | YAML_NO_EVENT
  | YAML_STREAM_START_EVENT
  | YAML_STREAM_END_EVENT
  | YAML_DOCUMENT_START_EVENT
  | YAML_DOCUMENT_END_EVENT
  | YAML_ALIAS_EVENT
  | YAML_SCALAR_EVENT (value : String)
  | YAML_SEQUENCE_START_EVENT
  | YAML_SEQUENCE_END_EVENT
  | YAML_MAPPING_START_EVENT
  | YAML_MAPPING_END_EVENT
  deriving DecidableEq, Repr

open yaml_event

/-- The locals of `conf_validate_structure`.  `count` is the array
`count[CONF_MAX_DEPTH + 1]`, indexed by `depth`; cells outside
`0 .. CONF_MAX_DEPTH` stand for the memory next to the array, which only a
stream with more mapping ends than mapping starts can reach. -/
structure structure_state where
  depth : Int
  count : Int → Nat
  seq : Bool
  done : Bool
  error : Bool

/-- The assignment `count[i] = v`. -/
def count_set (count : Int → Nat) (i : Int) (v : Nat) : Int → Nat :=
  fun j => if j = i then v else count j

/-- The locals at loop entry (lines 1340-1346). -/
def structure_init : structure_state :=
  { depth := 0, count := fun _ => 0, seq := false, done := false, error := false }

/-- The switch of lines 1380-1459 on one event.  `NOT_REACHED()` in the
`default:` arm does nothing. -/
def structure_step (CONF_ROOT_DEPTH CONF_MAX_DEPTH : Nat) (st : structure_state)
    (event : yaml_event) : structure_state :=
  match event with
  | YAML_STREAM_START_EVENT => st
  | YAML_DOCUMENT_START_EVENT => st
  | YAML_DOCUMENT_END_EVENT => st
  | YAML_STREAM_END_EVENT => { st with done := true }
  | YAML_MAPPING_START_EVENT =>
    let st :=
      if st.depth = CONF_ROOT_DEPTH ∧ st.count st.depth ≠ 1 then { st with error := true }
      else if st.depth ≥ CONF_MAX_DEPTH then { st with error := true }
      else st
    { st with depth := st.depth + 1 }
  | YAML_MAPPING_END_EVENT =>
    let st :=
      if st.depth = CONF_MAX_DEPTH then
        if st.seq = true then { st with seq := false } else { st with error := true }
      else st
    let st := { st with depth := st.depth - 1 }
    { st with count := count_set st.count st.depth 0 }
  | YAML_SEQUENCE_START_EVENT =>
    let st :=
      if st.seq = true then st
      else if st.depth ≠ CONF_MAX_DEPTH then { st with error := true }
      else if st.count st.depth ≠ 1 then { st with error := true }
      else st
    { st with seq := true }
  | YAML_SEQUENCE_END_EVENT => { st with count := count_set st.count st.depth 0 }
  | YAML_SCALAR_EVENT _ =>
    let st :=
      if st.depth = 0 then { st with error := true }
      else if st.depth = CONF_ROOT_DEPTH ∧ st.count st.depth ≠ 0 then { st with error := true }
      else if st.depth = CONF_MAX_DEPTH ∧ st.count st.depth = 2 then
        { st with count := count_set st.count st.depth 0 }
      else st
    { st with count := count_set st.count st.depth ((st.count st.depth + 1) % 4294967296) }
  | YAML_NO_EVENT => st
  | YAML_ALIAS_EVENT => st

/-- The `do ... while (!done && !error)` loop of `conf_validate_structure` over
the events the parser yields, in order.  `none`: `conf_event_next` failed (a
list that runs out stands for that).  `some st`: the loop ended in `st`. -/
def structure_loop (CONF_ROOT_DEPTH CONF_MAX_DEPTH : Nat) :
    List yaml_event → structure_state → Option structure_state
  | [], _ => none
  | event :: rest, st =>
    if (structure_step CONF_ROOT_DEPTH CONF_MAX_DEPTH st event).done = false ∧
        (structure_step CONF_ROOT_DEPTH CONF_MAX_DEPTH st event).error = false then
      structure_loop CONF_ROOT_DEPTH CONF_MAX_DEPTH rest
        (structure_step CONF_ROOT_DEPTH CONF_MAX_DEPTH st event)
    else some (structure_step CONF_ROOT_DEPTH CONF_MAX_DEPTH st event)

/-- `conf_validate_structure`, on the event stream of the file
(`conf_yaml_init` taken to succeed). -/
def conf_validate_structure (CONF_ROOT_DEPTH CONF_MAX_DEPTH : Nat)
    (events : List yaml_event) : rstatus_t :=
  match structure_loop CONF_ROOT_DEPTH CONF_MAX_DEPTH events structure_init with
  | none => NC_ERROR
  | some st => if st.error = false then NC_OK else NC_ERROR

/-- The locals after the events of `pre` have gone through the switch: the
state the walk is in at that point. -/
def structure_walk (CONF_ROOT_DEPTH CONF_MAX_DEPTH : Nat) (pre : List yaml_event)
    (st : structure_state) : structure_state :=
  pre.foldl (structure_step CONF_ROOT_DEPTH CONF_MAX_DEPTH) st

/-- The mapping depth after the events of `pre`, read off the events alone:
mapping starts minus mapping ends, from depth `d`. -/
def event_depth : List yaml_event → Int → Int
  | [], d => d
  | YAML_MAPPING_START_EVENT :: rest, d => event_depth rest (d + 1)
  | YAML_MAPPING_END_EVENT :: rest, d => event_depth rest (d - 1)
  | _ :: rest, d => event_depth rest d

/-- The number of scalar events met at mapping depth `root` since the last
mapping end that came back to that depth, read off the events alone, from depth
`d` with `k` such scalars so far. -/
def keys_since_close (root : Int) : List yaml_event → Int → Nat → Nat
  | [], _, k => k
  | YAML_SCALAR_EVENT _ :: rest, d, k =>
    keys_since_close root rest d (if d = root then k + 1 else k)
  | YAML_MAPPING_START_EVENT :: rest, d, k => keys_since_close root rest (d + 1) k
  | YAML_MAPPING_END_EVENT :: rest, d, k =>
    keys_since_close root rest (d - 1) (if d - 1 = root then 0 else k)
  | _ :: rest, d, k => keys_since_close root rest d k

/-- The events of a file with one pool `a` whose `k` sequence holds the
element `x` and a nested sequence with the element `y`:
`a: \x7b k: [x, [y]] \x7d` in block style. -/
def nested_sequence_events : List yaml_event :=
  [YAML_STREAM_START_EVENT, YAML_DOCUMENT_START_EVENT, YAML_MAPPING_START_EVENT,
   YAML_SCALAR_EVENT "a", YAML_MAPPING_START_EVENT, YAML_SCALAR_EVENT "k",
   YAML_SEQUENCE_START_EVENT, YAML_SCALAR_EVENT "x", YAML_SEQUENCE_START_EVENT,
   YAML_SCALAR_EVENT "y", YAML_SEQUENCE_END_EVENT, YAML_SEQUENCE_END_EVENT,
   YAML_MAPPING_END_EVENT, YAML_MAPPING_END_EVENT, YAML_DOCUMENT_END_EVENT,
   YAML_STREAM_END_EVENT]

/-- The events of `alpha: \x7b listen: 127.0.0.1:6000, servers: [10.0.0.1:11211:1] \x7d`
in block style. -/
def alpha_events : List yaml_event :=
  [YAML_STREAM_START_EVENT, YAML_DOCUMENT_START_EVENT, YAML_MAPPING_START_EVENT,
   YAML_SCALAR_EVENT "alpha", YAML_MAPPING_START_EVENT,
   YAML_SCALAR_EVENT "listen", YAML_SCALAR_EVENT "127.0.0.1:6000",
   YAML_SCALAR_EVENT "servers", YAML_SEQUENCE_START_EVENT,
   YAML_SCALAR_EVENT "10.0.0.1:11211:1", YAML_SEQUENCE_END_EVENT,
   YAML_MAPPING_END_EVENT, YAML_MAPPING_END_EVENT, YAML_DOCUMENT_END_EVENT,
   YAML_STREAM_END_EVENT]

/-! ## Runtime transformation (`conf_pool_each_transform`) -/

/-- What the collaborators of `conf_pool_each_transform` answer: `zk` is the
result of `conf_from_zookeeper` at line 620 (status and the two lists it left
in `cp->server` and `cp->backupserver`); `server_init`, `backup_server_init`,
`server_identifier_init` and `slotmap_ctx_init` are the functions of
`nc_server.c` (status and what they built, from the declarations and the index
of the owning pool); `ssdb_handle` says whether `dlopen` returned a handle. -/
structure transform_env where
  zk : zk_fetch
  server_init : List conf_server → Nat → rstatus_t × List server
  backup_server_init : List conf_server → Nat → rstatus_t × List server
  server_identifier_init : List server → List server → rstatus_t × List Nat
  slotmap_ctx_init : rstatus_t
  ssdb_handle : Bool

/-- The value of an `int64_t` expression: the mathematical result reduced to
the range of 64-bit two's complement. -/
def int64_wrap (x : Int) : Int :=
  (x + 9223372036854775808) % 18446744073709551616 - 9223372036854775808

/-- Lines 552-596: the assignments that copy the declaration `cp` into the
runtime pool just pushed at index `idx`; `stale` is what the pushed slot held. -/
def conf_pool_copy (stale : server_pool) (cp : conf_pool) (idx : Nat) : server_pool :=
  { stale with
    idx := idx
    finish_init := 0
    server := []
    name := cp.name
    addrstr := cp.listen.pname
    port := (cp.listen.port % 65536).toNat
    key_hash_type := cp.hash
    dist_type := cp.distribution
    hash_tag := cp.hash_tag
    tcpkeepalive := if cp.tcpkeepalive ≠ 0 then 1 else 0
    protocol := (cp.protocol % 4294967296).toNat
    timeout := cp.timeout
    backlog := cp.backlog
    redis_db := cp.redis_db
    redis_auth := cp.redis_auth
    require_auth := if cp.redis_auth.length > 0 then 1 else 0
    client_connections := (cp.client_connections % 4294967296).toNat
    server_connections := (cp.server_connections % 4294967296).toNat
    server_retry_timeout := int64_wrap (cp.server_retry_timeout * 1000)
    server_failure_limit := (cp.server_failure_limit % 4294967296).toNat
    auto_eject_hosts := if cp.auto_eject_hosts ≠ 0 then 1 else 0
    preconnect := if cp.preconnect ≠ 0 then 1 else 0
    master := if cp.master ≠ 0 then 1 else 0 }

/-- Lines 626-664: the backup length check, the four initialisations, the
library handle and the `finish_init` flag, on the declaration `cp` as the
registry step left it. -/
def conf_pool_transform_servers (env : transform_env) (cp : conf_pool) (sp : server_pool) :
    rstatus_t × server_pool :=
  if cp.backupserver.length ≠ 0 then
    if cp.backupserver.length ≠ cp.server.length then (NC_ERROR, sp)
    else
      match env.server_init cp.server sp.idx with
      | (NC_OK, srv) =>
        match env.backup_server_init cp.backupserver sp.idx with
        | (NC_OK, bsrv) =>
          match env.server_identifier_init srv bsrv with
          | (NC_OK, ident) =>
            match env.slotmap_ctx_init with
            | NC_OK =>
              if env.ssdb_handle = false then
                (NC_ERROR,
                  { sp with server := srv, backup_server := bsrv, server_identifier := ident })
              else
                (NC_OK,
                  { sp with
                    server := srv, backup_server := bsrv, server_identifier := ident
                    finish_init := 1 })
            | status =>
              (status,
                { sp with server := srv, backup_server := bsrv, server_identifier := ident })
          | (status, ident) =>
            (status, { sp with server := srv, backup_server := bsrv, server_identifier := ident })
        | (status, bsrv) => (status, { sp with server := srv, backup_server := bsrv })
      | (status, srv) => (status, { sp with server := srv })
  else if env.ssdb_handle = false then (NC_ERROR, sp)
  else (NC_OK, { sp with finish_init := 1 })

/-- `conf_pool_each_transform`: the status, the runtime pool pushed onto the
array `pool_array` as the call leaves it, and the declaration as the call leaves it
(a pool with registry servers has its two server collections replaced by the
fetched ones at line 620). -/
def conf_pool_each_transform (env : transform_env) (stale : server_pool) (cp : conf_pool)
    (pool_array : List server_pool) : rstatus_t × server_pool × conf_pool :=
  let sp := conf_pool_copy stale cp pool_array.length
  if cp.zookeeperserver.length ≠ 0 then
    let cp := { cp with server := env.zk.server, backupserver := env.zk.backupserver }
    if env.zk.status ≠ NC_OK then (env.zk.status, sp, cp)
    else ((conf_pool_transform_servers env cp sp).1, (conf_pool_transform_servers env cp sp).2, cp)
  else ((conf_pool_transform_servers env cp sp).1, (conf_pool_transform_servers env cp sp).2, cp)

/-- The two server collections the length check of line 627 looks at: the
fetched ones for a pool with registry servers, the declared ones otherwise. -/
def checked_servers (env : transform_env) (cp : conf_pool) :
    List conf_server × List conf_server :=
  if cp.zookeeperserver.length ≠ 0 then (env.zk.server, env.zk.backupserver)
  else (cp.server, cp.backupserver)

/-- Collaborators that all succeed, the registry answering with the single
pair (`node_a`, `node_a_slave`). -/
def sample_env : transform_env :=
  { zk := { server := [node_a], backupserver := [node_a_slave] }
    server_init := fun l sp => (NC_OK, l.foldl (fun acc cs => conf_server_init_new cs acc sp) [])
    backup_server_init :=
      fun l sp => (NC_OK, l.foldl (fun acc cs => conf_server_init_new cs acc sp) [])
    server_identifier_init := fun _ _ => (NC_OK, [])
    slotmap_ctx_init := NC_OK
    ssdb_handle := true }

/-- A valid pool that declares one server, two backup servers and one registry
server. -/
def registry_pool : conf_pool :=
  { sample_pool "alpha" "127.0.0.1:6000" with
    valid := 1
    backupserver := [node_a_slave, node_b_slave]
    zookeeperserver :=
      [{ pname := "10.0.9.1:2181:1", name := "10.0.9.1", addrstr := "10.0.9.1",
         port := 2181, weight := 1, valid := 1 }] }

/-! ## The command table and the directive handlers -/

/-- The handler a row of `conf_commands` names. -/
inductive conf_setter where
  | conf_set_listen
  | conf_set_hash
  | conf_set_hashtag
  | conf_set_distribution
  | conf_set_num
  | conf_set_protocol
  | conf_set_bool
  | conf_set_string
  | conf_add_server_group
  | conf_add_backup_server
  | conf_add_zookeeper_server
  deriving DecidableEq, Repr

/-- The field a row of `conf_commands` points at (`offsetof(struct conf_pool, ...)`). -/
inductive conf_field where
  | listen
  | hash
  | hash_tag
  | distribution
  | timeout
  | backlog
  | client_connections
  | protocol
  | tcpkeepalive
  | redis_auth
  | redis_db
  | preconnect
  | master
  | auto_eject_hosts
  | server_connections
  | server_retry_timeout
  | server_failure_limit
  | servergroup
  | backupserver
  | zookeeperserver
  deriving DecidableEq, Repr

/-- `struct command`: directive name, handler, field. -/
structure command where
  name : String
  set : conf_setter
  offset : conf_field
  deriving DecidableEq, Repr

/-- `conf_commands` (lines 45-126), without the terminating `null_command`. -/
def conf_commands : List command :=
  [⟨"listen", .conf_set_listen, .listen⟩,
   ⟨"hash", .conf_set_hash, .hash⟩,
   ⟨"hash_tag", .conf_set_hashtag, .hash_tag⟩,
   ⟨"distribution", .conf_set_distribution, .distribution⟩,
   ⟨"timeout", .conf_set_num, .timeout⟩,
   ⟨"backlog", .conf_set_num, .backlog⟩,
   ⟨"client_connections", .conf_set_num, .client_connections⟩,
   ⟨"protocol", .conf_set_protocol, .protocol⟩,
   ⟨"tcpkeepalive", .conf_set_bool, .tcpkeepalive⟩,
   ⟨"redis_auth", .conf_set_string, .redis_auth⟩,
   ⟨"redis_db", .conf_set_num, .redis_db⟩,
   ⟨"preconnect", .conf_set_bool, .preconnect⟩,
   ⟨"master", .conf_set_bool, .master⟩,
   ⟨"auto_eject_hosts", .conf_set_bool, .auto_eject_hosts⟩,
   ⟨"server_connections", .conf_set_num, .server_connections⟩,
   ⟨"server_retry_timeout", .conf_set_num, .server_retry_timeout⟩,
   ⟨"server_failure_limit", .conf_set_num, .server_failure_limit⟩,
   ⟨"servers", .conf_add_server_group, .servergroup⟩,
   ⟨"backupservers", .conf_add_backup_server, .backupserver⟩,
   ⟨"zookeeperservers", .conf_add_zookeeper_server, .zookeeperserver⟩]

/-- What the handlers take from outside this file: `string_compare`
(`nc_string.c`), `nc_atoi`, `nc_valid_port` and `nc_resolve` (`nc_util.c`; the
resolver gives a status and the resolved address), `strtol` in base 8 (the
value and whether `errno` was set), the name tables `hash_strings` and
`dist_strings` built from `HASH_CODEC` and `DIST_CODEC`, and the protocol
constants. -/
structure parse_env where
  string_compare : String → String → Int
  nc_atoi : String → Int
  nc_valid_port : Int → Bool
  nc_resolve : String → Int → rstatus_t × Nat
  strtol_octal : String → Int × Bool
  hash_strings : List String
  dist_strings : List String
  PROTOCOL_SSDB : Int
  PROTOCOL_MEMCACHE : Int

/-- `CONF_ERROR` of `nc_conf.h`; `CONF_OK` is `none`. -/
def CONF_ERROR : String := "has an invalid value"

/-- The `int`, `hash_type_t` or `dist_type_t` at a field offset. -/
def field_num_get (f : conf_field) (cp : conf_pool) : Int :=
  match f with
  | .hash => cp.hash
  | .distribution => cp.distribution
  | .timeout => cp.timeout
  | .backlog => cp.backlog
  | .client_connections => cp.client_connections
  | .protocol => cp.protocol
  | .tcpkeepalive => cp.tcpkeepalive
  | .redis_db => cp.redis_db
  | .preconnect => cp.preconnect
  | .master => cp.master
  | .auto_eject_hosts => cp.auto_eject_hosts
  | .server_connections => cp.server_connections
  | .server_retry_timeout => cp.server_retry_timeout
  | .server_failure_limit => cp.server_failure_limit
  | _ => 0

/-- The store through the pointer to the number at a field offset.  The table
pairs the numeric handlers with numeric fields only. -/
def field_num_set (f : conf_field) (v : Int) (cp : conf_pool) : conf_pool :=
  match f with
  | .hash => { cp with hash := v }
  | .distribution => { cp with distribution := v }
  | .timeout => { cp with timeout := v }
  | .backlog => { cp with backlog := v }
  | .client_connections => { cp with client_connections := v }
  | .protocol => { cp with protocol := v }
  | .tcpkeepalive => { cp with tcpkeepalive := v }
  | .redis_db => { cp with redis_db := v }
  | .preconnect => { cp with preconnect := v }
  | .master => { cp with master := v }
  | .auto_eject_hosts => { cp with auto_eject_hosts := v }
  | .server_connections => { cp with server_connections := v }
  | .server_retry_timeout => { cp with server_retry_timeout := v }
  | .server_failure_limit => { cp with server_failure_limit := v }
  | _ => cp

/-- The `struct string` at a field offset.  The empty string is the unset
string (`data == CONF_UNSET_PTR`): every value the parser hands to a handler
is non-empty (`conf_push_scalar`). -/
def field_str_get (f : conf_field) (cp : conf_pool) : String :=
  match f with
  | .hash_tag => cp.hash_tag
  | .redis_auth => cp.redis_auth
  | _ => ""

/-- The store through the pointer to the `struct string` at a field offset. -/
def field_str_set (f : conf_field) (v : String) (cp : conf_pool) : conf_pool :=
  match f with
  | .hash_tag => { cp with hash_tag := v }
  | .redis_auth => { cp with redis_auth := v }
  | _ => cp

/-- `nc_strrchr(p, start, c)` with `p` the last byte: the text before the last
`c` and the text after it; `none` when `c` does not occur. -/
def split_last (c : Char) : List Char → Option (List Char × List Char)
  | [] => none
  | x :: xs =>
    match split_last c xs with
    | some (a, b) => some (x :: a, b)
    | none => if x = c then some ([], xs) else none

/-- Lines 1857-1869 of `conf_set_listen`: store the name, resolve it, mark the
declaration valid. -/
def conf_set_listen_finish (env : parse_env) (name : String) (field : conf_listen) :
    Option String × conf_listen :=
  match env.nc_resolve name field.port with
  | (NC_OK, info) => (none, { field with name := name, info := info, valid := 1 })
  | _ => (some CONF_ERROR, { field with name := name })

/-- `conf_set_listen` on the listen declaration of the pool. -/
def conf_set_listen (env : parse_env) (value : String) (field : conf_listen) :
    Option String × conf_listen :=
  if field.valid = 1 then (some "is a duplicate", field)
  else
    let field := { field with pname := value }
    if value.toList.head? = some '/' then
      match split_last ' ' value.toList with
      | none => conf_set_listen_finish env value field
      | some (name, perm) =>
        let field :=
          { field with perm := ((env.strtol_octal (String.mk perm)).1 % 4294967296).toNat }
        if (env.strtol_octal (String.mk perm)).2 = true ∨ field.perm > 511 then
          (some "has an invalid file permission in \"socket_path permission\" format string",
            field)
        else conf_set_listen_finish env (String.mk name) field
    else
      match split_last ':' value.toList with
      | none => (some "has an invalid \"hostname:port\" format string", field)
      | some (name, port) =>
        let field := { field with port := env.nc_atoi (String.mk port) }
        if field.port < 0 ∨ env.nc_valid_port field.port = false then
          (some "has an invalid port in \"hostname:port\" format string", field)
        else conf_set_listen_finish env (String.mk name) field

/-- The loops of `conf_set_hash` and `conf_set_distribution` over a name
table, from index `i`: the index of the first name equal to `value`. -/
def name_table_loop (string_compare : String → String → Int) (value : String) :
    List String → Nat → Option Nat
  | [], _ => none
  | name :: rest, i =>
    if string_compare value name ≠ 0 then name_table_loop string_compare value rest (i + 1)
    else some i

/-- `conf_set_hash`. -/
def conf_set_hash (c : conf_constants) (env : parse_env) (f : conf_field) (value : String)
    (cp : conf_pool) : Option String × conf_pool :=
  if field_num_get f cp ≠ c.CONF_UNSET_HASH then (some "is a duplicate", cp)
  else
    match name_table_loop env.string_compare value env.hash_strings 0 with
    | some i => (none, field_num_set f i cp)
    | none => (some "is not a valid hash", cp)

/-- `conf_set_distribution`. -/
def conf_set_distribution (c : conf_constants) (env : parse_env) (f : conf_field)
    (value : String) (cp : conf_pool) : Option String × conf_pool :=
  if field_num_get f cp ≠ c.CONF_UNSET_DIST then (some "is a duplicate", cp)
  else
    match name_table_loop env.string_compare value env.dist_strings 0 with
    | some i => (none, field_num_set f i cp)
    | none => (some "is not a valid distribution", cp)

/-- `conf_set_hashtag`. -/
def conf_set_hashtag (f : conf_field) (value : String) (cp : conf_pool) :
    Option String × conf_pool :=
  if field_str_get f cp ≠ "" then (some "is a duplicate", cp)
  else if value.length ≠ 2 then
    (some "is not a valid hash tag string with two characters", cp)
  else (none, field_str_set f value cp)

/-- `conf_set_string`. -/
def conf_set_string (f : conf_field) (value : String) (cp : conf_pool) :
    Option String × conf_pool :=
  if field_str_get f cp ≠ "" then (some "is a duplicate", cp)
  else (none, field_str_set f value cp)

/-- `conf_set_num`. -/
def conf_set_num (c : conf_constants) (env : parse_env) (f : conf_field) (value : String)
    (cp : conf_pool) : Option String × conf_pool :=
  if field_num_get f cp ≠ c.CONF_UNSET_NUM then (some "is a duplicate", cp)
  else if env.nc_atoi value < 0 then (some "is not a number", cp)
  else (none, field_num_set f (env.nc_atoi value) cp)

/-- `conf_set_bool`. -/
def conf_set_bool (c : conf_constants) (env : parse_env) (f : conf_field) (value : String)
    (cp : conf_pool) : Option String × conf_pool :=
  if field_num_get f cp ≠ c.CONF_UNSET_NUM then (some "is a duplicate", cp)
  else if env.string_compare value "true" = 0 then (none, field_num_set f 1 cp)
  else if env.string_compare value "false" = 0 then (none, field_num_set f 0 cp)
  else (some "is not \"true\" or \"false\"", cp)

/-- `conf_set_protocol`. -/
def conf_set_protocol (c : conf_constants) (env : parse_env) (f : conf_field) (value : String)
    (cp : conf_pool) : Option String × conf_pool :=
  if field_num_get f cp ≠ c.CONF_UNSET_NUM then (some "is a duplicate", cp)
  else if env.string_compare value "redis" = 0 then (none, field_num_set f c.PROTOCOL_REDIS cp)
  else if env.string_compare value "ssdb" = 0 then (none, field_num_set f env.PROTOCOL_SSDB cp)
  else if env.string_compare value "memcache" = 0 then
    (none, field_num_set f env.PROTOCOL_MEMCACHE cp)
  else (some "protocol error", cp)

/-! ### The server handlers -/

/-- `nc_strchr(p, last, c)` on the bytes of `[p, last)`: the offset from `p`
of the first `c`, `none` for `NULL`. -/
def nc_strchr (c : Char) : List Char → Option Nat
  | [] => none
  | x :: xs => if x = c then some 0 else (nc_strchr c xs).map (fun i => i + 1)

/-- What the delimiter loop of `conf_add_server` (lines 2056-2089) holds: the
loop index `k`, the text of `[start, p]` not yet split, and the name, weight
and port texts (`none` while the pointer is `NULL`). -/
structure server_split where
  k : Nat := 0
  rest : List Char := []
  name : Option (List Char) := none
  weight : Option (List Char) := none
  port : Option (List Char) := none
  deriving DecidableEq, Repr

/-- The bytes of `char delim[] = " ::"`, the terminating NUL included
(`sizeof(delim)` is 4). -/
def delim : List Char := [' ', ':', ':', Char.ofNat 0]

/-- The `for` loop of lines 2056-2089 over the delimiters still to try. -/
def conf_add_server_loop : List Char → server_split → server_split
  | [], st => st
  | d :: ds, st =>
    match split_last d st.rest with
    | none => if st.k = 0 then conf_add_server_loop ds { st with k := st.k + 1 } else st
    | some (before, after) =>
      let st1 : server_split :=
        if st.k = 0 then { st with name := some after }
        else if st.k = 1 then { st with weight := some after }
        else if st.k = 2 then { st with port := some after }
        else st
      conf_add_server_loop ds { st1 with rest := before, k := st.k + 1 }

/-- `conf_add_server` on the array at the command's offset: the message
returned (`none` for `CONF_OK`) and the array as the call leaves it.  The slot
is pushed and initialised first, so it stays in the array on the error paths. -/
def conf_add_server (c : conf_constants) (env : parse_env) (value : String)
    (a : List conf_server) : Option String × List conf_server :=
  let field : conf_server := {}
  let delimlen := if value.toList.head? = some '/' then 2 else 3
  let st := conf_add_server_loop delim { rest := value.toList }
  if st.k ≠ delimlen then
    (some ("has an invalid \"hostname:port:weight [name]\"or " ++
        "\"/path/unix_socket:weight [name]\" format string"), a ++ [field])
  else
    let namelen := (st.name.getD []).length
    let pnamelen := if namelen > 0 then value.length - (namelen + 1) else value.length
    let field := { field with pname := String.mk (value.toList.take pnamelen) }
    let field := { field with weight := env.nc_atoi (String.mk (st.weight.getD [])) }
    if field.weight < 0 then
      (some "has an invalid weight in \"hostname:port:weight [name]\" format string",
        a ++ [field])
    else if field.weight = 0 then
      (some "has a zero weight in \"hostname:port:weight [name]\" format string",
        a ++ [field])
    else
      let field :=
        if value.toList.head? ≠ some '/' then
          { field with port := env.nc_atoi (String.mk (st.port.getD [])) }
        else field
      if value.toList.head? ≠ some '/' ∧ (field.port < 0 ∨ env.nc_valid_port field.port = false)
      then
        (some "has an invalid port in \"hostname:port:weight [name]\" format string",
          a ++ [field])
      else
        let name :=
          match st.name with
          | some name => name
          | none =>
            if field.port = c.CONF_DEFAULT_KETAMA_PORT then st.rest
            else value.toList.take (st.rest.length + 1 + (st.port.getD []).length)
        (none, a ++ [{ field with name := String.mk name, addrstr := String.mk st.rest,
                                  valid := 1 }])

/-- One `host:port:weight` token of `conf_add_server_group` (lines 1936-1991),
`host` being the text before its first colon and `tail` the text after it: the
message on the error paths, or the server pushed into the group. -/
def conf_add_server_group_token (env : parse_env) (host tail : List Char) :
    Except String conf_server :=
  let field : conf_server :=
    { pname := String.mk host, name := String.mk host, addrstr := String.mk host }
  match nc_strchr ':' tail with
  | none => .error CONF_ERROR
  | some find =>
    let field : conf_server :=
      { field with port := env.nc_atoi (String.mk (tail.take find)) }
    if field.port < 0 ∨ env.nc_valid_port field.port = false then
      .error "has an invalid port in \"hostname:port:weight\" format string"
    else
      let field : conf_server :=
        { field with weight := env.nc_atoi (String.mk (tail.drop (find + 1))) }
      if field.weight < 0 then
        .error "has an invalid weight in \"hostname:port:weight\" format string"
      else if field.weight = 0 then
        .error "has a zero weight in \"hostname:port:weight\" format string"
      else .ok { field with valid := 1 }

/-- The inner loop of lines 2002-2012: skip spaces, never past the last byte. -/
def skip_spaces : List Char → List Char
  | x :: y :: rest => if x = ' ' then skip_spaces (y :: rest) else x :: y :: rest
  | s => s

/-- The `while (start < p)` loop of `conf_add_server_group` on the bytes `s`
of `[start, p]`.  Every pass moves `start` forward, so a `fuel` of at least the
length of `s` is never used up. -/
def conf_add_server_group_loop (env : parse_env) :
    Nat → List Char → conf_server_group → Option String × conf_server_group
  | 0, _, group => (none, group)
  | fuel + 1, s, group =>
    if s.length < 2 then (none, group)
    else
      let q := nc_strchr ' ' s.dropLast
      let token := s.take (q.getD s.length)
      match nc_strchr ':' token with
      | none =>
        if token.length = 4 ∨ s.take 4 = ['l', 'o', 'o', 'p'] then
          (none, { group with loop := 1 })
        else (none, group)
      | some find =>
        match conf_add_server_group_token env (token.take find) (token.drop (find + 1)) with
        | .error msg => (some msg, group)
        | .ok field =>
          let group := { group with server := group.server ++ [field] }
          match q with
          | none => (none, group)
          | some q => conf_add_server_group_loop env fuel (skip_spaces (s.drop (q + 1))) group

/-- `conf_add_server_group` on the array at the command's offset: the message
returned (`none` for `CONF_OK`) and the array as the call leaves it.  The group
is pushed first, so it stays in the array on the error paths. -/
def conf_add_server_group (env : parse_env) (value : String) (a : List conf_server_group) :
    Option String × List conf_server_group :=
  let r := conf_add_server_group_loop env value.length value.toList { server := [], loop := 0 }
  (r.1, a ++ [r.2])

/-- `cmd->set(cf, cmd, conf)` for a row of the table: the message returned
(`none` for `CONF_OK`) and the pool as the handler leaves it.  `value` is the
top of the argument stack. -/
def command_set (c : conf_constants) (env : parse_env) (cmd : command) (value : String)
    (cp : conf_pool) : Option String × conf_pool :=
  match cmd.set with
  | .conf_set_listen =>
    ((conf_set_listen env value cp.listen).1,
      { cp with listen := (conf_set_listen env value cp.listen).2 })
  | .conf_set_hash => conf_set_hash c env cmd.offset value cp
  | .conf_set_hashtag => conf_set_hashtag cmd.offset value cp
  | .conf_set_distribution => conf_set_distribution c env cmd.offset value cp
  | .conf_set_num => conf_set_num c env cmd.offset value cp
  | .conf_set_protocol => conf_set_protocol c env cmd.offset value cp
  | .conf_set_bool => conf_set_bool c env cmd.offset value cp
  | .conf_set_string => conf_set_string cmd.offset value cp
  | .conf_add_server_group =>
    ((conf_add_server_group env value cp.servergroup).1,
      { cp with servergroup := (conf_add_server_group env value cp.servergroup).2 })
  | .conf_add_backup_server =>
    ((conf_add_server c env value cp.backupserver).1,
      { cp with backupserver := (conf_add_server c env value cp.backupserver).2 })
  | .conf_add_zookeeper_server =>
    ((conf_add_server c env value cp.zookeeperserver).1,
      { cp with zookeeperserver := (conf_add_server c env value cp.zookeeperserver).2 })

/-- The loop of lines 872-886 of `conf_handler` over the table: the first row
whose name compares equal to `key`. -/
def command_loop (string_compare : String → String → Int) (key : String) :
    List command → Option command
  | [] => none
  | cmd :: rest =>
    if string_compare key cmd.name ≠ 0 then command_loop string_compare key rest
    else some cmd

/-- `conf_pool_init(cp, name)` on the slot `cp`: every field is reset except
`listen.perm`, which keeps what the slot held. -/
def conf_pool_init (c : conf_constants) (cp : conf_pool) (name : String) : conf_pool :=
  { name := name
    listen := { pname := "", name := "", port := 0, perm := cp.listen.perm, info := 0, valid := 0 }
    hash := c.CONF_UNSET_HASH
    hash_tag := ""
    distribution := c.CONF_UNSET_DIST
    timeout := c.CONF_UNSET_NUM
    backlog := c.CONF_UNSET_NUM
    client_connections := c.CONF_UNSET_NUM
    protocol := c.CONF_UNSET_NUM
    tcpkeepalive := c.CONF_UNSET_NUM
    redis_auth := ""
    redis_db := c.CONF_UNSET_NUM
    preconnect := c.CONF_UNSET_NUM
    master := c.CONF_UNSET_NUM
    auto_eject_hosts := c.CONF_UNSET_NUM
    server_connections := c.CONF_UNSET_NUM
    server_retry_timeout := c.CONF_UNSET_NUM
    server_failure_limit := c.CONF_UNSET_NUM
    server := []
    servergroup := []
    backupserver := []
    zookeeperserver := []
    valid := 0 }

/-- `conf_handler(cf, data)` on the argument stack `arg` and the pool `data`
points at: the status and that pool as the call leaves it.  It runs right after
a push, so the stack is not empty. -/
def conf_handler (c : conf_constants) (env : parse_env) (arg : List String) (cp : conf_pool) :
    rstatus_t × conf_pool :=
  if arg.length = 1 then (NC_OK, conf_pool_init c cp (arg.getD 0 ""))
  else
    match command_loop env.string_compare (arg.getD (arg.length - 2) "") conf_commands with
    | some cmd =>
      match command_set c env cmd (arg.getD (arg.length - 1) "") cp with
      | (none, cp) => (NC_OK, cp)
      | (some _, cp) => (NC_ERROR, cp)
    | none => (NC_ERROR, cp)

/-- The 20 directive names of the external interface. -/
def directive_names : List String :=
  ["listen", "hash", "hash_tag", "distribution", "timeout", "backlog", "client_connections",
   "protocol", "tcpkeepalive", "redis_auth", "redis_db", "preconnect", "master",
   "auto_eject_hosts", "server_connections", "server_retry_timeout", "server_failure_limit",
   "servers", "backupservers", "zookeeperservers"]

/-- The 17 write-once directive names. -/
def write_once_names : List String :=
  ["listen", "hash", "hash_tag", "distribution", "timeout", "backlog", "client_connections",
   "protocol", "tcpkeepalive", "redis_auth", "redis_db", "preconnect", "master",
   "auto_eject_hosts", "server_connections", "server_retry_timeout", "server_failure_limit"]

/-! ## The event-tree parser (`conf_parse`) -/

/-- The parser state of `struct conf`: the argument stack, the pool array, the
depth and sequence markers and the `parsed` flag. -/
structure conf where
  arg : List String := []
  pool : List conf_pool := []
  depth : Nat := 0
  seq : Nat := 0
  parsed : Nat := 0
  deriving DecidableEq

/-- `conf_push_scalar`: an empty scalar is refused. -/
def conf_push_scalar (cf : conf) (scalar : String) : rstatus_t × conf :=
  if scalar.length = 0 then (NC_ERROR, cf)
  else (NC_OK, { cf with arg := cf.arg ++ [scalar] })

/-- `conf_pop_scalar`; `none` when the stack is empty (`array_pop` then moves
`nelem` below zero: the run has no defined result). -/
def conf_pop_scalar (cf : conf) : Option conf :=
  if cf.arg.length = 0 then none else some { cf with arg := cf.arg.dropLast }

/-- What one call of `conf_parse_core` does before it calls itself again:
`fault` when the run has no defined result, `stop` when it returns a status,
`next` when it recurses with the given state and `data`. -/
inductive parse_step where
  | fault
  | stop (status : rstatus_t) (cf : conf)
  | next (cf : conf) (data : Option Nat)
  deriving DecidableEq

/-- The call `conf_handler(cf, data)` of `conf_parse_core`: `data` is the index
of the pool it points at, `none` for `NULL`.  With `NULL` only an unknown key
returns (no handler and no `conf_pool_init` touches the pool); the other calls
write through the null pointer and have no defined result. -/
def conf_handler_call (c : conf_constants) (env : parse_env) (cf : conf) (data : Option Nat) :
    Option (rstatus_t × conf) :=
  match data with
  | none =>
    if cf.arg.length ≠ 1 ∧
        command_loop env.string_compare (cf.arg.getD (cf.arg.length - 2) "") conf_commands
          = none then
      some (NC_ERROR, cf)
    else none
  | some i =>
    match cf.pool[i]? with
    | none => none
    | some cp =>
      some ((conf_handler c env cf.arg cp).1,
            { cf with pool := cf.pool.set i (conf_handler c env cf.arg cp).2 })

/-- Lines 1061-1074 for a leaf: call the handler, pop the value and, outside a
sequence, the key; then return the failing status or recurse. -/
def conf_parse_leaf (c : conf_constants) (env : parse_env) (cf : conf) (data : Option Nat) :
    parse_step :=
  match conf_handler_call c env cf data with
  | none => .fault
  | some (status, cf1) =>
    match conf_pop_scalar cf1 with
    | none => .fault
    | some cf2 =>
      match (if cf2.seq = 0 then conf_pop_scalar cf2 else some cf2) with
      | none => .fault
      | some cf3 => if status ≠ NC_OK then .stop status cf3 else .next cf3 data

/-- One call of `conf_parse_core` on the event just read.  `stale` is what a
slot pushed onto the pool array holds before `conf_pool_init`. -/
def conf_parse_step (c : conf_constants) (env : parse_env) (CONF_ROOT_DEPTH : Nat)
    (stale : conf_pool) (event : yaml_event) (cf : conf) (data : Option Nat) : parse_step :=
  match event with
  | YAML_MAPPING_END_EVENT =>
    let cf := { cf with depth := (cf.depth + 4294967295) % 4294967296 }
    if cf.depth = 1 then
      match conf_pop_scalar cf with
      | none => .fault
      | some cf => .next cf data
    else if cf.depth = 0 then .stop NC_OK cf
    else .next cf data
  | YAML_MAPPING_START_EVENT => .next { cf with depth := (cf.depth + 1) % 4294967296 } data
  | YAML_SEQUENCE_START_EVENT => .next { cf with seq := 1 } data
  | YAML_SEQUENCE_END_EVENT =>
    match conf_pop_scalar cf with
    | none => .fault
    | some cf => .next { cf with seq := 0 } data
  | YAML_SCALAR_EVENT value =>
    match conf_push_scalar cf value with
    | (NC_OK, cf) =>
      if cf.seq ≠ 0 then conf_parse_leaf c env cf data
      else if cf.depth = CONF_ROOT_DEPTH then
        let cf1 := { cf with pool := cf.pool ++ [(conf_handler c env cf.arg stale).2] }
        if (conf_handler c env cf.arg stale).1 ≠ NC_OK then
          .stop (conf_handler c env cf.arg stale).1 cf1
        else .next cf1 (some cf.pool.length)
      else if cf.arg.length = cf.depth + 1 then conf_parse_leaf c env cf data
      else .next cf data
    | (status, cf) => .stop status cf
  | _ => .next cf data

/-- `conf_parse_core` over the events still to read: the status, the state and
the events left; `none` when the run has no defined result.  A list that runs
out stands for a failing `conf_event_next`. -/
def conf_parse_core (c : conf_constants) (env : parse_env) (CONF_ROOT_DEPTH : Nat)
    (stale : conf_pool) : List yaml_event → conf → Option Nat →
    Option (rstatus_t × conf × List yaml_event)
  | [], cf, _ => some (NC_ERROR, cf, [])
  | event :: rest, cf, data =>
    match conf_parse_step c env CONF_ROOT_DEPTH stale event cf data with
    | .fault => none
    | .stop status cf => some (status, cf, rest)
    | .next cf data => conf_parse_core c env CONF_ROOT_DEPTH stale rest cf data

/-- `conf_begin_parse`: skip to the first mapping start. -/
def conf_begin_parse : List yaml_event → conf → rstatus_t × conf × List yaml_event
  | [], cf => (NC_ERROR, cf, [])
  | YAML_MAPPING_START_EVENT :: rest, cf =>
    (NC_OK, { cf with depth := (cf.depth + 1) % 4294967296 }, rest)
  | _ :: rest, cf => conf_begin_parse rest cf

/-- `conf_end_parse`: skip to the stream end. -/
def conf_end_parse : List yaml_event → rstatus_t
  | [] => NC_ERROR
  | YAML_STREAM_END_EVENT :: _ => NC_OK
  | _ :: rest => conf_end_parse rest

/-- `conf_parse` on the events of the file, from the state `conf_open` leaves. -/
def conf_parse (c : conf_constants) (env : parse_env) (CONF_ROOT_DEPTH : Nat)
    (stale : conf_pool) (events : List yaml_event) (cf : conf) : Option (rstatus_t × conf) :=
  match conf_begin_parse events cf with
  | (NC_OK, cf, rest) =>
    match conf_parse_core c env CONF_ROOT_DEPTH stale rest cf none with
    | none => none
    | some (NC_OK, cf, rest) =>
      match conf_end_parse rest with
      | NC_OK => some (NC_OK, { cf with parsed := 1 })
      | status => some (status, cf)
    | some (status, cf, _) => some (status, cf)
  | (status, cf, _) => some (status, cf)

/-- A sample `nc_atoi`: the decimal value, `-1` for an empty or non-decimal
text.  Used only to instantiate theorems at concrete inputs. -/
def sample_atoi (s : String) : Int :=
  if s.length = 0 then -1
  else s.toList.foldl
    (fun acc ch => if acc < 0 then -1 else if ch.isDigit then acc * 10 + (ch.toNat - 48) else -1)
    0

/-- A sample `strtol` in base 8 on the text of a permission field: leading
white space and a sign are skipped, the longest run of octal digits is read
(0 when there is none), and `errno` is set only when the value leaves the range
of `long`.  Used only to instantiate theorems at concrete inputs. -/
def sample_strtol_octal (s : String) : Int × Bool :=
  let t := s.toList.dropWhile (fun ch => ch = ' ' ∨ (9 ≤ ch.toNat ∧ ch.toNat ≤ 13))
  let neg := t.head? = some '-'
  let t := if t.head? = some '-' ∨ t.head? = some '+' then t.drop 1 else t
  let digits := t.takeWhile (fun ch => 48 ≤ ch.toNat ∧ ch.toNat ≤ 55)
  let v : Int := digits.foldl (fun acc ch => acc * 8 + ((ch.toNat : Int) - 48)) 0
  let v := if neg then -v else v
  if v > 9223372036854775807 then (9223372036854775807, true)
  else if v < -9223372036854775808 then (-9223372036854775808, true)
  else (v, false)

/-- A sample comparator for the directive handlers, which only test the result
against 0: 0 on equal strings, 1 otherwise.  Used only to instantiate theorems
at concrete inputs. -/
def sample_key_compare (a b : String) : Int :=
  if a = b then 0 else 1

/-- Sample collaborators of the handlers, used only to instantiate theorems at
concrete inputs: the sample comparator, the decimal `sample_atoi`, ports
1..65535, a resolver that always succeeds and the sample `strtol`. -/
def sample_parse_env : parse_env :=
  { string_compare := sample_key_compare
    nc_atoi := sample_atoi
    nc_valid_port := fun n => decide (1 ≤ n ∧ n ≤ 65535)
    nc_resolve := fun _ _ => (NC_OK, 0)
    strtol_octal := sample_strtol_octal
    hash_strings := ["one_at_a_time", "md5", "crc16", "crc32", "crc32a", "fnv1_64", "fnv1a_64",
                     "fnv1_32", "fnv1a_32", "hsieh", "murmur", "jenkins"]
    dist_strings := ["ketama", "modula", "random"]
    PROTOCOL_SSDB := 1
    PROTOCOL_MEMCACHE := 2 }

/-- The group `conf_add_server_group` builds from `127.0.0.1:8888:1`. -/
def sample_group : conf_server_group :=
  { server := [{ pname := "127.0.0.1", name := "127.0.0.1", addrstr := "127.0.0.1",
                 port := 8888, weight := 1, valid := 1 }]
    loop := 0 }

/-- The events of the block-style document
`a:` / `  servers:` / `    - - 127.0.0.1:8888:1` / `  timeout: 5`:
a pool `a` whose `servers` sequence holds one nested sequence, followed by the
directive `timeout: 5`. -/
def dropped_directive_events : List yaml_event :=
  [YAML_STREAM_START_EVENT, YAML_DOCUMENT_START_EVENT, YAML_MAPPING_START_EVENT,
   YAML_SCALAR_EVENT "a", YAML_MAPPING_START_EVENT, YAML_SCALAR_EVENT "servers",
   YAML_SEQUENCE_START_EVENT, YAML_SEQUENCE_START_EVENT, YAML_SCALAR_EVENT "127.0.0.1:8888:1",
   YAML_SEQUENCE_END_EVENT, YAML_SEQUENCE_END_EVENT, YAML_SCALAR_EVENT "timeout",
   YAML_SCALAR_EVENT "5", YAML_MAPPING_END_EVENT, YAML_MAPPING_END_EVENT,
   YAML_DOCUMENT_END_EVENT, YAML_STREAM_END_EVENT]

/-- The same document with the `servers` sequence not nested:
`a:` / `  servers:` / `    - 127.0.0.1:8888:1` / `  timeout: 5`. -/
def kept_directive_events : List yaml_event :=
  [YAML_STREAM_START_EVENT, YAML_DOCUMENT_START_EVENT, YAML_MAPPING_START_EVENT,
   YAML_SCALAR_EVENT "a", YAML_MAPPING_START_EVENT, YAML_SCALAR_EVENT "servers",
   YAML_SEQUENCE_START_EVENT, YAML_SCALAR_EVENT "127.0.0.1:8888:1",
   YAML_SEQUENCE_END_EVENT, YAML_SCALAR_EVENT "timeout",
   YAML_SCALAR_EVENT "5", YAML_MAPPING_END_EVENT, YAML_MAPPING_END_EVENT,
   YAML_DOCUMENT_END_EVENT, YAML_STREAM_END_EVENT]


/-- The parser state `conf_parse` leaves on `dropped_directive_events` with the
sample constants and collaborators: one pool `a` holding the parsed group and
no directive value, and `timeout` left on the argument stack. -/
def dropped_directive_result : conf :=
  { arg := ["timeout"]
    pool := [{ conf_pool_init sample_constants {} "a" with servergroup := [sample_group] }]
    depth := 0, seq := 0, parsed := 1 }
/-! ## The registry fetch (`conf_from_zookeeper`) -/

/-- What the coordination service holds for one child of `/nodes`, in the
order the sorted child names are fetched: the result of `zk_get` and the
fields of the JSON descriptor (`none` for a missing field; `JSON_GET_STR`
leaves the pointer `NULL`, `JSON_GET_INT32` is given the default 0). -/
structure zk_node where
  get_ret : Int := 0
  ip : Option String := none
  slave_ip : Option String := none
  port : Option Int := none
  slave_port : Option Int := none
  deriving DecidableEq, Repr

/-- The declaration of lines 468-517 for one address: `conf_server_init`, then
the printable name `sprintf("%s:%d", ip, port)`, the name and the address
string `ip`, the port and the weight 1.  Nothing sets `valid`. -/
def zk_conf_server (ip : String) (port : Int) : conf_server :=
  { pname := ip ++ ":" ++ toString port
    name := ip
    addrstr := ip
    port := port
    weight := 1
    info := 0
    valid := 0 }

/-- The `for` loop of lines 443-518 over the children still to fetch. -/
def conf_from_zookeeper_loop :
    List zk_node → List conf_server → List conf_server →
    rstatus_t × List conf_server × List conf_server
  | [], servers, backup_servers => (NC_OK, servers, backup_servers)
  | node :: rest, servers, backup_servers =>
    if node.get_ret ≠ 0 then (NC_ERROR, servers, backup_servers)
    else
      match node.ip, node.slave_ip with
      | some server_str, some back_str =>
        conf_from_zookeeper_loop rest
          (servers ++ [zk_conf_server server_str (node.port.getD 0)])
          (backup_servers ++ [zk_conf_server back_str (node.slave_port.getD 0)])
      | _, _ => (NC_ERROR, servers, backup_servers)

/-- `conf_from_zookeeper`: `child_ret` is the result of `zk_get_children`,
`nodes` the children in sorted order; the status and the two arrays as the
call leaves them. -/
def conf_from_zookeeper (child_ret : Int) (nodes : List zk_node)
    (servers backup_servers : List conf_server) :
    rstatus_t × List conf_server × List conf_server :=
  if child_ret ≠ 0 then (NC_ERROR, servers, backup_servers)
  else if nodes.length = 0 then (NC_ERROR, servers, backup_servers)
  else conf_from_zookeeper_loop nodes [] []

/-- Three registry children, each with both addresses and both ports. -/
def sample_nodes : List zk_node :=
  [{ ip := some "10.0.0.1", slave_ip := some "10.0.1.1", port := some 8888,
     slave_port := some 8888 },
   { ip := some "10.0.0.2", slave_ip := some "10.0.1.2", port := some 8888,
     slave_port := some 8888 },
   { ip := some "10.0.0.3", slave_ip := some "10.0.1.3", port := some 8888,
     slave_port := some 8888 }]

/-! ## Reading sequences off the events -/

/-- The step of `sequence_since_mapping_start` on one event. -/
def sequence_mark (b : Bool) (event : yaml_event) : Bool :=
  match event with
  | YAML_MAPPING_START_EVENT => false
  | YAML_SEQUENCE_START_EVENT => true
  | _ => b

/-- Whether a sequence start has been met since the last mapping start, read
off the events alone. -/
def sequence_since_mapping_start (pre : List yaml_event) : Bool :=
  pre.foldl sequence_mark false

/-- The events of a file with one pool `a` made of the single pair `k: v`. -/
def scalar_pool_events : List yaml_event :=
  [YAML_STREAM_START_EVENT, YAML_DOCUMENT_START_EVENT, YAML_MAPPING_START_EVENT,
   YAML_SCALAR_EVENT "a", YAML_MAPPING_START_EVENT, YAML_SCALAR_EVENT "k",
   YAML_SCALAR_EVENT "v", YAML_MAPPING_END_EVENT, YAML_MAPPING_END_EVENT,
   YAML_DOCUMENT_END_EVENT, YAML_STREAM_END_EVENT]

/-- A second sample comparator, on the character lists (0 on equal strings,
negative below, positive above), which evaluates by reduction.  Used only to
instantiate theorems at concrete inputs. -/
def sample_data_compare (a b : String) : Int :=
  if a = b then 0 else if a.data < b.data then -1 else 1


/-! ## The per-server transformation -/

/-- `conf_server_each_transform(elem, data)`: push one runtime server built
from the declaration `cs` onto the array `srv`, with no owner yet.  Always
`NC_OK`; the result is the array after the push. -/
def conf_server_each_transform (cs : conf_server) (srv : List server) : List server :=
  srv ++ [{ idx := srv.length
            owner := none
            pname := cs.pname
            name := cs.name
            addrstr := cs.addrstr
            port := (cs.port % 65536).toNat
            weight := (cs.weight % 4294967296).toNat
            connected := 1
            is_read := 1
            group := none
            info := cs.info
            ns_conn_q := 0
            s_conn_q := []
            next_retry := 0
            failure_count := 0 }]

/-- `array_each(conf_server, conf_server_each_transform, server)`: the
declarations in order, each pushed onto the array. -/
def conf_server_each_transform_all (ds : List conf_server) (srv : List server) : List server :=
  ds.foldl (fun acc cs => conf_server_each_transform cs acc) srv


/-! ## Values of a `servers` entry, for stating what the group handler builds -/

/-- The text `host:port:weight` of one token, given its three parts. -/
def group_token (t : List Char × List Char × List Char) : List Char :=
  t.1 ++ ':' :: (t.2.1 ++ ':' :: t.2.2)

/-- The tokens separated by single spaces. -/
def group_value : List (List Char × List Char × List Char) → List Char
  | [] => []
  | [t] => group_token t
  | t :: rest => group_token t ++ ' ' :: group_value rest

/-- The declaration expected for a token: the host as every name, the port and
the weight as `nc_atoi` reads them, marked valid. -/
def group_server (env : parse_env) (t : List Char × List Char × List Char) : conf_server :=
  { pname := String.mk t.1
    name := String.mk t.1
    addrstr := String.mk t.1
    port := env.nc_atoi (String.mk t.2.1)
    weight := env.nc_atoi (String.mk t.2.2)
    info := 0
    valid := 1 }

/-- What the claim asks of a token: no colon and no space inside its parts, a
port that is valid and a weight above 0. -/
def group_token_ok (env : parse_env) (t : List Char × List Char × List Char) : Prop :=
  ':' ∉ t.1 ∧ ' ' ∉ t.1 ∧ ':' ∉ t.2.1 ∧ ' ' ∉ t.2.1 ∧ ':' ∉ t.2.2 ∧ ' ' ∉ t.2.2 ∧
  0 ≤ env.nc_atoi (String.mk t.2.1) ∧ env.nc_valid_port (env.nc_atoi (String.mk t.2.1)) = true ∧
  0 < env.nc_atoi (String.mk t.2.2)

instance (env : parse_env) (t : List Char × List Char × List Char) :
    Decidable (group_token_ok env t) := by
  unfold group_token_ok
  infer_instance

/-! ## The handler over the elements of a sequence -/

/-- The handler of the row `cmd` applied to the elements of a sequence in
order, each on the pool the previous one left; `none` when one of them returns
a message. -/
def handler_elements (c : conf_constants) (env : parse_env) (cmd : command) :
    List String → conf_pool → Option conf_pool
  | [], cp => some cp
  | v :: rest, cp =>
    match command_set c env cmd v cp with
    | (none, cp2) => handler_elements c env cmd rest cp2
    | (some _, _) => none


/-! ## Sample documents: deep nesting, and the pool `alpha` in two styles -/

/-- The events of `a:` / `  servers:` / `    - - - 127.0.0.1:8888:1`: a pool `a`
whose `servers` sequence holds a sequence that holds a sequence with one
element. -/
def deep_sequence_events : List yaml_event :=
  [YAML_STREAM_START_EVENT, YAML_DOCUMENT_START_EVENT, YAML_MAPPING_START_EVENT,
   YAML_SCALAR_EVENT "a", YAML_MAPPING_START_EVENT, YAML_SCALAR_EVENT "servers",
   YAML_SEQUENCE_START_EVENT, YAML_SEQUENCE_START_EVENT, YAML_SEQUENCE_START_EVENT,
   YAML_SCALAR_EVENT "127.0.0.1:8888:1",
   YAML_SEQUENCE_END_EVENT, YAML_SEQUENCE_END_EVENT, YAML_SEQUENCE_END_EVENT,
   YAML_MAPPING_END_EVENT, YAML_MAPPING_END_EVENT,
   YAML_DOCUMENT_END_EVENT, YAML_STREAM_END_EVENT]

/-- The tokens the scanner yields for the one-line flow-style text
`alpha: \x7blisten: 127.0.0.1:6000, servers: [10.0.0.1:11211:1]\x7d`. -/
def alpha_flow_tokens : List yaml_token_type :=
  [YAML_STREAM_START_TOKEN, YAML_BLOCK_MAPPING_START_TOKEN,
   YAML_KEY_TOKEN, YAML_SCALAR_TOKEN, YAML_VALUE_TOKEN,
   YAML_FLOW_MAPPING_START_TOKEN,
   YAML_KEY_TOKEN, YAML_SCALAR_TOKEN, YAML_VALUE_TOKEN, YAML_SCALAR_TOKEN,
   YAML_FLOW_ENTRY_TOKEN,
   YAML_KEY_TOKEN, YAML_SCALAR_TOKEN, YAML_VALUE_TOKEN,
   YAML_FLOW_SEQUENCE_START_TOKEN, YAML_SCALAR_TOKEN, YAML_FLOW_SEQUENCE_END_TOKEN,
   YAML_FLOW_MAPPING_END_TOKEN,
   YAML_BLOCK_END_TOKEN, YAML_STREAM_END_TOKEN]

/-- The tokens the scanner yields for the same configuration in block style:
`alpha:` / `  listen: 127.0.0.1:6000` / `  servers:` / `    - 10.0.0.1:11211:1`
(its events are `alpha_events`). -/
def alpha_block_tokens : List yaml_token_type :=
  [YAML_STREAM_START_TOKEN, YAML_BLOCK_MAPPING_START_TOKEN,
   YAML_KEY_TOKEN, YAML_SCALAR_TOKEN, YAML_VALUE_TOKEN,
   YAML_BLOCK_MAPPING_START_TOKEN,
   YAML_KEY_TOKEN, YAML_SCALAR_TOKEN, YAML_VALUE_TOKEN, YAML_SCALAR_TOKEN,
   YAML_KEY_TOKEN, YAML_SCALAR_TOKEN, YAML_VALUE_TOKEN,
   YAML_BLOCK_SEQUENCE_START_TOKEN, YAML_BLOCK_ENTRY_TOKEN, YAML_SCALAR_TOKEN,
   YAML_BLOCK_END_TOKEN, YAML_BLOCK_END_TOKEN, YAML_BLOCK_END_TOKEN,
   YAML_STREAM_END_TOKEN]

/-- The pool array `conf_parse` leaves on `alpha_events` with the sample
constants and collaborators (empty when the parse has no result). -/
def alpha_parsed_pools : List conf_pool :=
  ((conf_parse sample_constants sample_parse_env 1 {} alpha_events {}).map
    (fun r => r.2.pool)).getD []

/-- The pool array `conf_post_validate` leaves on `alpha_parsed_pools`. -/
def alpha_validated_pools : List conf_pool :=
  (conf_post_validate sample_constants (fun _ _ => {}) sample_data_compare sample_array_sort
    alpha_parsed_pools).2

/-! ## Sample registry pool without declared servers -/

/-- The events of `alpha:` / `  listen: 127.0.0.1:6000` / `  zookeeperservers:` /
`    - 10.0.9.1:2181:1`: a pool that names a registry and declares no server. -/
def registry_only_events : List yaml_event :=
  [YAML_STREAM_START_EVENT, YAML_DOCUMENT_START_EVENT, YAML_MAPPING_START_EVENT,
   YAML_SCALAR_EVENT "alpha", YAML_MAPPING_START_EVENT,
   YAML_SCALAR_EVENT "listen", YAML_SCALAR_EVENT "127.0.0.1:6000",
   YAML_SCALAR_EVENT "zookeeperservers", YAML_SEQUENCE_START_EVENT,
   YAML_SCALAR_EVENT "10.0.9.1:2181:1", YAML_SEQUENCE_END_EVENT,
   YAML_MAPPING_END_EVENT, YAML_MAPPING_END_EVENT, YAML_DOCUMENT_END_EVENT,
   YAML_STREAM_END_EVENT]

/-- The pool array `conf_parse` leaves on `registry_only_events` with the
sample constants and collaborators (empty when the parse has no result). -/
def registry_only_pools : List conf_pool :=
  ((conf_parse sample_constants sample_parse_env 1 {} registry_only_events {}).map
    (fun r => r.2.pool)).getD []

/-- Sample collaborators of the transformation for a registry that lists the
one pair (`node_a`, `node_a_slave`): as `sample_env`, with a fingerprint
initialiser that records, for each position, the checksum pair of the two
printable names under `sample_crc16`. -/
def registry_env : transform_env :=
  { sample_env with
    server_identifier_init := fun srv bsrv =>
      (NC_OK, (srv.zip bsrv).map (fun p =>
        ((sample_crc16 p.1.pname % 4294967296) * 65536 % 4294967296
          + sample_crc16 p.2.pname % 4294967296) % 4294967296)) }

/-- The shape of a token `host:port:weight`: no colon and no space inside its
three parts. -/
def group_token_shaped (t : List Char × List Char × List Char) : Prop :=
  ':' ∉ t.1 ∧ ' ' ∉ t.1 ∧ ':' ∉ t.2.1 ∧ ' ' ∉ t.2.1 ∧ ':' ∉ t.2.2 ∧ ' ' ∉ t.2.2

instance (t : List Char × List Char × List Char) : Decidable (group_token_shaped t) := by
  unfold group_token_shaped
  infer_instance
/-! ## Lemmas on the scan -/

theorem identifier_loop_count_le (crc_sb crc_bs : Nat) (identifier : List Nat) (i c : Nat) :
    (identifier_loop crc_sb crc_bs identifier i c).2 ≤ c + identifier.length := by
  induction identifier generalizing i c with
  | nil => simp [identifier_loop]
  | cons crc rest ih =>
    simp only [identifier_loop]
    split
    · simp
    · have := ih (i + 1) (c + 1)
      simp only [List.length_cons]
      omega

theorem identifier_loop_index (crc_sb crc_bs : Nat) (identifier : List Nat) (i c : Nat) :
    (identifier_loop crc_sb crc_bs identifier i c).1 + c
      = (identifier_loop crc_sb crc_bs identifier i c).2 + i := by
  induction identifier generalizing i c with
  | nil => simp [identifier_loop, Nat.add_comm]
  | cons crc rest ih =>
    simp only [identifier_loop]
    split
    · simp [Nat.add_comm]
    · have := ih (i + 1) (c + 1)
      omega

theorem identifier_loop_full_iff (crc_sb crc_bs : Nat) (identifier : List Nat) (i c : Nat) :
    (identifier_loop crc_sb crc_bs identifier i c).2 = c + identifier.length
      ↔ crc_sb ∉ identifier ∧ crc_bs ∉ identifier := by
  induction identifier generalizing i c with
  | nil => simp [identifier_loop]
  | cons crc rest ih =>
    simp only [identifier_loop]
    split
    · rename_i h
      constructor
      · intro hc
        simp only [List.length_cons] at hc
        omega
      · intro hn
        simp only [List.mem_cons, not_or] at hn
        rcases h with h | h
        · exact absurd h hn.1.1
        · exact absurd h hn.2.1
    · rename_i h
      simp only [not_or] at h
      have := ih (i + 1) (c + 1)
      simp only [List.length_cons, List.mem_cons, not_or]
      constructor
      · intro hc
        have h2 := this.mp (by omega)
        exact ⟨⟨h.1, h2.1⟩, ⟨h.2, h2.2⟩⟩
      · intro hn
        have h2 := this.mpr ⟨hn.1.2, hn.2.2⟩
        omega

/-- The scan test of line 392 holds exactly for an unmatched pair. -/
theorem scan_test_iff (hash_crc16 : String → Nat) (identifier : List Nat) (s bs : conf_server) :
    (identifier_loop (crc_pair hash_crc16 s bs) (crc_pair hash_crc16 bs s) identifier 0 0).2
        = identifier.length
      ↔ unmatched hash_crc16 identifier s bs := by
  have := identifier_loop_full_iff (crc_pair hash_crc16 s bs) (crc_pair hash_crc16 bs s)
    identifier 0 0
  simpa [unmatched] using this

/-- When the scan test holds, `server_index` has run to the number of admitted
fingerprints. -/
theorem scan_index_eq (crc_sb crc_bs : Nat) (identifier : List Nat)
    (h : (identifier_loop crc_sb crc_bs identifier 0 0).2 = identifier.length) :
    (identifier_loop crc_sb crc_bs identifier 0 0).1 = identifier.length := by
  have := identifier_loop_index crc_sb crc_bs identifier 0 0
  omega

/-- The scan runs out exactly when no visited pair is unmatched. -/
theorem scan_loop_none_iff (hash_crc16 : String → Nat) (stale_s stale_bs : conf_server)
    (identifier : List Nat) (srv bsrv : List conf_server) (k : Nat) :
    scan_loop hash_crc16 stale_s stale_bs identifier srv bsrv k = none
      ↔ ∀ i, i < k →
          ¬ unmatched hash_crc16 identifier (array_get srv i stale_s) (array_get bsrv i stale_bs) := by
  induction k with
  | zero => simp [scan_loop]
  | succ k ih =>
    simp only [scan_loop]
    split
    · rename_i h
      rw [scan_test_iff] at h
      constructor
      · intro hc
        exact absurd hc (Option.some_ne_none _)
      · intro hall
        exact absurd h (hall k (Nat.lt_succ_self k))
    · rename_i h
      rw [scan_test_iff] at h
      rw [ih]
      constructor
      · intro hall i hi
        rcases Nat.lt_succ_iff_lt_or_eq.mp hi with hlt | heq
        · exact hall i hlt
        · subst heq; exact h
      · intro hall i hi
        exact hall i (Nat.lt_succ_of_lt hi)

/-- When the scan stops, it stops at the unmatched pair of highest position
below `k`; `conf_index` is the number of admitted fingerprints and `new_crc`
is that pair's (primary, backup) fingerprint. -/
theorem scan_loop_some (hash_crc16 : String → Nat) (stale_s stale_bs : conf_server)
    (identifier : List Nat) (srv bsrv : List conf_server) (k : Nat) (r : Nat × Nat)
    (h : scan_loop hash_crc16 stale_s stale_bs identifier srv bsrv k = some r) :
    r.1 = identifier.length ∧
    ∃ i, i < k ∧
      r.2 = crc_pair hash_crc16 (array_get srv i stale_s) (array_get bsrv i stale_bs) ∧
      unmatched hash_crc16 identifier (array_get srv i stale_s) (array_get bsrv i stale_bs) ∧
      ∀ j, i < j → j < k →
        ¬ unmatched hash_crc16 identifier (array_get srv j stale_s) (array_get bsrv j stale_bs) := by
  induction k with
  | zero => simp [scan_loop] at h
  | succ k ih =>
    simp only [scan_loop] at h
    split at h
    · rename_i ht
      have hi := scan_index_eq _ _ _ ht
      rw [scan_test_iff] at ht
      have h := Option.some.inj h
      subst h
      refine ⟨hi, k, Nat.lt_succ_self k, rfl, ht, ?_⟩
      intro j h1 h2
      omega
    · rename_i ht
      rw [scan_test_iff] at ht
      obtain ⟨h1, i, hik, h2, h3, h4⟩ := ih h
      refine ⟨h1, i, Nat.lt_succ_of_lt hik, h2, h3, ?_⟩
      intro j hij hjk
      rcases Nat.lt_succ_iff_lt_or_eq.mp hjk with hlt | heq
      · exact h4 j hij hlt
      · subst heq; exact ht

/-- One invocation either leaves the pool as it was or pushes one runtime
server onto each collection and one fingerprint onto the admitted set. -/
theorem nodes_child_watch_cases (hash_crc16 : String → Nat) (stale_s stale_bs : conf_server)
    (is_child_event : Bool) (zk : zk_fetch) (sp : server_pool) :
    nodes_child_watch hash_crc16 stale_s stale_bs is_child_event zk sp = sp ∨
    ∃ cs cbs crc,
      nodes_child_watch hash_crc16 stale_s stale_bs is_child_event zk sp =
        { sp with
          server := conf_server_init_new cs sp.server sp.idx
          backup_server := conf_server_init_new cbs sp.backup_server sp.idx
          server_identifier := sp.server_identifier ++ [crc] } := by
  unfold nodes_child_watch nodes_child_watch_body
  split
  · split
    · exact Or.inl rfl
    · split
      · exact Or.inl rfl
      · split
        · exact Or.inl rfl
        · split
          · exact Or.inl rfl
          · split
            · exact Or.inl rfl
            · rename_i conf_index new_crc _
              split
              · exact Or.inr ⟨_, _, _, rfl⟩
              · exact Or.inl rfl
  · exact Or.inl rfl

/-- With an empty admitted set the guard of line 399 never passes. -/
theorem nodes_child_watch_body_nil_identifier (hash_crc16 : String → Nat)
    (stale_s stale_bs : conf_server) (srv bsrv : List conf_server) (sp : server_pool)
    (h : sp.server_identifier = []) :
    nodes_child_watch_body hash_crc16 stale_s stale_bs srv bsrv sp = sp := by
  unfold nodes_child_watch_body
  split
  · rfl
  · split
    · rfl
    · split
      · rfl
      · rename_i conf_index new_crc hs
        have := (scan_loop_some _ _ _ _ _ _ _ _ hs).1
        simp only [h, List.length_nil] at this
        simp [this]

/-- When no fetched pair is unmatched the body changes nothing. -/
theorem nodes_child_watch_body_all_matched (hash_crc16 : String → Nat)
    (stale_s stale_bs : conf_server) (srv bsrv : List conf_server) (sp : server_pool)
    (h : ∀ i, i < srv.length →
      ¬ unmatched hash_crc16 sp.server_identifier
          (array_get srv i stale_s) (array_get bsrv i stale_bs)) :
    nodes_child_watch_body hash_crc16 stale_s stale_bs srv bsrv sp = sp := by
  have hn := (scan_loop_none_iff hash_crc16 stale_s stale_bs sp.server_identifier
    srv bsrv srv.length).mpr h
  unfold nodes_child_watch_body
  rw [hn]
  simp

/-! ## Lemmas on pool validation -/

theorem conf_pool_defaults_head_listen (c : conf_constants) (cp : conf_pool) :
    (conf_pool_defaults_head c cp).listen = cp.listen := by
  simp only [conf_pool_defaults_head, apply_ite conf_pool.listen, ite_self]

theorem conf_pool_defaults_head_name (c : conf_constants) (cp : conf_pool) :
    (conf_pool_defaults_head c cp).name = cp.name := by
  simp only [conf_pool_defaults_head, apply_ite conf_pool.name, ite_self]

theorem conf_pool_defaults_head_valid (c : conf_constants) (cp : conf_pool) :
    (conf_pool_defaults_head c cp).valid = cp.valid := by
  simp only [conf_pool_defaults_head, apply_ite conf_pool.valid, ite_self]

theorem conf_pool_defaults_head_server (c : conf_constants) (cp : conf_pool) :
    (conf_pool_defaults_head c cp).server = cp.server := by
  simp only [conf_pool_defaults_head, apply_ite conf_pool.server, ite_self]

theorem conf_pool_defaults_head_servergroup (c : conf_constants) (cp : conf_pool) :
    (conf_pool_defaults_head c cp).servergroup = cp.servergroup := by
  simp only [conf_pool_defaults_head, apply_ite conf_pool.servergroup, ite_self]

theorem conf_pool_defaults_head_redis_auth (c : conf_constants) (cp : conf_pool) :
    (conf_pool_defaults_head c cp).redis_auth = cp.redis_auth := by
  simp only [conf_pool_defaults_head, apply_ite conf_pool.redis_auth, ite_self]

theorem conf_pool_defaults_head_server_connections (c : conf_constants) (cp : conf_pool) :
    (conf_pool_defaults_head c cp).server_connections = cp.server_connections := by
  simp only [conf_pool_defaults_head, apply_ite conf_pool.server_connections, ite_self]

theorem conf_pool_defaults_head_protocol (c : conf_constants) (cp : conf_pool) :
    (conf_pool_defaults_head c cp).protocol = pool_protocol c cp := by
  simp only [conf_pool_defaults_head, pool_protocol, apply_ite conf_pool.protocol, ite_self]

theorem conf_pool_defaults_tail_listen (c : conf_constants) (cp : conf_pool) :
    (conf_pool_defaults_tail c cp).listen = cp.listen := by
  simp only [conf_pool_defaults_tail, apply_ite conf_pool.listen, ite_self]

theorem conf_pool_defaults_tail_name (c : conf_constants) (cp : conf_pool) :
    (conf_pool_defaults_tail c cp).name = cp.name := by
  simp only [conf_pool_defaults_tail, apply_ite conf_pool.name, ite_self]

theorem conf_pool_defaults_tail_valid (c : conf_constants) (cp : conf_pool) :
    (conf_pool_defaults_tail c cp).valid = cp.valid := by
  simp only [conf_pool_defaults_tail, apply_ite conf_pool.valid, ite_self]

theorem conf_pool_defaults_tail_server (c : conf_constants) (cp : conf_pool) :
    (conf_pool_defaults_tail c cp).server = cp.server := by
  simp only [conf_pool_defaults_tail, apply_ite conf_pool.server, ite_self]

theorem conf_pool_defaults_tail_servergroup (c : conf_constants) (cp : conf_pool) :
    (conf_pool_defaults_tail c cp).servergroup = cp.servergroup := by
  simp only [conf_pool_defaults_tail, apply_ite conf_pool.servergroup, ite_self]

theorem conf_pool_defaults_tail_redis_auth (c : conf_constants) (cp : conf_pool) :
    (conf_pool_defaults_tail c cp).redis_auth = cp.redis_auth := by
  simp only [conf_pool_defaults_tail, apply_ite conf_pool.redis_auth, ite_self]

theorem conf_pool_defaults_tail_protocol (c : conf_constants) (cp : conf_pool) :
    (conf_pool_defaults_tail c cp).protocol = cp.protocol := by
  simp only [conf_pool_defaults_tail, apply_ite conf_pool.protocol, ite_self]

theorem group_copy_loop_length (stale : Nat → conf_server) (groups : List conf_server_group)
    (i : Nat) (srv : List conf_server) :
    (group_copy_loop stale groups i srv).length = srv.length + groups.length := by
  induction groups generalizing i srv with
  | nil => simp [group_copy_loop]
  | cons g rest ih =>
    simp only [group_copy_loop, ih, List.length_append, List.length_cons, List.length_nil]
    omega

/-- The flat collection is non-empty after expansion exactly when the pool
declared a flat server or a server group. -/
theorem conf_expand_groups_ne_nil (stale : Nat → conf_server) (cp : conf_pool) :
    conf_expand_groups stale cp ≠ [] ↔ cp.server ≠ [] ∨ cp.servergroup ≠ [] := by
  unfold conf_expand_groups
  split
  · rename_i h
    have hl := group_copy_loop_length stale cp.servergroup 0 cp.server
    constructor
    · intro _
      right
      intro hc
      rw [hc] at h
      simp at h
    · intro _ hc
      rw [hc] at hl
      simp only [List.length_nil] at hl
      omega
  · rename_i h
    constructor
    · intro hs
      exact Or.inl hs
    · intro hs
      rcases hs with hs | hs
      · exact hs
      · intro hc
        apply h
        refine ⟨by simp [hc], ?_⟩
        exact List.length_pos.mpr hs

/-- Expansion reads only the flat collection and the groups. -/
theorem conf_expand_groups_congr (stale : Nat → conf_server) (cp cq : conf_pool)
    (hs : cq.server = cp.server) (hg : cq.servergroup = cp.servergroup) :
    conf_expand_groups stale cq = conf_expand_groups stale cp := by
  simp only [conf_expand_groups, hs, hg]

/-- The last stage succeeds exactly when the expanded flat collection is
non-empty; it sets `valid` on success and touches only `server` otherwise. -/
theorem conf_validate_pool_finish_spec (stale : Nat → conf_server) (cp : conf_pool) :
    ((conf_validate_pool_finish stale cp).1 = NC_OK ↔ conf_expand_groups stale cp ≠ []) ∧
    ((conf_validate_pool_finish stale cp).1 = NC_OK →
      (conf_validate_pool_finish stale cp).2.valid = 1) ∧
    ((conf_validate_pool_finish stale cp).1 ≠ NC_OK →
      (conf_validate_pool_finish stale cp).1 = NC_ERROR ∧
      (conf_validate_pool_finish stale cp).2.valid = cp.valid) ∧
    (conf_validate_pool_finish stale cp).2.name = cp.name ∧
    (conf_validate_pool_finish stale cp).2.listen = cp.listen ∧
    (conf_validate_pool_finish stale cp).2.server = conf_expand_groups stale cp := by
  unfold conf_validate_pool_finish
  by_cases h : conf_expand_groups stale cp = []
  · simp [conf_validate_server, h]
  · simp [conf_validate_server, h]

/-- What `conf_validate_pool` returns: it succeeds exactly on an acceptable
pool, sets `valid` only then, fails with `NC_ERROR`, and never touches the
pool name or the listen declaration. -/
theorem conf_validate_pool_status (c : conf_constants) (stale : Nat → conf_server)
    (cp : conf_pool) :
    ((conf_validate_pool c stale cp).1 = NC_OK ↔ pool_acceptable c stale cp) ∧
    ((conf_validate_pool c stale cp).1 = NC_OK → (conf_validate_pool c stale cp).2.valid = 1) ∧
    ((conf_validate_pool c stale cp).1 ≠ NC_OK →
      (conf_validate_pool c stale cp).1 = NC_ERROR ∧
      (conf_validate_pool c stale cp).2.valid = cp.valid) ∧
    (conf_validate_pool c stale cp).2.name = cp.name ∧
    (conf_validate_pool c stale cp).2.listen = cp.listen := by
  have hexp : conf_expand_groups stale (conf_pool_defaults_tail c (conf_pool_defaults_head c cp))
      = conf_expand_groups stale cp :=
    conf_expand_groups_congr stale cp _
      (by rw [conf_pool_defaults_tail_server, conf_pool_defaults_head_server])
      (by rw [conf_pool_defaults_tail_servergroup, conf_pool_defaults_head_servergroup])
  unfold conf_validate_pool pool_acceptable
  by_cases h1 : cp.listen.valid = 0
  · rw [if_pos h1]
    exact ⟨⟨(fun h => by cases h), fun h => absurd h1 h.1⟩, (fun h => by cases h),
      fun _ => ⟨rfl, rfl⟩, rfl, rfl⟩
  · rw [if_neg h1]
    simp only [conf_pool_defaults_head_server_connections, conf_pool_defaults_tail_protocol,
      conf_pool_defaults_head_protocol, conf_pool_defaults_tail_redis_auth,
      conf_pool_defaults_head_redis_auth, hexp]
    by_cases h2 : cp.server_connections ≠ c.CONF_UNSET_NUM ∧ cp.server_connections = 0
    · rw [if_pos h2]
      exact ⟨⟨(fun h => by cases h), fun h => absurd h2 h.2.1⟩, (fun h => by cases h),
        fun _ => ⟨rfl, conf_pool_defaults_head_valid c cp⟩,
        conf_pool_defaults_head_name c cp, conf_pool_defaults_head_listen c cp⟩
    · rw [if_neg h2]
      by_cases h3 : pool_protocol c cp ≠ c.PROTOCOL_REDIS ∧ cp.redis_auth.length > 0
      · rw [if_pos h3]
        refine ⟨⟨(fun h => by cases h), fun h => absurd h3 h.2.2.1⟩, (fun h => by cases h),
          fun _ => ⟨rfl, ?_⟩, ?_, ?_⟩
        · simp only [conf_pool_defaults_tail_valid, conf_pool_defaults_head_valid]
        · simp only [conf_pool_defaults_tail_name, conf_pool_defaults_head_name]
        · simp only [conf_pool_defaults_tail_listen, conf_pool_defaults_head_listen]
      · rw [if_neg h3]
        obtain ⟨f1, f2, f3, f4, f5, _⟩ := conf_validate_pool_finish_spec stale
          (conf_pool_defaults_tail c (conf_pool_defaults_head c cp))
        rw [hexp] at f1
        refine ⟨⟨fun h => ⟨h1, h2, h3, f1.mp h⟩, fun h => f1.mpr h.2.2.2⟩, f2, ?_, ?_, ?_⟩
        · intro h
          have := f3 h
          rw [conf_pool_defaults_tail_valid, conf_pool_defaults_head_valid] at this
          exact this
        · rw [f4, conf_pool_defaults_tail_name, conf_pool_defaults_head_name]
        · rw [f5, conf_pool_defaults_tail_listen, conf_pool_defaults_head_listen]


theorem pool_acceptable_stale (c : conf_constants) (st st2 : Nat → conf_server) (cp : conf_pool) :
    pool_acceptable c st cp ↔ pool_acceptable c st2 cp := by
  unfold pool_acceptable
  rw [conf_expand_groups_ne_nil, conf_expand_groups_ne_nil]

theorem validate_pool_loop_ok (c : conf_constants) (stale : Nat → Nat → conf_server)
    (st : Nat → conf_server) (pool : List conf_pool) (i : Nat)
    (h : ∀ cp ∈ pool, (conf_validate_pool c st cp).1 = NC_OK) :
    (validate_pool_loop c stale pool i).1 = NC_OK ∧
    (validate_pool_loop c stale pool i).2.map (fun p => p.name) = pool.map (fun p => p.name) ∧
    (validate_pool_loop c stale pool i).2.map (fun p => p.listen.pname)
      = pool.map (fun p => p.listen.pname) := by
  induction pool generalizing i with
  | nil => simp [validate_pool_loop]
  | cons cp rest ih =>
    have hrest := ih (i + 1) (fun q hq => h q (List.mem_cons_of_mem _ hq))
    have hcp := h cp (List.mem_cons_self _ _)
    have hs := conf_validate_pool_status c (stale i) cp
    have hok : (conf_validate_pool c (stale i) cp).1 = NC_OK :=
      hs.1.mpr ((pool_acceptable_stale c st (stale i) cp).mp
        ((conf_validate_pool_status c st cp).1.mp hcp))
    obtain ⟨_, _, _, hname, hlisten⟩ := hs
    cases hv : conf_validate_pool c (stale i) cp with
    | mk status cp1 =>
      rw [hv] at hok hname hlisten
      simp only at hok hname hlisten
      subst hok
      simp only [validate_pool_loop, hv, List.map_cons, hrest.1, hrest.2.1, hrest.2.2, hname,
        hlisten, and_self]

theorem adjacent_loop_iff_nodup (string_compare : String → String → Int)
    (key : conf_pool → String)
    (hzero : ∀ a b, string_compare a b = 0 ↔ a = b)
    (hanti : ∀ a b, string_compare a b ≤ 0 → string_compare b a ≤ 0 → a = b)
    (l : List conf_pool)
    (hs : l.Pairwise (fun x y => string_compare (key x) (key y) ≤ 0)) :
    adjacent_loop string_compare key l = true ↔ (l.map key).Nodup := by
  induction l with
  | nil => simp [adjacent_loop]
  | cons a t ih =>
    cases t with
    | nil => simp [adjacent_loop]
    | cons b rest =>
      rw [List.pairwise_cons] at hs
      obtain ⟨ha, ht⟩ := hs
      have ih2 := ih ht
      have hbt := List.pairwise_cons.mp ht
      simp only [adjacent_loop, List.map_cons, List.nodup_cons]
      by_cases hab : key a = key b
      · have h0 : string_compare (key a) (key b) = 0 := (hzero _ _).mpr hab
        rw [if_pos h0]
        constructor
        · intro hc
          cases hc
        · intro hn
          exact absurd (List.mem_cons.mpr (Or.inl hab)) hn.1
      · have h0 : ¬ string_compare (key a) (key b) = 0 := fun hc => hab ((hzero _ _).mp hc)
        rw [if_neg h0, ih2]
        simp only [List.map_cons, List.nodup_cons]
        constructor
        · intro hn
          refine ⟨?_, hn⟩
          intro hmem
          rcases List.mem_cons.mp hmem with hm | hm
          · exact hab hm
          · obtain ⟨y, hy, hky⟩ := List.mem_map.mp hm
            have h1 : string_compare (key b) (key y) ≤ 0 := hbt.1 y hy
            rw [hky] at h1
            have h2 : string_compare (key a) (key b) ≤ 0 := ha b (List.mem_cons_self _ _)
            exact hab (hanti _ _ h2 h1)
        · intro hn
          exact hn.2

theorem sample_string_compare_zero (a b : String) : sample_string_compare a b = 0 ↔ a = b := by
  unfold sample_string_compare
  by_cases h : a = b
  · simp [h]
  · simp only [h, if_false, iff_false]
    split <;> omega

theorem sample_string_compare_le (a b : String) : sample_string_compare a b ≤ 0 ↔ a ≤ b := by
  unfold sample_string_compare
  by_cases h : a = b
  · simp [h]
  · rw [if_neg h]
    by_cases h2 : a < b
    · rw [if_pos h2]
      exact ⟨fun _ => le_of_lt h2, fun _ => by omega⟩
    · rw [if_neg h2]
      constructor
      · intro hc
        omega
      · intro hle
        exact absurd (lt_of_le_of_ne hle h) h2

theorem sample_string_compare_anti (a b : String)
    (h1 : sample_string_compare a b ≤ 0) (h2 : sample_string_compare b a ≤ 0) : a = b :=
  le_antisymm ((sample_string_compare_le a b).mp h1) ((sample_string_compare_le b a).mp h2)

theorem sample_array_sort_sorts (key : conf_pool → String) :
    sorts_by (fun p q => sample_string_compare (key p) (key q))
      (sample_array_sort (fun p q => sample_string_compare (key p) (key q))) := by
  intro l
  unfold sample_array_sort
  haveI : IsTotal conf_pool (fun x y => sample_string_compare (key x) (key y) ≤ 0) :=
    ⟨fun x y => by
      simp only [sample_string_compare_le]
      exact le_total _ _⟩
  haveI : IsTrans conf_pool (fun x y => sample_string_compare (key x) (key y) ≤ 0) :=
    ⟨fun x y z hxy hyz => by
      simp only [sample_string_compare_le] at hxy hyz ⊢
      exact le_trans hxy hyz⟩
  exact ⟨List.perm_insertionSort _ l, List.sorted_insertionSort _ l⟩
/-! ## Lemmas on defaulting -/

/-- The last stage only writes `server` and `valid`. -/
theorem conf_validate_pool_finish_shape (stale : Nat → conf_server) (cp : conf_pool) :
    ∃ v, (conf_validate_pool_finish stale cp).2
      = { cp with server := conf_expand_groups stale cp, valid := v } := by
  unfold conf_validate_pool_finish
  by_cases h : conf_expand_groups stale cp = []
  · exact ⟨cp.valid, by simp [conf_validate_server, h]⟩
  · exact ⟨1, by simp [conf_validate_server, h]⟩

/-- On success the pool returned is the defaulted pool with the expanded flat
collection and `valid` set. -/
theorem conf_validate_pool_ok_shape (c : conf_constants) (stale : Nat → conf_server)
    (cp : conf_pool) (hok : (conf_validate_pool c stale cp).1 = NC_OK) :
    ∃ v, (conf_validate_pool c stale cp).2
      = { conf_pool_defaults_tail c (conf_pool_defaults_head c cp) with
          server := conf_expand_groups stale
            (conf_pool_defaults_tail c (conf_pool_defaults_head c cp))
          valid := v } := by
  unfold conf_validate_pool at hok ⊢
  by_cases h1 : cp.listen.valid = 0
  · rw [if_pos h1] at hok
    cases hok
  · rw [if_neg h1] at hok ⊢
    dsimp only at hok ⊢
    by_cases h2 : (conf_pool_defaults_head c cp).server_connections ≠ c.CONF_UNSET_NUM ∧
        (conf_pool_defaults_head c cp).server_connections = 0
    · rw [if_pos h2] at hok
      cases hok
    · rw [if_neg h2] at hok ⊢
      by_cases h3 : (conf_pool_defaults_tail c (conf_pool_defaults_head c cp)).protocol
            ≠ c.PROTOCOL_REDIS ∧
          (conf_pool_defaults_tail c (conf_pool_defaults_head c cp)).redis_auth.length > 0
      · rw [if_pos h3] at hok
        cases hok
      · rw [if_neg h3]
        exact conf_validate_pool_finish_shape stale _

/-- The thirteen defaulted tunables after both defaulting stages. -/
theorem conf_pool_defaults_fields (c : conf_constants) (cp : conf_pool) :
    (conf_pool_defaults_tail c (conf_pool_defaults_head c cp)).hash
      = (if cp.hash = c.CONF_UNSET_HASH then c.CONF_DEFAULT_HASH else cp.hash) ∧
    (conf_pool_defaults_tail c (conf_pool_defaults_head c cp)).distribution
      = (if cp.distribution = c.CONF_UNSET_DIST then c.CONF_DEFAULT_DIST else cp.distribution) ∧
    (conf_pool_defaults_tail c (conf_pool_defaults_head c cp)).timeout
      = (if cp.timeout = c.CONF_UNSET_NUM then c.CONF_DEFAULT_TIMEOUT else cp.timeout) ∧
    (conf_pool_defaults_tail c (conf_pool_defaults_head c cp)).backlog
      = (if cp.backlog = c.CONF_UNSET_NUM then c.CONF_DEFAULT_LISTEN_BACKLOG else cp.backlog) ∧
    (conf_pool_defaults_tail c (conf_pool_defaults_head c cp)).protocol
      = (if cp.protocol = c.CONF_UNSET_NUM then c.CONF_DEFAULT_REDIS else cp.protocol) ∧
    (conf_pool_defaults_tail c (conf_pool_defaults_head c cp)).tcpkeepalive
      = (if cp.tcpkeepalive = c.CONF_UNSET_NUM then c.CONF_DEFAULT_TCPKEEPALIVE
          else cp.tcpkeepalive) ∧
    (conf_pool_defaults_tail c (conf_pool_defaults_head c cp)).redis_db
      = (if cp.redis_db = c.CONF_UNSET_NUM then c.CONF_DEFAULT_REDIS_DB else cp.redis_db) ∧
    (conf_pool_defaults_tail c (conf_pool_defaults_head c cp)).preconnect
      = (if cp.preconnect = c.CONF_UNSET_NUM then c.CONF_DEFAULT_PRECONNECT
          else cp.preconnect) ∧
    (conf_pool_defaults_tail c (conf_pool_defaults_head c cp)).master
      = (if cp.master = c.CONF_UNSET_NUM then c.CONF_DEFAULT_MASTER else cp.master) ∧
    (conf_pool_defaults_tail c (conf_pool_defaults_head c cp)).auto_eject_hosts
      = (if cp.auto_eject_hosts = c.CONF_UNSET_NUM then c.CONF_DEFAULT_AUTO_EJECT_HOSTS
          else cp.auto_eject_hosts) ∧
    (conf_pool_defaults_tail c (conf_pool_defaults_head c cp)).server_connections
      = (if cp.server_connections = c.CONF_UNSET_NUM then c.CONF_DEFAULT_SERVER_CONNECTIONS
          else cp.server_connections) ∧
    (conf_pool_defaults_tail c (conf_pool_defaults_head c cp)).server_retry_timeout
      = (if cp.server_retry_timeout = c.CONF_UNSET_NUM then c.CONF_DEFAULT_SERVER_RETRY_TIMEOUT
          else cp.server_retry_timeout) ∧
    (conf_pool_defaults_tail c (conf_pool_defaults_head c cp)).server_failure_limit
      = (if cp.server_failure_limit = c.CONF_UNSET_NUM then c.CONF_DEFAULT_SERVER_FAILURE_LIMIT
          else cp.server_failure_limit) ∧
    (conf_pool_defaults_tail c (conf_pool_defaults_head c cp)).client_connections
      = c.CONF_DEFAULT_CLIENT_CONNECTIONS := by
  refine ⟨?_, ?_, ?_, ?_, ?_, ?_, ?_, ?_, ?_, ?_, ?_, ?_, ?_, ?_⟩
  · simp only [conf_pool_defaults_tail, conf_pool_defaults_head, apply_ite conf_pool.hash,
      ite_self]
  · simp only [conf_pool_defaults_tail, conf_pool_defaults_head,
      apply_ite conf_pool.distribution, ite_self]
  · simp only [conf_pool_defaults_tail, conf_pool_defaults_head, apply_ite conf_pool.timeout,
      ite_self]
  · simp only [conf_pool_defaults_tail, conf_pool_defaults_head, apply_ite conf_pool.backlog,
      ite_self]
  · simp only [conf_pool_defaults_tail, conf_pool_defaults_head, apply_ite conf_pool.protocol,
      ite_self]
  · simp only [conf_pool_defaults_tail, conf_pool_defaults_head,
      apply_ite conf_pool.tcpkeepalive, ite_self]
  · simp only [conf_pool_defaults_tail, conf_pool_defaults_head, apply_ite conf_pool.redis_db,
      ite_self]
  · simp only [conf_pool_defaults_tail, conf_pool_defaults_head, apply_ite conf_pool.preconnect,
      ite_self]
  · simp only [conf_pool_defaults_tail, conf_pool_defaults_head, apply_ite conf_pool.master,
      ite_self]
  · simp only [conf_pool_defaults_tail, conf_pool_defaults_head,
      apply_ite conf_pool.auto_eject_hosts, ite_self]
  · simp only [conf_pool_defaults_tail, conf_pool_defaults_head,
      apply_ite conf_pool.server_connections, ite_self]
  · simp only [conf_pool_defaults_tail, conf_pool_defaults_head,
      apply_ite conf_pool.server_retry_timeout, ite_self]
  · simp only [conf_pool_defaults_tail, conf_pool_defaults_head,
      apply_ite conf_pool.server_failure_limit, ite_self]
  · simp only [conf_pool_defaults_tail, conf_pool_defaults_head,
      apply_ite conf_pool.client_connections, ite_self]

/-! ## Lemmas on the structural pass -/

theorem structure_step_done (R M : Nat) (st : structure_state) (e : yaml_event)
    (he : e ≠ YAML_STREAM_END_EVENT) : (structure_step R M st e).done = st.done := by
  cases e <;> simp only [structure_step] <;> first
    | rfl
    | exact absurd rfl he
    | (split_ifs <;> rfl)

theorem structure_step_depth (R M : Nat) (st : structure_state) (e : yaml_event) :
    (structure_step R M st e).depth = event_depth [e] st.depth := by
  cases e <;> simp only [structure_step, event_depth] <;> first
    | rfl
    | (split_ifs <;> rfl)

theorem structure_walk_append (R M : Nat) (pre post : List yaml_event) (st : structure_state) :
    structure_walk R M (pre ++ post) st = structure_walk R M post (structure_walk R M pre st) := by
  simp [structure_walk, List.foldl_append]

theorem structure_walk_cons (R M : Nat) (e : yaml_event) (pre : List yaml_event)
    (st : structure_state) :
    structure_walk R M (e :: pre) st = structure_walk R M pre (structure_step R M st e) := rfl

/-- In a run that ends without error, every event before the first stream end
is processed: the loop reaches the state of the walk after any such prefix,
still running, and goes on from there. -/
theorem structure_loop_prefix (R M : Nat) (pre post : List yaml_event)
    (st st2 : structure_state) (hd : st.done = false) (he : st.error = false)
    (hpre : YAML_STREAM_END_EVENT ∉ pre)
    (hrun : structure_loop R M (pre ++ post) st = some st2) (hok : st2.error = false) :
    (structure_walk R M pre st).done = false ∧ (structure_walk R M pre st).error = false ∧
    structure_loop R M post (structure_walk R M pre st) = some st2 := by
  induction pre generalizing st with
  | nil => exact ⟨hd, he, hrun⟩
  | cons e pre ih =>
    have hne : e ≠ YAML_STREAM_END_EVENT := fun hc => hpre (hc ▸ List.mem_cons_self _ _)
    have hpre2 : YAML_STREAM_END_EVENT ∉ pre := fun hc => hpre (List.mem_cons_of_mem _ hc)
    have hdone : (structure_step R M st e).done = false := by
      rw [structure_step_done R M st e hne, hd]
    simp only [List.cons_append, structure_loop] at hrun
    by_cases herr : (structure_step R M st e).error = false
    · rw [if_pos ⟨hdone, herr⟩] at hrun
      exact ih (structure_step R M st e) hdone herr hpre2 hrun
    · rw [if_neg (fun hc => herr hc.2)] at hrun
      have := Option.some.inj hrun
      rw [← this] at hok
      exact absurd hok herr

/-- Unfolding of acceptance. -/
theorem conf_validate_structure_ok (R M : Nat) (events : List yaml_event)
    (h : conf_validate_structure R M events = NC_OK) :
    ∃ st2, structure_loop R M events structure_init = some st2 ∧ st2.error = false := by
  unfold conf_validate_structure at h
  split at h
  · cases h
  · rename_i st2 hst
    refine ⟨st2, hst, ?_⟩
    by_cases he : st2.error = false
    · exact he
    · rw [if_neg he] at h
      cases h

/-- The pass answers `NC_OK` or `NC_ERROR`. -/
theorem conf_validate_structure_status (R M : Nat) (events : List yaml_event) :
    conf_validate_structure R M events = NC_OK ∨
    conf_validate_structure R M events = NC_ERROR := by
  unfold conf_validate_structure
  split
  · exact Or.inr rfl
  · split
    · exact Or.inl rfl
    · exact Or.inr rfl

/-- In an accepted stream, an event that comes before any stream end leaves
the error flag clear, and so do all events before it. -/
theorem conf_validate_structure_no_error (R M : Nat) (pre post : List yaml_event)
    (e : yaml_event) (h : conf_validate_structure R M (pre ++ e :: post) = NC_OK)
    (hpre : YAML_STREAM_END_EVENT ∉ pre) :
    (structure_walk R M pre structure_init).done = false ∧
    (structure_walk R M pre structure_init).error = false ∧
    (structure_step R M (structure_walk R M pre structure_init) e).error = false := by
  obtain ⟨st2, hrun, hok⟩ := conf_validate_structure_ok R M _ h
  obtain ⟨h1, h2, h3⟩ := structure_loop_prefix R M pre (e :: post) structure_init st2 rfl rfl
    hpre hrun hok
  refine ⟨h1, h2, ?_⟩
  simp only [structure_loop] at h3
  by_cases hl : (structure_step R M (structure_walk R M pre structure_init) e).done = false ∧
      (structure_step R M (structure_walk R M pre structure_init) e).error = false
  · exact hl.2
  · rw [if_neg hl] at h3
    have := Option.some.inj h3
    rw [this]
    exact hok

/-- A property kept by every switch step that raises no error holds after every
processed prefix of an accepted stream. -/
theorem structure_walk_invariant (R M : Nat) (P : structure_state → Prop)
    (hstep : ∀ st e, P st → st.error = false → (structure_step R M st e).error = false →
      P (structure_step R M st e))
    (pre post : List yaml_event) (st st2 : structure_state)
    (hP : P st) (hd : st.done = false) (he : st.error = false)
    (hpre : YAML_STREAM_END_EVENT ∉ pre)
    (hrun : structure_loop R M (pre ++ post) st = some st2) (hok : st2.error = false) :
    P (structure_walk R M pre st) := by
  induction pre generalizing st with
  | nil => exact hP
  | cons e pre ih =>
    have hpre2 : YAML_STREAM_END_EVENT ∉ pre := fun hc => hpre (List.mem_cons_of_mem _ hc)
    have h1 := structure_loop_prefix R M [e] (pre ++ post) st st2 hd he
      (fun hc => hpre (List.mem_cons.mpr (Or.inl (List.mem_singleton.mp hc)))) hrun hok
    exact ih (structure_step R M st e) (hstep st e hP he h1.2.1) h1.1 h1.2.1 hpre2 h1.2.2

theorem structure_step_depth_le (R M : Nat) (st : structure_state) (e : yaml_event)
    (h : st.depth ≤ M) (hne : (structure_step R M st e).error = false) :
    (structure_step R M st e).depth ≤ M := by
  rw [structure_step_depth]
  cases e <;> simp only [event_depth] <;> try exact h
  · simp only [structure_step] at hne
    by_cases h2 : st.depth ≥ M
    · by_cases h1 : st.depth = R ∧ st.count st.depth ≠ 1
      · rw [if_pos h1] at hne
        simp at hne
      · rw [if_neg h1, if_pos h2] at hne
        simp at hne
    · omega
  · omega

theorem structure_step_mapping_start_error (R M : Nat) (st : structure_state)
    (h : st.depth ≥ M) :
    (structure_step R M st YAML_MAPPING_START_EVENT).error = true := by
  simp only [structure_step]
  split_ifs <;> rfl

theorem structure_step_mapping_start_root (R M : Nat) (st : structure_state)
    (hd : st.depth = R)
    (hne : (structure_step R M st YAML_MAPPING_START_EVENT).error = false) :
    st.count R = 1 := by
  simp only [structure_step] at hne
  by_contra hc
  rw [if_pos ⟨hd, by rw [hd]; exact hc⟩] at hne
  simp at hne

theorem structure_step_scalar_zero (R M : Nat) (st : structure_state) (v : String)
    (hd : st.depth = 0) :
    (structure_step R M st (YAML_SCALAR_EVENT v)).error = true := by
  simp only [structure_step]
  rw [if_pos hd]

theorem structure_step_scalar_root (R M : Nat) (st : structure_state) (v : String)
    (hd : st.depth = R) (hc : st.count R ≠ 0) :
    (structure_step R M st (YAML_SCALAR_EVENT v)).error = true := by
  simp only [structure_step]
  split_ifs with h1 h2 <;> first
    | rfl
    | exact absurd ⟨hd, by rw [hd]; exact hc⟩ h2

theorem structure_step_scalar_root_count (R M : Nat) (st : structure_state) (v : String)
    (hd : st.depth = R)
    (hne : (structure_step R M st (YAML_SCALAR_EVENT v)).error = false) :
    (structure_step R M st (YAML_SCALAR_EVENT v)).count R = 1 ∧
    (structure_step R M st (YAML_SCALAR_EVENT v)).depth = R := by
  have hc : st.count R = 0 := by
    by_contra hc
    rw [structure_step_scalar_root R M st v hd hc] at hne
    cases hne
  have hcd : st.count st.depth = 0 := by rw [hd]; exact hc
  have h1 : ¬ st.depth = 0 := by
    intro h0
    rw [structure_step_scalar_zero R M st v h0] at hne
    cases hne
  have h2 : ¬ (st.depth = (R : Int) ∧ st.count st.depth ≠ 0) := fun hx => hx.2 hcd
  have h3 : ¬ (st.depth = (M : Int) ∧ st.count st.depth = 2) := by
    intro hx
    rw [hcd] at hx
    exact absurd hx.2 (by decide)
  simp only [structure_step, if_neg h1, if_neg h2, if_neg h3]
  refine ⟨?_, hd⟩
  simp [count_set, hd, hc]

theorem count_set_ne (count : Int → Nat) (i j : Int) (v : Nat) (h : j ≠ i) :
    count_set count i v j = count j := by
  unfold count_set
  rw [if_neg h]

theorem count_set_eq (count : Int → Nat) (i : Int) (v : Nat) :
    count_set count i v i = v := by
  unfold count_set
  rw [if_pos rfl]

theorem structure_step_scalar_count_other (R M : Nat) (st : structure_state) (v : String)
    (i : Int) (h : i ≠ st.depth) :
    (structure_step R M st (YAML_SCALAR_EVENT v)).count i = st.count i := by
  simp only [structure_step]
  by_cases h1 : st.depth = 0
  · rw [if_pos h1]
    exact count_set_ne _ _ _ _ h
  · rw [if_neg h1]
    by_cases h2 : st.depth = (R : Int) ∧ st.count st.depth ≠ 0
    · rw [if_pos h2]
      exact count_set_ne _ _ _ _ h
    · rw [if_neg h2]
      by_cases h3 : st.depth = (M : Int) ∧ st.count st.depth = 2
      · rw [if_pos h3]
        show count_set (count_set st.count st.depth 0) st.depth _ i = st.count i
        rw [count_set_ne _ _ _ _ h, count_set_ne _ _ _ _ h]
      · rw [if_neg h3]
        exact count_set_ne _ _ _ _ h

theorem structure_step_mapping_end_count (R M : Nat) (st : structure_state) (i : Int) :
    (structure_step R M st YAML_MAPPING_END_EVENT).count i
      = if st.depth - 1 = i then 0 else st.count i := by
  simp only [structure_step]
  by_cases h : st.depth - 1 = i
  · rw [if_pos h]
    split_ifs <;> (show count_set _ (st.depth - 1) 0 i = 0) <;> rw [h] <;>
      exact count_set_eq _ _ _
  · rw [if_neg h]
    split_ifs <;> (show count_set _ (st.depth - 1) 0 i = _) <;>
      rw [count_set_ne _ _ _ _ (fun hc => h hc.symm)]

theorem structure_step_mapping_start_count (R M : Nat) (st : structure_state) (i : Int) :
    (structure_step R M st YAML_MAPPING_START_EVENT).count i = st.count i := by
  simp only [structure_step]
  split_ifs <;> rfl

theorem structure_step_sequence_start_count (R M : Nat) (st : structure_state) (i : Int) :
    (structure_step R M st YAML_SEQUENCE_START_EVENT).count i = st.count i := by
  simp only [structure_step]
  split_ifs <;> rfl

theorem structure_step_sequence_end_count (R M : Nat) (st : structure_state) (i : Int)
    (h : i ≠ st.depth) :
    (structure_step R M st YAML_SEQUENCE_END_EVENT).count i = st.count i := by
  simp only [structure_step]
  exact count_set_ne _ _ _ _ h

theorem structure_walk_depth (R M : Nat) (pre : List yaml_event) (st : structure_state) :
    (structure_walk R M pre st).depth = event_depth pre st.depth := by
  induction pre generalizing st with
  | nil => rfl
  | cons e pre ih =>
    rw [structure_walk_cons, ih, structure_step_depth]
    cases e <;> rfl

/-- The counter `count[CONF_ROOT_DEPTH]` equals the number of scalars met at
root depth since the last mapping end that came back there, as long as no
sequence end is met at root depth. -/
theorem structure_walk_root_count (R M : Nat) (pre post : List yaml_event)
    (st st2 : structure_state) (hd : st.done = false) (he : st.error = false)
    (hpre : YAML_STREAM_END_EVENT ∉ pre)
    (hrun : structure_loop R M (pre ++ post) st = some st2) (hok : st2.error = false)
    (hseq : ∀ p q, pre = p ++ YAML_SEQUENCE_END_EVENT :: q → event_depth p st.depth ≠ R) :
    (structure_walk R M pre st).count R = keys_since_close R pre st.depth (st.count R) := by
  induction pre generalizing st with
  | nil => rfl
  | cons e pre ih =>
    have hpre2 : YAML_STREAM_END_EVENT ∉ pre := fun hc => hpre (List.mem_cons_of_mem _ hc)
    have h1 := structure_loop_prefix R M [e] (pre ++ post) st st2 hd he
      (fun hc => hpre (List.mem_cons.mpr (Or.inl (List.mem_singleton.mp hc)))) hrun hok
    have hstep : (structure_step R M st e).error = false := h1.2.1
    have hseq2 : ∀ p q, pre = p ++ YAML_SEQUENCE_END_EVENT :: q →
        event_depth p (structure_step R M st e).depth ≠ R := by
      intro p q hpq
      have := hseq (e :: p) q (by rw [hpq]; rfl)
      rw [structure_step_depth]
      cases e <;> exact this
    have ih2 := ih (structure_step R M st e) h1.1 hstep hpre2 h1.2.2 hseq2
    rw [structure_walk_cons, ih2, structure_step_depth]
    cases e with
    | YAML_SCALAR_EVENT v =>
      simp only [event_depth, keys_since_close]
      by_cases hdr : st.depth = R
      · have hc := structure_step_scalar_root_count R M st v hdr hstep
        have h0 : st.count R = 0 := by
          by_contra hc0
          rw [structure_step_scalar_root R M st v hdr hc0] at hstep
          cases hstep
        rw [hc.1, if_pos hdr, h0]
      · rw [if_neg hdr, structure_step_scalar_count_other R M st v R (fun hc => hdr hc.symm)]
    | YAML_MAPPING_START_EVENT =>
      simp only [event_depth, keys_since_close]
      rw [structure_step_mapping_start_count]
    | YAML_MAPPING_END_EVENT =>
      simp only [event_depth, keys_since_close]
      rw [structure_step_mapping_end_count]
    | YAML_SEQUENCE_END_EVENT =>
      simp only [event_depth, keys_since_close]
      have hne : st.depth ≠ R := hseq [] pre rfl
      rw [structure_step_sequence_end_count R M st R (fun hc => hne hc.symm)]
    | YAML_SEQUENCE_START_EVENT =>
      simp only [event_depth, keys_since_close]
      rw [structure_step_sequence_start_count]
    | YAML_NO_EVENT => rfl
    | YAML_STREAM_START_EVENT => rfl
    | YAML_STREAM_END_EVENT => rfl
    | YAML_DOCUMENT_START_EVENT => rfl
    | YAML_DOCUMENT_END_EVENT => rfl
    | YAML_ALIAS_EVENT => rfl

/-- A stream that is not accepted is rejected with `NC_ERROR`. -/
theorem conf_validate_structure_error_of_not_ok (R M : Nat) (events : List yaml_event)
    (h : ¬ conf_validate_structure R M events = NC_OK) :
    conf_validate_structure R M events = NC_ERROR := by
  rcases conf_validate_structure_status R M events with h1 | h1
  · exact absurd h1 h
  · exact h1

/-- While the sticky `seq` flag is set the walk is at depth `CONF_MAX_DEPTH`. -/
theorem structure_step_seq_depth (R M : Nat) (st : structure_state) (e : yaml_event)
    (hP : st.seq = true → st.depth = M) (_he : st.error = false)
    (hne : (structure_step R M st e).error = false) :
    (structure_step R M st e).seq = true → (structure_step R M st e).depth = M := by
  cases e with
  | YAML_MAPPING_START_EVENT =>
    intro hs
    have hseq : st.seq = true := by
      simp only [structure_step] at hs
      split_ifs at hs <;> exact hs
    have hd := hP hseq
    rw [structure_step_mapping_start_error R M st (by omega)] at hne
    cases hne
  | YAML_MAPPING_END_EVENT =>
    intro hs
    simp only [structure_step] at hs hne
    by_cases hd : st.depth = M
    · rw [if_pos hd] at hs hne
      by_cases hq : st.seq = true
      · rw [if_pos hq] at hs
        cases hs
      · rw [if_neg hq] at hne
        cases hne
    · rw [if_neg hd] at hs
      exact absurd (hP hs) hd
  | YAML_SEQUENCE_START_EVENT =>
    intro _
    simp only [structure_step] at hne ⊢
    by_cases hq : st.seq = true
    · rw [if_pos hq]
      exact hP hq
    · rw [if_neg hq] at hne ⊢
      by_cases hd : st.depth = M
      · split_ifs <;> exact hd
      · rw [if_pos hd] at hne
        cases hne
  | YAML_SEQUENCE_END_EVENT => exact hP
  | YAML_SCALAR_EVENT v =>
    intro hs
    simp only [structure_step] at hs ⊢
    have hseq : st.seq = true := by
      split_ifs at hs <;> exact hs
    have := hP hseq
    split_ifs <;> exact this
  | YAML_NO_EVENT => exact hP
  | YAML_STREAM_START_EVENT => exact hP
  | YAML_STREAM_END_EVENT => exact hP
  | YAML_DOCUMENT_START_EVENT => exact hP
  | YAML_DOCUMENT_END_EVENT => exact hP
  | YAML_ALIAS_EVENT => exact hP

/-- In an accepted stream every sequence start is met at depth
`CONF_MAX_DEPTH`. -/
theorem conf_validate_structure_sequence_depth (R M : Nat) (pre post : List yaml_event)
    (h : conf_validate_structure R M (pre ++ YAML_SEQUENCE_START_EVENT :: post) = NC_OK)
    (hpre : YAML_STREAM_END_EVENT ∉ pre) :
    (structure_walk R M pre structure_init).depth = M := by
  obtain ⟨st2, hrun, hok⟩ := conf_validate_structure_ok R M _ h
  have hinv := structure_walk_invariant R M (fun st => st.seq = true → st.depth = M)
    (fun st e hP he hne => structure_step_seq_depth R M st e hP he hne)
    pre (YAML_SEQUENCE_START_EVENT :: post) structure_init st2
    (fun hc => by cases hc) rfl rfl hpre hrun hok
  obtain ⟨_, _, hne⟩ := conf_validate_structure_no_error R M pre post _ h hpre
  by_cases hq : (structure_walk R M pre structure_init).seq = true
  · exact hinv hq
  · simp only [structure_step] at hne
    rw [if_neg hq] at hne
    by_contra hd
    rw [if_pos hd] at hne
    cases hne

theorem token_switch_fresh (type : yaml_token_type) :
    ((token_switch type false false).1 = true ↔ type = YAML_STREAM_END_TOKEN) ∧
    ((token_switch type false false).2 = false ↔ token_allowed type = true) := by
  cases type <;> decide

theorem token_loop_ok_iff (tokens : List yaml_token_type) :
    token_loop tokens false false = some false ↔
      ∃ pre post, tokens = pre ++ YAML_STREAM_END_TOKEN :: post ∧
        ∀ t ∈ pre, t ≠ YAML_STREAM_END_TOKEN ∧ token_allowed t = true := by
  induction tokens with
  | nil =>
    constructor
    · intro h
      simp [token_loop] at h
    · rintro ⟨pre, post, h, _⟩
      simp at h
  | cons t rest ih =>
    obtain ⟨hdone, herr⟩ := token_switch_fresh t
    simp only [token_loop]
    by_cases hend : t = YAML_STREAM_END_TOKEN
    · subst hend
      constructor
      · intro _
        exact ⟨[], rest, rfl, fun t ht => by simp at ht⟩
      · intro _
        rw [if_neg (fun hc => absurd hc.1 (by decide))]
        rfl
    · have hd : (token_switch t false false).1 = false := by
        cases hx : (token_switch t false false).1
        · rfl
        · exact absurd (hdone.mp hx) hend
      by_cases hall : token_allowed t = true
      · have he : (token_switch t false false).2 = false := herr.mpr hall
        rw [if_pos ⟨hd, he⟩, hd, he, ih]
        constructor
        · rintro ⟨pre, post, h, hp⟩
          refine ⟨t :: pre, post, by rw [h]; rfl, ?_⟩
          intro x hx
          rcases List.mem_cons.mp hx with hx | hx
          · rw [hx]; exact ⟨hend, hall⟩
          · exact hp x hx
        · rintro ⟨pre, post, h, hp⟩
          cases pre with
          | nil =>
            simp only [List.nil_append, List.cons.injEq] at h
            exact absurd h.1 hend
          | cons p pre =>
            simp only [List.cons_append, List.cons.injEq] at h
            exact ⟨pre, post, h.2, fun x hx => hp x (List.mem_cons_of_mem _ hx)⟩
      · have he : ¬ (token_switch t false false).2 = false := fun hc => hall (herr.mp hc)
        rw [if_neg (fun hc => he hc.2)]
        constructor
        · intro h
          exact absurd (Option.some.inj h) he
        · rintro ⟨pre, post, h, hp⟩
          cases pre with
          | nil =>
            simp only [List.nil_append, List.cons.injEq] at h
            exact absurd h.1 hend
          | cons p pre =>
            simp only [List.cons_append, List.cons.injEq] at h
            have := (hp p (List.mem_cons_self _ _)).2
            rw [← h.1] at this
            exact absurd this hall

theorem conf_validate_tokens_status (tokens : List yaml_token_type) :
    (conf_validate_tokens tokens = NC_OK ↔ token_loop tokens false false = some false) ∧
    (conf_validate_tokens tokens = NC_OK ∨ conf_validate_tokens tokens = NC_ERROR) := by
  unfold conf_validate_tokens
  cases h : token_loop tokens false false with
  | none => simp
  | some error => cases error <;> simp

/-! ## Lemmas on the command table and the handlers -/

theorem command_loop_eq_find (string_compare : String → String → Int)
    (hzero : ∀ a b, string_compare a b = 0 ↔ a = b) (key : String) (l : List command) :
    command_loop string_compare key l = l.find? (fun cmd => decide (cmd.name = key)) := by
  induction l with
  | nil => rfl
  | cons cmd rest ih =>
    simp only [command_loop, List.find?_cons]
    by_cases h : key = cmd.name
    · have h0 : ¬ string_compare key cmd.name ≠ 0 := fun hc => hc ((hzero _ _).mpr h)
      rw [if_neg h0]
      simp [h]
    · have h0 : string_compare key cmd.name ≠ 0 := fun hc => h ((hzero _ _).mp hc)
      rw [if_pos h0, ih]
      have : decide (cmd.name = key) = false := by
        simp only [decide_eq_false_iff_not]
        exact fun hc => h hc.symm
      rw [this]

theorem command_loop_some (string_compare : String → String → Int)
    (hzero : ∀ a b, string_compare a b = 0 ↔ a = b) (key : String) (cmd : command)
    (h : command_loop string_compare key conf_commands = some cmd) :
    cmd ∈ conf_commands ∧ cmd.name = key := by
  rw [command_loop_eq_find string_compare hzero] at h
  exact ⟨List.mem_of_find?_eq_some h, by simpa using List.find?_some h⟩

theorem command_loop_is_some_iff (string_compare : String → String → Int)
    (hzero : ∀ a b, string_compare a b = 0 ↔ a = b) (key : String) :
    (command_loop string_compare key conf_commands).isSome = true ↔ key ∈ directive_names := by
  rw [command_loop_eq_find string_compare hzero, List.find?_isSome]
  have hn : directive_names = conf_commands.map (fun cmd => cmd.name) := by decide
  rw [hn, List.mem_map]
  constructor
  · rintro ⟨cmd, hm, hc⟩
    exact ⟨cmd, hm, by simpa using hc⟩
  · rintro ⟨cmd, hm, hc⟩
    exact ⟨cmd, hm, by simpa using hc⟩

theorem name_table_loop_bound (string_compare : String → String → Int) (value : String)
    (l : List String) (i j : Nat) (h : name_table_loop string_compare value l i = some j) :
    i ≤ j ∧ j < i + l.length := by
  induction l generalizing i with
  | nil => simp [name_table_loop] at h
  | cons name rest ih =>
    simp only [name_table_loop] at h
    split_ifs at h
    · have := ih (i + 1) h
      simp only [List.length_cons]
      omega
    · have := Option.some.inj h
      simp only [List.length_cons]
      omega

theorem field_num_get_set (cmd : command) (hm : cmd ∈ conf_commands)
    (hs : cmd.set ≠ .conf_set_listen ∧ cmd.set ≠ .conf_set_hashtag ∧
      cmd.set ≠ .conf_set_string ∧ cmd.set ≠ .conf_add_server_group ∧
      cmd.set ≠ .conf_add_backup_server ∧ cmd.set ≠ .conf_add_zookeeper_server)
    (v : Int) (cp : conf_pool) :
    field_num_get cmd.offset (field_num_set cmd.offset v cp) = v := by
  simp only [conf_commands, List.mem_cons, List.mem_singleton, List.not_mem_nil, or_false] at hm
  rcases hm with h | h | h | h | h | h | h | h | h | h | h | h | h | h | h | h | h | h | h | h <;>
    subst h <;> first
      | rfl
      | (exfalso; simp at hs)

theorem field_str_get_set (cmd : command) (hm : cmd ∈ conf_commands)
    (hs : cmd.set = .conf_set_hashtag ∨ cmd.set = .conf_set_string)
    (v : String) (cp : conf_pool) :
    field_str_get cmd.offset (field_str_set cmd.offset v cp) = v := by
  simp only [conf_commands, List.mem_cons, List.mem_singleton, List.not_mem_nil, or_false] at hm
  rcases hm with h | h | h | h | h | h | h | h | h | h | h | h | h | h | h | h | h | h | h | h <;>
    subst h <;> first
      | rfl
      | (exfalso; simp at hs)

theorem conf_set_listen_ok_valid (env : parse_env) (value : String) (field : conf_listen)
    (h : (conf_set_listen env value field).1 = none) :
    (conf_set_listen env value field).2.valid = 1 := by
  have hfin : ∀ (name : String) (fld : conf_listen),
      (conf_set_listen_finish env name fld).1 = none →
      (conf_set_listen_finish env name fld).2.valid = 1 := by
    intro name fld hf
    unfold conf_set_listen_finish at hf ⊢
    cases hr : env.nc_resolve name fld.port with
    | mk st info =>
      cases st
      · simp only [hr]
      · simp only [hr] at hf
        cases hf
      · simp only [hr] at hf
        cases hf
  unfold conf_set_listen at h ⊢
  by_cases hv : field.valid = 1
  · rw [if_pos hv] at h
    cases h
  · rw [if_neg hv] at h ⊢
    dsimp only at h ⊢
    by_cases hs : value.toList.head? = some '/'
    · rw [if_pos hs] at h ⊢
      cases hsp : split_last ' ' value.toList with
      | none =>
        simp only [hsp] at h ⊢
        exact hfin _ _ h
      | some p =>
        obtain ⟨name, perm⟩ := p
        simp only [hsp] at h ⊢
        split_ifs at h ⊢
        exact hfin _ _ h
    · rw [if_neg hs] at h ⊢
      cases hsp : split_last ':' value.toList with
      | none =>
        simp only [hsp] at h
        cases h
      | some p =>
        obtain ⟨name, port⟩ := p
        simp only [hsp] at h ⊢
        split_ifs at h ⊢
        exact hfin _ _ h

theorem conf_set_num_twice (c : conf_constants) (env : parse_env) (f : conf_field)
    (v1 v2 : String) (cp cp1 : conf_pool)
    (hgs : ∀ v q, field_num_get f (field_num_set f v q) = v) (hu : c.CONF_UNSET_NUM < 0)
    (h1 : conf_set_num c env f v1 cp = (none, cp1)) :
    conf_set_num c env f v2 cp1 = (some "is a duplicate", cp1) := by
  unfold conf_set_num at h1
  split_ifs at h1 with a b
  · cases h1
  · cases h1
  · have hcp := (Prod.mk.inj h1).2
    unfold conf_set_num
    rw [if_pos]
    rw [← hcp, hgs]
    omega

theorem conf_set_bool_twice (c : conf_constants) (env : parse_env) (f : conf_field)
    (v1 v2 : String) (cp cp1 : conf_pool)
    (hgs : ∀ v q, field_num_get f (field_num_set f v q) = v) (hu : c.CONF_UNSET_NUM < 0)
    (h1 : conf_set_bool c env f v1 cp = (none, cp1)) :
    conf_set_bool c env f v2 cp1 = (some "is a duplicate", cp1) := by
  unfold conf_set_bool at h1
  split_ifs at h1 with a b d
  · cases h1
  · have hcp := (Prod.mk.inj h1).2
    unfold conf_set_bool
    rw [if_pos]
    rw [← hcp, hgs]
    omega
  · have hcp := (Prod.mk.inj h1).2
    unfold conf_set_bool
    rw [if_pos]
    rw [← hcp, hgs]
    omega
  · cases h1

theorem conf_set_protocol_twice (c : conf_constants) (env : parse_env) (f : conf_field)
    (v1 v2 : String) (cp cp1 : conf_pool)
    (hgs : ∀ v q, field_num_get f (field_num_set f v q) = v)
    (hp : c.PROTOCOL_REDIS ≠ c.CONF_UNSET_NUM ∧ env.PROTOCOL_SSDB ≠ c.CONF_UNSET_NUM ∧
      env.PROTOCOL_MEMCACHE ≠ c.CONF_UNSET_NUM)
    (h1 : conf_set_protocol c env f v1 cp = (none, cp1)) :
    conf_set_protocol c env f v2 cp1 = (some "is a duplicate", cp1) := by
  unfold conf_set_protocol at h1
  split_ifs at h1 with a b d e
  · cases h1
  · have hcp := (Prod.mk.inj h1).2
    unfold conf_set_protocol
    rw [if_pos]
    rw [← hcp, hgs]
    exact hp.1
  · have hcp := (Prod.mk.inj h1).2
    unfold conf_set_protocol
    rw [if_pos]
    rw [← hcp, hgs]
    exact hp.2.1
  · have hcp := (Prod.mk.inj h1).2
    unfold conf_set_protocol
    rw [if_pos]
    rw [← hcp, hgs]
    exact hp.2.2
  · cases h1

theorem conf_set_hash_twice (c : conf_constants) (env : parse_env) (f : conf_field)
    (v1 v2 : String) (cp cp1 : conf_pool)
    (hgs : ∀ v q, field_num_get f (field_num_set f v q) = v)
    (hu : ∀ i : Nat, i < env.hash_strings.length → (i : Int) ≠ c.CONF_UNSET_HASH)
    (h1 : conf_set_hash c env f v1 cp = (none, cp1)) :
    conf_set_hash c env f v2 cp1 = (some "is a duplicate", cp1) := by
  unfold conf_set_hash at h1
  split_ifs at h1 with a
  · cases h1
  · split at h1
    · rename_i i hi
      have hcp := (Prod.mk.inj h1).2
      have hb := name_table_loop_bound _ _ _ _ _ hi
      unfold conf_set_hash
      rw [if_pos]
      rw [← hcp, hgs]
      exact hu i (by omega)
    · cases h1

theorem conf_set_distribution_twice (c : conf_constants) (env : parse_env) (f : conf_field)
    (v1 v2 : String) (cp cp1 : conf_pool)
    (hgs : ∀ v q, field_num_get f (field_num_set f v q) = v)
    (hu : ∀ i : Nat, i < env.dist_strings.length → (i : Int) ≠ c.CONF_UNSET_DIST)
    (h1 : conf_set_distribution c env f v1 cp = (none, cp1)) :
    conf_set_distribution c env f v2 cp1 = (some "is a duplicate", cp1) := by
  unfold conf_set_distribution at h1
  split_ifs at h1 with a
  · cases h1
  · split at h1
    · rename_i i hi
      have hcp := (Prod.mk.inj h1).2
      have hb := name_table_loop_bound _ _ _ _ _ hi
      unfold conf_set_distribution
      rw [if_pos]
      rw [← hcp, hgs]
      exact hu i (by omega)
    · cases h1

theorem conf_set_hashtag_twice (f : conf_field) (v1 v2 : String) (cp cp1 : conf_pool)
    (hgs : ∀ v q, field_str_get f (field_str_set f v q) = v)
    (h1 : conf_set_hashtag f v1 cp = (none, cp1)) :
    conf_set_hashtag f v2 cp1 = (some "is a duplicate", cp1) := by
  unfold conf_set_hashtag at h1
  split_ifs at h1 with a b
  · cases h1
  · cases h1
  · have hcp := (Prod.mk.inj h1).2
    have hlen : v1.length = 2 := not_not.mp b
    unfold conf_set_hashtag
    rw [if_pos]
    rw [← hcp, hgs]
    intro hc
    rw [hc] at hlen
    cases hlen

theorem conf_set_string_twice (f : conf_field) (v1 v2 : String) (cp cp1 : conf_pool)
    (hgs : ∀ v q, field_str_get f (field_str_set f v q) = v) (hv : v1 ≠ "")
    (h1 : conf_set_string f v1 cp = (none, cp1)) :
    conf_set_string f v2 cp1 = (some "is a duplicate", cp1) := by
  unfold conf_set_string at h1
  split_ifs at h1 with a
  · cases h1
  · have hcp := (Prod.mk.inj h1).2
    unfold conf_set_string
    rw [if_pos]
    rw [← hcp, hgs]
    exact hv

/-! ## Lemmas on the parser -/

theorem command_loop_servers (string_compare : String → String → Int)
    (hzero : ∀ a b, string_compare a b = 0 ↔ a = b) :
    command_loop string_compare "servers" conf_commands
      = some ⟨"servers", .conf_add_server_group, .servergroup⟩ := by
  rw [command_loop_eq_find string_compare hzero]
  decide

theorem command_loop_timeout (string_compare : String → String → Int)
    (hzero : ∀ a b, string_compare a b = 0 ↔ a = b) :
    command_loop string_compare "timeout" conf_commands
      = some ⟨"timeout", .conf_set_num, .timeout⟩ := by
  rw [command_loop_eq_find string_compare hzero]
  decide


theorem sample_key_compare_zero (a b : String) : sample_key_compare a b = 0 ↔ a = b := by
  unfold sample_key_compare
  by_cases h : a = b
  · simp [h]
  · simp [h]

/-! ## Lemmas on the transformation -/

theorem int64_wrap_of_int32 (v : Int) (hlo : -2147483648 ≤ v) (hhi : v ≤ 2147483647) :
    int64_wrap (v * 1000) = v * 1000 := by
  unfold int64_wrap
  omega

theorem conf_pool_transform_servers_scalars (env : transform_env) (cp : conf_pool)
    (sp : server_pool) :
    (conf_pool_transform_servers env cp sp).2.server_retry_timeout = sp.server_retry_timeout ∧
    (conf_pool_transform_servers env cp sp).2.require_auth = sp.require_auth ∧
    (conf_pool_transform_servers env cp sp).2.timeout = sp.timeout ∧
    (conf_pool_transform_servers env cp sp).2.backlog = sp.backlog ∧
    (conf_pool_transform_servers env cp sp).2.redis_db = sp.redis_db ∧
    (conf_pool_transform_servers env cp sp).2.key_hash_type = sp.key_hash_type ∧
    (conf_pool_transform_servers env cp sp).2.dist_type = sp.dist_type := by
  unfold conf_pool_transform_servers
  split_ifs <;> first
    | exact ⟨rfl, rfl, rfl, rfl, rfl, rfl, rfl⟩
    | (split <;> first
        | exact ⟨rfl, rfl, rfl, rfl, rfl, rfl, rfl⟩
        | (split <;> first
            | exact ⟨rfl, rfl, rfl, rfl, rfl, rfl, rfl⟩
            | (split <;> first
                | exact ⟨rfl, rfl, rfl, rfl, rfl, rfl, rfl⟩
                | (split <;> exact ⟨rfl, rfl, rfl, rfl, rfl, rfl, rfl⟩))))
theorem split_last_none (c : Char) (l : List Char) (h : c ∉ l) : split_last c l = none := by
  induction l with
  | nil => rfl
  | cons x xs ih =>
    have hx : ¬ x = c := fun hc => h (by rw [hc]; exact List.mem_cons_self _ _)
    have hxs : c ∉ xs := fun hc => h (List.mem_cons_of_mem _ hc)
    simp [split_last, ih hxs, hx]

theorem split_last_append (c : Char) (a b : List Char) (h : c ∉ b) :
    split_last c (a ++ c :: b) = some (a, b) := by
  induction a with
  | nil => simp [split_last, split_last_none c b h]
  | cons x xs ih => simp [split_last, ih]

theorem sample_nc_valid_port (n : Int) :
    sample_parse_env.nc_valid_port n = true ↔ 1 ≤ n ∧ n ≤ 65535 := by
  simp [sample_parse_env]

theorem conf_add_server_loop_plain (host port weight : List Char)
    (hh2 : ' ' ∉ host) (hh3 : Char.ofNat 0 ∉ host)
    (hp1 : ':' ∉ port) (hp2 : ' ' ∉ port) (hw1 : ':' ∉ weight) (hw2 : ' ' ∉ weight) :
    conf_add_server_loop delim { rest := host ++ ':' :: (port ++ ':' :: weight) }
      = { k := 3, rest := host, name := none, weight := some weight, port := some port } := by
  have h0 : split_last ' ' (host ++ ':' :: (port ++ ':' :: weight)) = none := by
    apply split_last_none
    simp [hh2, hp2, hw2]
  have h1 : split_last ':' (host ++ ':' :: (port ++ ':' :: weight))
      = some (host ++ ':' :: port, weight) := by
    have := split_last_append ':' (host ++ ':' :: port) weight hw1
    simpa using this
  have h2 : split_last ':' (host ++ ':' :: port) = some (host, port) :=
    split_last_append ':' host port hp1
  have h3 : split_last (Char.ofNat 0) host = none := split_last_none _ _ hh3
  simp [delim, conf_add_server_loop, h0, h1, h2, h3]

theorem conf_add_server_loop_named (host port weight name : List Char)
    (hh3 : Char.ofNat 0 ∉ host) (hp1 : ':' ∉ port) (hw1 : ':' ∉ weight) (hn : ' ' ∉ name) :
    conf_add_server_loop delim
        { rest := (host ++ ':' :: (port ++ ':' :: weight)) ++ ' ' :: name }
      = { k := 3, rest := host, name := some name, weight := some weight, port := some port } := by
  have h0 : split_last ' ' (host ++ ':' :: (port ++ ':' :: (weight ++ ' ' :: name)))
      = some (host ++ ':' :: (port ++ ':' :: weight), name) := by
    have := split_last_append ' ' (host ++ ':' :: (port ++ ':' :: weight)) name hn
    simpa using this
  have h1 : split_last ':' (host ++ ':' :: (port ++ ':' :: weight))
      = some (host ++ ':' :: port, weight) := by
    have := split_last_append ':' (host ++ ':' :: port) weight hw1
    simpa using this
  have h2 : split_last ':' (host ++ ':' :: port) = some (host, port) :=
    split_last_append ':' host port hp1
  have h3 : split_last (Char.ofNat 0) host = none := split_last_none _ _ hh3
  simp [delim, conf_add_server_loop, h0, h1, h2, h3]

theorem head_append_ne (host rest : List Char) (h : host.head? ≠ some '/') :
    (host ++ ':' :: rest).head? ≠ some '/' := by
  cases host with
  | nil => simp
  | cons x xs => simpa using h

theorem conf_add_server_plain (c : conf_constants) (env : parse_env)
    (host port weight : List Char) (a : List conf_server)
    (hh2 : ' ' ∉ host) (hh3 : Char.ofNat 0 ∉ host) (hh4 : host.head? ≠ some '/')
    (hp1 : ':' ∉ port) (hp2 : ' ' ∉ port) (hw1 : ':' ∉ weight) (hw2 : ' ' ∉ weight)
    (hport : 0 ≤ env.nc_atoi (String.mk port) ∧
      env.nc_valid_port (env.nc_atoi (String.mk port)) = true)
    (hweight : 0 < env.nc_atoi (String.mk weight)) :
    conf_add_server c env (String.mk (host ++ ':' :: (port ++ ':' :: weight))) a
      = (none, a ++ [{ pname := String.mk (host ++ ':' :: (port ++ ':' :: weight)),
                       name := if env.nc_atoi (String.mk port) = c.CONF_DEFAULT_KETAMA_PORT
                                 then String.mk host else String.mk (host ++ ':' :: port),
                       addrstr := String.mk host,
                       port := env.nc_atoi (String.mk port),
                       weight := env.nc_atoi (String.mk weight),
                       info := 0, valid := 1 }]) := by
  have hl := conf_add_server_loop_plain host port weight hh2 hh3 hp1 hp2 hw1 hw2
  have hhead := head_append_ne host (port ++ ':' :: weight) hh4
  unfold conf_add_server
  simp only [String.toList, hl] at hhead ⊢
  have ht1 : List.take (host.length + (port.length + (weight.length + 1) + 1))
      (host ++ ':' :: (port ++ ':' :: weight)) = host ++ ':' :: (port ++ ':' :: weight) := by
    apply List.take_of_length_le
    simp
  have ht2 : List.take (host.length + 1 + port.length)
      (host ++ ':' :: (port ++ ':' :: weight)) = host ++ ':' :: port := by
    have : host ++ ':' :: (port ++ ':' :: weight) = (host ++ ':' :: port) ++ ':' :: weight := by
      simp
    rw [this]
    apply List.take_left'
    simp
    omega
  simp [hh4, hweight, hport, not_lt_of_gt hweight, ne_of_gt hweight, String.length,
    not_lt.mpr hport.1, ht1, ht2]
  split_ifs <;> rfl


theorem conf_add_server_named (c : conf_constants) (env : parse_env)
    (host port weight name : List Char) (a : List conf_server)
    (hh3 : Char.ofNat 0 ∉ host) (hh4 : host.head? ≠ some '/')
    (hp1 : ':' ∉ port) (hw1 : ':' ∉ weight) (hn : ' ' ∉ name) (hne : name ≠ [])
    (hport : 0 ≤ env.nc_atoi (String.mk port) ∧
      env.nc_valid_port (env.nc_atoi (String.mk port)) = true)
    (hweight : 0 < env.nc_atoi (String.mk weight)) :
    conf_add_server c env
        (String.mk (host ++ ':' :: (port ++ ':' :: (weight ++ ' ' :: name)))) a
      = (none, a ++ [{ pname := String.mk (host ++ ':' :: (port ++ ':' :: weight)),
                       name := String.mk name,
                       addrstr := String.mk host,
                       port := env.nc_atoi (String.mk port),
                       weight := env.nc_atoi (String.mk weight),
                       info := 0, valid := 1 }]) := by
  have hl := conf_add_server_loop_named host port weight name hh3 hp1 hw1 hn
  have hl2 : conf_add_server_loop delim
      { rest := host ++ ':' :: (port ++ ':' :: (weight ++ ' ' :: name)) }
      = { k := 3, rest := host, name := some name, weight := some weight, port := some port } := by
    have : host ++ ':' :: (port ++ ':' :: (weight ++ ' ' :: name))
        = (host ++ ':' :: (port ++ ':' :: weight)) ++ ' ' :: name := by simp
    rw [this]
    exact hl
  have hpos : 0 < name.length := List.length_pos.mpr hne
  have ht1 : List.take
      (host.length + (port.length + (weight.length + (name.length + 1) + 1) + 1)
        - (name.length + 1))
      (host ++ ':' :: (port ++ ':' :: (weight ++ ' ' :: name)))
      = host ++ ':' :: (port ++ ':' :: weight) := by
    have : host ++ ':' :: (port ++ ':' :: (weight ++ ' ' :: name))
        = (host ++ ':' :: (port ++ ':' :: weight)) ++ ' ' :: name := by simp
    rw [this]
    apply List.take_left'
    simp
    omega
  unfold conf_add_server
  simp only [String.toList, hl2]
  simp [hh4, hweight, hport, not_lt_of_gt hweight, ne_of_gt hweight, String.length,
    not_lt.mpr hport.1, ht1, hpos]
theorem conf_add_server_pushed (c : conf_constants) (env : parse_env) (value : String)
    (a : List conf_server) :
    ∃ f, (conf_add_server c env value a).2 = a ++ [f] ∧
      (f.valid = 1 ↔ (conf_add_server c env value a).1 = none) ∧
      (f.valid = 1 → 0 < f.weight ∧
        (value.toList.head? ≠ some '/' → 0 ≤ f.port ∧ env.nc_valid_port f.port = true)) := by
  unfold conf_add_server
  dsimp only
  generalize conf_add_server_loop delim { rest := value.toList } = st
  generalize env.nc_atoi (String.mk (st.weight.getD [])) = w
  generalize env.nc_atoi (String.mk (st.port.getD [])) = p
  generalize String.mk (List.take (if (st.name.getD []).length > 0
    then value.length - ((st.name.getD []).length + 1) else value.length) value.toList) = pn
  by_cases hk : st.k ≠ (if value.toList.head? = some '/' then 2 else 3)
  · rw [if_pos hk]
    refine ⟨_, rfl, ?_, ?_⟩ <;> simp
  · rw [if_neg hk]
    by_cases hw : w < 0
    · rw [if_pos hw]
      refine ⟨_, rfl, ?_, ?_⟩ <;> simp
    · rw [if_neg hw]
      by_cases hw0 : w = 0
      · rw [if_pos hw0]
        refine ⟨_, rfl, ?_, ?_⟩ <;> simp
      · rw [if_neg hw0]
        by_cases hh : value.toList.head? = some '/'
        · simp only [hh, ne_eq, not_true_eq_false, if_false, false_and]
          refine ⟨_, rfl, ?_, ?_⟩
          · simp
          · intro _
            exact ⟨by simp only; omega, fun h => h.elim⟩
        · simp only [hh, ne_eq, not_false_eq_true, if_true, true_and]
          by_cases hp : p < 0 ∨ env.nc_valid_port p = false
          · rw [if_pos hp]
            refine ⟨_, rfl, ?_, ?_⟩ <;> simp
          · rw [if_neg hp]
            refine ⟨_, rfl, ?_, ?_⟩
            · simp
            · intro _
              refine ⟨by simp only; omega, fun _ => ?_⟩
              simp only
              constructor
              · by_contra hc
                exact hp (Or.inl (by omega))
              · cases hv : env.nc_valid_port p with
                | true => rfl
                | false => exact absurd (Or.inr hv) hp

theorem conf_add_server_group_token_ok (env : parse_env) (host tail : List Char)
    (f : conf_server) (h : conf_add_server_group_token env host tail = .ok f) :
    f.valid = 1 ∧ 0 < f.weight ∧ 0 ≤ f.port ∧ env.nc_valid_port f.port = true ∧
    f.pname = String.mk host ∧ f.name = String.mk host ∧ f.addrstr = String.mk host := by
  unfold conf_add_server_group_token at h
  dsimp only at h
  cases hc : nc_strchr ':' tail with
  | none =>
    rw [hc] at h
    cases h
  | some find =>
    rw [hc] at h
    dsimp only at h
    generalize env.nc_atoi (String.mk (List.take find tail)) = p at h
    generalize env.nc_atoi (String.mk (List.drop (find + 1) tail)) = w at h
    by_cases hp : p < 0 ∨ env.nc_valid_port p = false
    · rw [if_pos hp] at h
      cases h
    · rw [if_neg hp] at h
      by_cases hw : w < 0
      · rw [if_pos hw] at h
        cases h
      · rw [if_neg hw] at h
        by_cases hw0 : w = 0
        · rw [if_pos hw0] at h
          cases h
        · rw [if_neg hw0] at h
          injection h with h
          subst h
          refine ⟨rfl, by simp only; omega, ?_, ?_, rfl, rfl, rfl⟩
          · simp only
            by_contra hc2
            exact hp (Or.inl (by omega))
          · simp only
            cases hv : env.nc_valid_port p with
            | true => rfl
            | false => exact absurd (Or.inr hv) hp

theorem conf_add_server_group_loop_servers (env : parse_env) (P : conf_server → Prop)
    (hP : ∀ host tail f, conf_add_server_group_token env host tail = .ok f → P f) :
    ∀ (fuel : Nat) (s : List Char) (group : conf_server_group),
      (∀ x ∈ group.server, P x) →
      ∀ x ∈ (conf_add_server_group_loop env fuel s group).2.server, P x := by
  intro fuel
  induction fuel with
  | zero =>
    intro s group hg
    exact hg
  | succ n ih =>
    intro s group hg
    unfold conf_add_server_group_loop
    by_cases hlen : s.length < 2
    · rw [if_pos hlen]
      exact hg
    · rw [if_neg hlen]
      dsimp only
      cases hc : nc_strchr ':' (List.take ((nc_strchr ' ' s.dropLast).getD s.length) s) with
      | none =>
        dsimp only
        split_ifs
        · exact hg
        · exact hg
      | some find =>
        dsimp only
        cases ht : conf_add_server_group_token env
            (List.take find (List.take ((nc_strchr ' ' s.dropLast).getD s.length) s))
            (List.drop (find + 1) (List.take ((nc_strchr ' ' s.dropLast).getD s.length) s)) with
        | error msg => exact hg
        | ok field =>
          dsimp only
          have hg2 : ∀ x ∈ ({ group with server := group.server ++ [field] } :
              conf_server_group).server, P x := by
            intro x hx
            rcases List.mem_append.mp hx with hx | hx
            · exact hg x hx
            · rw [List.mem_singleton.mp hx]
              exact hP _ _ _ ht
          cases hq : nc_strchr ' ' s.dropLast with
          | none => exact hg2
          | some q => exact ih _ _ hg2

/-! ## Lemmas on the registry fetch -/

theorem conf_from_zookeeper_loop_ok (nodes : List zk_node) :
    ∀ servers backup_servers : List conf_server,
      (conf_from_zookeeper_loop nodes servers backup_servers).1 = NC_OK →
      (∀ n ∈ nodes, n.get_ret = 0 ∧ n.ip ≠ none ∧ n.slave_ip ≠ none) ∧
      (conf_from_zookeeper_loop nodes servers backup_servers).2.1
        = servers ++ nodes.map (fun n => zk_conf_server (n.ip.getD "") (n.port.getD 0)) ∧
      (conf_from_zookeeper_loop nodes servers backup_servers).2.2
        = backup_servers
          ++ nodes.map (fun n => zk_conf_server (n.slave_ip.getD "") (n.slave_port.getD 0)) := by
  induction nodes with
  | nil =>
    intro servers backup_servers _
    simp [conf_from_zookeeper_loop]
  | cons node rest ih =>
    intro servers backup_servers h
    unfold conf_from_zookeeper_loop at h ⊢
    by_cases hg : node.get_ret ≠ 0
    · rw [if_pos hg] at h
      cases h
    · rw [if_neg hg] at h ⊢
      have hg0 : node.get_ret = 0 := not_not.mp hg
      cases hip : node.ip with
      | none =>
        rw [hip] at h
        cases h
      | some server_str =>
        cases hsl : node.slave_ip with
        | none =>
          rw [hip, hsl] at h
          cases h
        | some back_str =>
          rw [hip, hsl] at h
          dsimp only at h ⊢
          obtain ⟨h1, h2, h3⟩ := ih _ _ h
          refine ⟨?_, ?_, ?_⟩
          · intro n hn
            rcases List.mem_cons.mp hn with hn | hn
            · subst hn
              exact ⟨hg0, by rw [hip]; simp, by rw [hsl]; simp⟩
            · exact h1 n hn
          · rw [h2]
            simp [hip]
          · rw [h3]
            simp [hsl]

/-! ## Lemmas on the sequence marker of the structural pass -/

theorem sequence_since_mapping_start_snoc (pre : List yaml_event) (e : yaml_event) :
    sequence_since_mapping_start (pre ++ [e])
      = sequence_mark (sequence_since_mapping_start pre) e := by
  unfold sequence_since_mapping_start
  rw [List.foldl_append]
  rfl

theorem structure_step_seq_invariant (R M : Nat) (st : structure_state) (e : yaml_event)
    (b : Bool)
    (h1 : st.depth ≤ M) (h2 : st.depth < M → st.seq = false) (h3 : st.seq = true → b = true)
    (he : (structure_step R M st e).error = false) :
    (structure_step R M st e).depth ≤ M ∧
    ((structure_step R M st e).depth < M → (structure_step R M st e).seq = false) ∧
    ((structure_step R M st e).seq = true → sequence_mark b e = true) := by
  cases e with
  | YAML_MAPPING_START_EVENT =>
    simp only [structure_step] at he ⊢
    by_cases hc1 : st.depth = (R : Int) ∧ st.count st.depth ≠ 1
    · rw [if_pos hc1] at he
      simp at he
    · rw [if_neg hc1] at he ⊢
      by_cases hc2 : st.depth ≥ (M : Int)
      · rw [if_pos hc2] at he
        simp at he
      · rw [if_neg hc2] at he ⊢
        have hlt : st.depth < M := by omega
        refine ⟨by show st.depth + 1 ≤ (M : Int); omega, fun _ => h2 hlt, fun hs => ?_⟩
        simp only at hs
        rw [h2 hlt] at hs
        cases hs
  | YAML_MAPPING_END_EVENT =>
    simp only [structure_step] at he ⊢
    by_cases hc1 : st.depth = (M : Int)
    · rw [if_pos hc1] at he ⊢
      by_cases hs : st.seq = true
      · rw [if_pos hs] at he ⊢
        refine ⟨by show st.depth - 1 ≤ (M : Int); omega, fun _ => rfl, fun hq => ?_⟩
        simp only at hq
        cases hq
      · rw [if_neg hs] at he
        simp at he
    · rw [if_neg hc1] at he ⊢
      have hlt : st.depth < M := by omega
      refine ⟨by show st.depth - 1 ≤ (M : Int); omega, fun _ => h2 hlt, fun hq => ?_⟩
      simp only at hq
      rw [h2 hlt] at hq
      cases hq
  | YAML_SEQUENCE_START_EVENT =>
    simp only [structure_step] at he ⊢
    refine ⟨?_, ?_, fun _ => rfl⟩
    · split_ifs <;> exact h1
    · intro hd
      by_cases hs : st.seq = true
      · rw [if_pos hs] at hd
        have := h2 hd
        rw [this] at hs
        cases hs
      · rw [if_neg hs] at he hd
        by_cases hc : st.depth ≠ (M : Int)
        · rw [if_pos hc] at he
          simp at he
        · rw [if_neg hc] at hd
          have hM : st.depth = M := not_not.mp hc
          split_ifs at hd <;> first
            | exact absurd hd (by omega)
            | exact absurd (show st.depth < (M : Int) from hd) (by omega)
  | YAML_SEQUENCE_END_EVENT =>
    simp only [structure_step]
    exact ⟨h1, h2, h3⟩
  | YAML_SCALAR_EVENT v =>
    simp only [structure_step]
    refine ⟨?_, ?_, ?_⟩
    · split_ifs <;> exact h1
    · intro hd
      have hd2 : st.depth < M := by
        split_ifs at hd <;> exact hd
      have := h2 hd2
      split_ifs <;> exact this
    · intro hs
      have hs2 : st.seq = true := by
        split_ifs at hs <;> exact hs
      exact h3 hs2
  | YAML_STREAM_START_EVENT => exact ⟨h1, h2, h3⟩
  | YAML_DOCUMENT_START_EVENT => exact ⟨h1, h2, h3⟩
  | YAML_DOCUMENT_END_EVENT => exact ⟨h1, h2, h3⟩
  | YAML_STREAM_END_EVENT => exact ⟨h1, h2, h3⟩
  | YAML_NO_EVENT => exact ⟨h1, h2, h3⟩
  | YAML_ALIAS_EVENT => exact ⟨h1, h2, h3⟩

theorem structure_walk_seq_invariant (R M : Nat) (pre : List yaml_event)
    (hok : ∀ p q, pre = p ++ q →
      (structure_walk R M p structure_init).error = false) :
    (structure_walk R M pre structure_init).depth ≤ M ∧
    ((structure_walk R M pre structure_init).depth < M →
      (structure_walk R M pre structure_init).seq = false) ∧
    ((structure_walk R M pre structure_init).seq = true →
      sequence_since_mapping_start pre = true) := by
  induction pre using List.reverseRecOn with
  | nil =>
    refine ⟨?_, fun _ => rfl, fun h => ?_⟩
    · show (0 : Int) ≤ M
      omega
    · cases h
  | append_singleton pre e ih =>
    have hpre : ∀ p q, pre = p ++ q → (structure_walk R M p structure_init).error = false := by
      intro p q hpq
      exact hok p (q ++ [e]) (by rw [hpq, List.append_assoc])
    obtain ⟨h1, h2, h3⟩ := ih hpre
    have he := hok (pre ++ [e]) [] (by simp)
    rw [structure_walk_append] at he ⊢
    rw [sequence_since_mapping_start_snoc]
    exact structure_step_seq_invariant R M _ e _ h1 h2 h3 he

/-! ## Lemmas on the sorted pool list -/

theorem sample_data_compare_zero (a b : String) : sample_data_compare a b = 0 ↔ a = b := by
  unfold sample_data_compare
  by_cases h : a = b
  · simp [h]
  · simp only [h, if_false, iff_false]
    split <;> omega

theorem sample_data_compare_le (a b : String) :
    sample_data_compare a b ≤ 0 ↔ a.data ≤ b.data := by
  unfold sample_data_compare
  by_cases h : a = b
  · simp [h]
  · rw [if_neg h]
    by_cases h2 : a.data < b.data
    · rw [if_pos h2]
      exact ⟨fun _ => le_of_lt h2, fun _ => by omega⟩
    · rw [if_neg h2]
      constructor
      · intro hc
        omega
      · intro hle
        have hne : a.data ≠ b.data := fun hc => h (String.ext hc)
        exact absurd (lt_of_le_of_ne hle hne) h2

theorem sample_data_compare_anti (a b : String)
    (h1 : sample_data_compare a b ≤ 0) (h2 : sample_data_compare b a ≤ 0) : a = b :=
  String.ext (le_antisymm ((sample_data_compare_le a b).mp h1)
    ((sample_data_compare_le b a).mp h2))

theorem sample_array_sort_sorts_data (key : conf_pool → String) :
    sorts_by (fun p q => sample_data_compare (key p) (key q))
      (sample_array_sort (fun p q => sample_data_compare (key p) (key q))) := by
  intro l
  unfold sample_array_sort
  haveI : IsTotal conf_pool (fun x y => sample_data_compare (key x) (key y) ≤ 0) :=
    ⟨fun x y => by
      simp only [sample_data_compare_le]
      exact le_total _ _⟩
  haveI : IsTrans conf_pool (fun x y => sample_data_compare (key x) (key y) ≤ 0) :=
    ⟨fun x y z hxy hyz => by
      simp only [sample_data_compare_le] at hxy hyz ⊢
      exact le_trans hxy hyz⟩
  exact ⟨List.perm_insertionSort _ l, List.sorted_insertionSort _ l⟩

theorem validate_pool_loop_names (c : conf_constants) (stale : Nat → Nat → conf_server)
    (pool : List conf_pool) (i : Nat) :
    (validate_pool_loop c stale pool i).2.map (fun p => p.name)
      = pool.map (fun p => p.name) := by
  induction pool generalizing i with
  | nil => rfl
  | cons cp rest ih =>
    have hn := (conf_validate_pool_status c (stale i) cp).2.2.2.1
    unfold validate_pool_loop
    cases hr : conf_validate_pool c (stale i) cp with
    | mk status cp1 =>
      rw [hr] at hn
      cases status with
      | NC_OK =>
        simp only [List.map_cons]
        rw [ih (i + 1)]
        exact congrArg (fun x => x :: rest.map (fun p => p.name)) hn
      | NC_ERROR =>
        simp only [List.map_cons]
        exact congrArg (fun x => x :: rest.map (fun p => p.name)) hn
      | NC_ENOMEM =>
        simp only [List.map_cons]
        exact congrArg (fun x => x :: rest.map (fun p => p.name)) hn

theorem adjacent_loop_chain (string_compare : String → String → Int)
    (key : conf_pool → String) (l : List conf_pool)
    (hs : l.Pairwise (fun x y => string_compare (key x) (key y) ≤ 0))
    (ha : adjacent_loop string_compare key l = true) :
    l.Chain' (fun x y => string_compare (key x) (key y) < 0) := by
  induction l with
  | nil => exact List.chain'_nil
  | cons a t ih =>
    cases t with
    | nil => exact List.chain'_singleton a
    | cons b rest =>
      unfold adjacent_loop at ha
      by_cases h0 : string_compare (key a) (key b) = 0
      · rw [if_pos h0] at ha
        cases ha
      · rw [if_neg h0] at ha
        have hle : string_compare (key a) (key b) ≤ 0 :=
          (List.pairwise_cons.mp hs).1 b (List.mem_cons_self _ _)
        refine List.chain'_cons.mpr ⟨by omega, ih (List.pairwise_cons.mp hs).2 ha⟩


/-! ## Lemmas on the per-server transformation -/

theorem conf_server_each_transform_all_spec (ds : List conf_server) :
    ∀ srv : List server,
      (conf_server_each_transform_all ds srv).map (fun s => s.idx)
        = srv.map (fun s => s.idx) ++ List.range' srv.length ds.length ∧
      (conf_server_each_transform_all ds srv).map (fun s => s.pname)
        = srv.map (fun s => s.pname) ++ ds.map (fun d => d.pname) := by
  induction ds with
  | nil =>
    intro srv
    simp [conf_server_each_transform_all]
  | cons d rest ih =>
    intro srv
    have h := ih (conf_server_each_transform d srv)
    unfold conf_server_each_transform_all at h ⊢
    rw [List.foldl_cons]
    constructor
    · rw [h.1]
      simp [conf_server_each_transform, List.range'_succ]
    · rw [h.2]
      simp [conf_server_each_transform]


/-! ## Lemmas on the group handler -/

theorem nc_strchr_none (c : Char) (l : List Char) (h : c ∉ l) : nc_strchr c l = none := by
  induction l with
  | nil => rfl
  | cons x xs ih =>
    have hx : ¬ x = c := fun hc => h (by rw [hc]; exact List.mem_cons_self _ _)
    have hxs : c ∉ xs := fun hc => h (List.mem_cons_of_mem _ hc)
    simp [nc_strchr, ih hxs, hx]

theorem nc_strchr_append (c : Char) (a b : List Char) (h : c ∉ a) :
    nc_strchr c (a ++ c :: b) = some a.length := by
  induction a with
  | nil => simp [nc_strchr]
  | cons x xs ih =>
    have hx : ¬ x = c := fun hc => h (by rw [hc]; exact List.mem_cons_self _ _)
    have hxs : c ∉ xs := fun hc => h (List.mem_cons_of_mem _ hc)
    simp [nc_strchr, ih hxs, hx]

theorem skip_spaces_id (l : List Char) (h : l.head? ≠ some ' ') : skip_spaces l = l := by
  cases l with
  | nil => rfl
  | cons x xs =>
    cases xs with
    | nil => rfl
    | cons y rest =>
      have hx : ¬ x = ' ' := fun hc => h (by rw [hc]; rfl)
      simp [skip_spaces, hx]

theorem conf_add_server_group_token_spec (env : parse_env)
    (t : List Char × List Char × List Char) (h : group_token_ok env t) :
    conf_add_server_group_token env t.1 (t.2.1 ++ ':' :: t.2.2) = .ok (group_server env t) := by
  obtain ⟨_, _, hp1, _, _, _, hport, hvalid, hweight⟩ := h
  unfold conf_add_server_group_token
  dsimp only
  rw [nc_strchr_append ':' t.2.1 t.2.2 hp1]
  dsimp only
  have hd : List.drop (t.2.1.length + 1) (t.2.1 ++ ':' :: t.2.2) = t.2.2 := by
    have : t.2.1 ++ ':' :: t.2.2 = (t.2.1 ++ [':']) ++ t.2.2 := by simp
    rw [this]
    exact List.drop_left' (by simp)
  rw [List.take_left, hd]
  simp [group_server, hport, hvalid, hweight, not_lt.mpr hport, not_lt_of_gt hweight,
    ne_of_gt hweight]

theorem group_token_facts (env : parse_env) (t : List Char × List Char × List Char)
    (h : group_token_ok env t) :
    ' ' ∉ group_token t ∧ 2 ≤ (group_token t).length ∧
    (group_token t).head? ≠ some ' ' ∧
    nc_strchr ':' (group_token t) = some t.1.length ∧
    List.take t.1.length (group_token t) = t.1 ∧
    List.drop (t.1.length + 1) (group_token t) = t.2.1 ++ ':' :: t.2.2 := by
  obtain ⟨hh1, hh2, _, hp2, _, hw2, _, _, _⟩ := h
  unfold group_token
  refine ⟨by simp [hh2, hp2, hw2], by simp; omega, ?_, nc_strchr_append ':' _ _ hh1,
    List.take_left _ _, ?_⟩
  · cases hc : t.1 with
    | nil => simp
    | cons x xs =>
      have hx : ¬ x = ' ' := fun hx => hh2 (by rw [hc, hx]; exact List.mem_cons_self _ _)
      simp [hx]
  · have : t.1 ++ ':' :: (t.2.1 ++ ':' :: t.2.2) = (t.1 ++ [':']) ++ (t.2.1 ++ ':' :: t.2.2) := by
      simp
    rw [this]
    exact List.drop_left' (by simp)

theorem group_value_facts (env : parse_env) (t : List Char × List Char × List Char)
    (rest : List (List Char × List Char × List Char)) (h : group_token_ok env t) :
    2 ≤ (group_value (t :: rest)).length ∧ (group_value (t :: rest)).head? ≠ some ' ' := by
  obtain ⟨_, h2, h3, _⟩ := group_token_facts env t h
  cases rest with
  | nil => exact ⟨h2, h3⟩
  | cons t2 rest2 =>
    show 2 ≤ (group_token t ++ ' ' :: group_value (t2 :: rest2)).length ∧
      (group_token t ++ ' ' :: group_value (t2 :: rest2)).head? ≠ some ' '
    refine ⟨by simp; omega, ?_⟩
    cases hc : group_token t with
    | nil =>
      rw [hc] at h2
      simp at h2
    | cons x xs =>
      rw [hc] at h3
      simpa using h3

theorem conf_add_server_group_loop_tokens (env : parse_env) :
    ∀ (tokens : List (List Char × List Char × List Char)) (fuel : Nat)
      (group : conf_server_group),
      (∀ t ∈ tokens, group_token_ok env t) → (group_value tokens).length ≤ fuel →
      conf_add_server_group_loop env fuel (group_value tokens) group
        = (none, { group with server := group.server ++ tokens.map (group_server env) }) := by
  intro tokens
  induction tokens with
  | nil =>
    intro fuel group _ _
    cases fuel <;> simp [conf_add_server_group_loop, group_value]
  | cons t rest ih =>
    intro fuel group hok hfuel
    have ht := hok t (List.mem_cons_self _ _)
    obtain ⟨hsp, hlen, hhead, hchr, htake, hdrop⟩ := group_token_facts env t ht
    have hv := group_value_facts env t rest ht
    cases fuel with
    | zero => omega
    | succ n =>
      unfold conf_add_server_group_loop
      rw [if_neg (by omega)]
      dsimp only
      cases rest with
      | nil =>
        have hs : group_value [t] = group_token t := rfl
        rw [hs]
        have hq : nc_strchr ' ' (group_token t).dropLast = none :=
          nc_strchr_none _ _ (fun hc => hsp (List.dropLast_subset _ hc))
        rw [hq]
        simp only [Option.getD_none, List.take_length, hchr, htake, hdrop,
          conf_add_server_group_token_spec env t ht]
        rfl
      | cons t2 rest2 =>
        have hs : group_value (t :: t2 :: rest2)
            = group_token t ++ ' ' :: group_value (t2 :: rest2) := rfl
        have ht2 := hok t2 (List.mem_cons_of_mem _ (List.mem_cons_self _ _))
        have hv2 := group_value_facts env t2 rest2 ht2
        rw [hs] at hfuel ⊢
        have hne : group_value (t2 :: rest2) ≠ [] := by
          intro hc
          rw [hc] at hv2
          simp at hv2
        have hq : nc_strchr ' ' (group_token t ++ ' ' :: group_value (t2 :: rest2)).dropLast
            = some (group_token t).length := by
          have : (group_token t ++ ' ' :: group_value (t2 :: rest2)).dropLast
              = group_token t ++ ' ' :: (group_value (t2 :: rest2)).dropLast := by
            rw [List.dropLast_append_of_ne_nil _ (by simp), List.dropLast_cons_of_ne_nil hne]
          rw [this]
          exact nc_strchr_append ' ' _ _ hsp
        rw [hq]
        have htk : List.take (group_token t).length
            (group_token t ++ ' ' :: group_value (t2 :: rest2)) = group_token t :=
          List.take_left _ _
        have hdr : List.drop ((group_token t).length + 1)
            (group_token t ++ ' ' :: group_value (t2 :: rest2)) = group_value (t2 :: rest2) := by
          have : group_token t ++ ' ' :: group_value (t2 :: rest2)
              = (group_token t ++ [' ']) ++ group_value (t2 :: rest2) := by simp
          rw [this]
          exact List.drop_left' (by simp)
        simp only [Option.getD_some, htk, hchr, htake, hdrop,
          conf_add_server_group_token_spec env t ht, hdr, skip_spaces_id _ hv2.2]
        have hfuel2 : (group_value (t2 :: rest2)).length ≤ n := by
          simp at hfuel
          omega
        rw [ih n _ (fun x hx => hok x (List.mem_cons_of_mem _ hx)) hfuel2]
        simp

/-! ## Lemmas on sequence elements in the parser -/

theorem conf_handler_key_value (c : conf_constants) (env : parse_env) (pre : List String)
    (key v : String) (cmd : command) (cp : conf_pool) (hpre : pre ≠ [])
    (hcmd : command_loop env.string_compare key conf_commands = some cmd) :
    conf_handler c env (pre ++ [key, v]) cp
      = (match command_set c env cmd v cp with
        | (none, cq) => (NC_OK, cq)
        | (some _, cq) => (NC_ERROR, cq)) := by
  have hlen : (pre ++ [key, v]).length = pre.length + 2 := by simp
  have hpos : 0 < pre.length := List.length_pos.mpr hpre
  have hk : (pre ++ [key, v]).getD (pre.length + 2 - 2) "" = key := by
    rw [List.getD_append_right _ _ _ _ (by omega)]
    simp
  have hv : (pre ++ [key, v]).getD (pre.length + 2 - 1) "" = v := by
    rw [List.getD_append_right _ _ _ _ (by omega)]
    have : pre.length + 2 - 1 - pre.length = 1 := by omega
    rw [this]
    rfl
  unfold conf_handler
  rw [if_neg (by rw [hlen]; omega), hlen, hk, hv]
  simp only [hcmd]

theorem conf_parse_step_element (c : conf_constants) (env : parse_env) (R : Nat)
    (stale : conf_pool) (cf : conf) (pre : List String) (key v : String) (cmd : command)
    (i : Nat) (cp cp2 : conf_pool)
    (hv : v ≠ "") (hseq : cf.seq ≠ 0) (harg : cf.arg = pre ++ [key]) (hpre : pre ≠ [])
    (hpool : cf.pool[i]? = some cp)
    (hcmd : command_loop env.string_compare key conf_commands = some cmd)
    (hset : command_set c env cmd v cp = (none, cp2)) :
    conf_parse_step c env R stale (YAML_SCALAR_EVENT v) cf (some i)
      = .next { cf with pool := cf.pool.set i cp2 } (some i) := by
  have hlenv : ¬ v.length = 0 := by
    intro h0
    exact hv (String.ext (List.length_eq_zero.mp h0))
  have hh : conf_handler c env (cf.arg ++ [v]) cp = (NC_OK, cp2) := by
    rw [harg, List.append_assoc]
    show conf_handler c env (pre ++ [key, v]) cp = _
    rw [conf_handler_key_value c env pre key v cmd cp hpre hcmd, hset]
  simp only [conf_parse_step, conf_push_scalar, if_neg hlenv]
  rw [if_pos hseq]
  simp only [conf_parse_leaf, conf_handler_call, hpool, hh, conf_pop_scalar]
  simp [hseq, harg]

theorem conf_add_server_append (c : conf_constants) (env : parse_env) (value : String)
    (a : List conf_server) :
    conf_add_server c env value a
      = ((conf_add_server c env value []).1, a ++ (conf_add_server c env value []).2) := by
  unfold conf_add_server
  dsimp only
  generalize conf_add_server_loop delim { rest := value.toList } = st
  generalize env.nc_atoi (String.mk (st.weight.getD [])) = w
  generalize env.nc_atoi (String.mk (st.port.getD [])) = p
  by_cases hk : st.k ≠ (if value.toList.head? = some '/' then 2 else 3)
  · rw [if_pos hk, if_pos hk]
    rfl
  · rw [if_neg hk, if_neg hk]
    by_cases hw : w < 0
    · rw [if_pos hw, if_pos hw]
      rfl
    · rw [if_neg hw, if_neg hw]
      by_cases hw0 : w = 0
      · rw [if_pos hw0, if_pos hw0]
        rfl
      · rw [if_neg hw0, if_neg hw0]
        split_ifs <;> rfl

theorem list_set_self {α : Type} (l : List α) (i : Nat) (x : α) (h : l[i]? = some x) :
    l.set i x = l := by
  induction l generalizing i with
  | nil => rfl
  | cons y ys ih =>
    cases i with
    | zero =>
      simp at h
      simp [h]
    | succ n =>
      simp at h
      simp [ih n h]

theorem conf_parse_core_elements (c : conf_constants) (env : parse_env) (R : Nat)
    (stale : conf_pool) (pre : List String) (key : String) (cmd : command) (i : Nat)
    (rest : List yaml_event) (hpre : pre ≠ [])
    (hcmd : command_loop env.string_compare key conf_commands = some cmd) :
    ∀ (vs : List String) (cf : conf) (cp cp2 : conf_pool),
      (∀ v ∈ vs, v ≠ "") → cf.seq ≠ 0 → cf.arg = pre ++ [key] → cf.pool[i]? = some cp →
      handler_elements c env cmd vs cp = some cp2 →
      conf_parse_core c env R stale (vs.map YAML_SCALAR_EVENT ++ rest) cf (some i)
        = conf_parse_core c env R stale rest { cf with pool := cf.pool.set i cp2 } (some i) := by
  intro vs
  induction vs with
  | nil =>
    intro cf cp cp2 _ _ _ hpool h
    simp only [handler_elements, Option.some.injEq] at h
    subst h
    rw [list_set_self _ _ _ hpool]
    rfl
  | cons v vs ih =>
    intro cf cp cp2 hv hseq harg hpool h
    unfold handler_elements at h
    cases hs : command_set c env cmd v cp with
    | mk msg cp1 =>
      rw [hs] at h
      cases msg with
      | some m => cases h
      | none =>
        dsimp only at h
        have hstep := conf_parse_step_element c env R stale cf pre key v cmd i cp cp1
          (hv v (List.mem_cons_self _ _)) hseq harg hpre hpool hcmd hs
        have hi : i < cf.pool.length := by
          by_contra hc
          rw [List.getElem?_eq_none (by omega)] at hpool
          cases hpool
        simp only [List.map_cons, List.cons_append, conf_parse_core, hstep]
        have hrec := ih { cf with pool := cf.pool.set i cp1 } cp1 cp2
          (fun x hx => hv x (List.mem_cons_of_mem _ hx)) hseq harg
          (by simp [List.getElem?_set, hi]) h
        refine hrec.trans ?_
        simp [List.set_set]

theorem command_loop_backupservers (string_compare : String → String → Int)
    (hzero : ∀ a b, string_compare a b = 0 ↔ a = b) :
    command_loop string_compare "backupservers" conf_commands
      = some ⟨"backupservers", .conf_add_backup_server, .backupserver⟩ := by
  rw [command_loop_eq_find string_compare hzero]
  decide

theorem command_loop_zookeeperservers (string_compare : String → String → Int)
    (hzero : ∀ a b, string_compare a b = 0 ↔ a = b) :
    command_loop string_compare "zookeeperservers" conf_commands
      = some ⟨"zookeeperservers", .conf_add_zookeeper_server, .zookeeperserver⟩ := by
  rw [command_loop_eq_find string_compare hzero]
  decide

theorem handler_elements_servers (c : conf_constants) (env : parse_env) :
    ∀ (vs : List String) (cp cp2 : conf_pool),
      handler_elements c env ⟨"servers", .conf_add_server_group, .servergroup⟩ vs cp = some cp2 →
      cp2 = { cp with servergroup :=
        cp.servergroup ++ (vs.map (fun v => (conf_add_server_group env v []).2)).flatten } := by
  intro vs
  induction vs with
  | nil =>
    intro cp cp2 h
    simp only [handler_elements, Option.some.injEq] at h
    subst h
    simp
  | cons v vs ih =>
    intro cp cp2 h
    unfold handler_elements at h
    simp only [command_set] at h
    cases hm : (conf_add_server_group env v cp.servergroup).1 with
    | some m =>
      rw [hm] at h
      cases h
    | none =>
      rw [hm] at h
      dsimp only at h
      rw [ih _ _ h]
      simp [conf_add_server_group]

theorem handler_elements_backupservers (c : conf_constants) (env : parse_env) :
    ∀ (vs : List String) (cp cp2 : conf_pool),
      handler_elements c env ⟨"backupservers", .conf_add_backup_server, .backupserver⟩ vs cp
        = some cp2 →
      cp2 = { cp with backupserver :=
        cp.backupserver ++ (vs.map (fun v => (conf_add_server c env v []).2)).flatten } := by
  intro vs
  induction vs with
  | nil =>
    intro cp cp2 h
    simp only [handler_elements, Option.some.injEq] at h
    subst h
    simp
  | cons v vs ih =>
    intro cp cp2 h
    unfold handler_elements at h
    simp only [command_set] at h
    cases hm : (conf_add_server c env v cp.backupserver).1 with
    | some m =>
      rw [hm] at h
      cases h
    | none =>
      rw [hm] at h
      dsimp only at h
      rw [ih _ _ h]
      have ha := conf_add_server_append c env v cp.backupserver
      simp [congrArg Prod.snd ha]

theorem handler_elements_zookeeperservers (c : conf_constants) (env : parse_env) :
    ∀ (vs : List String) (cp cp2 : conf_pool),
      handler_elements c env
          ⟨"zookeeperservers", .conf_add_zookeeper_server, .zookeeperserver⟩ vs cp = some cp2 →
      cp2 = { cp with zookeeperserver :=
        cp.zookeeperserver ++ (vs.map (fun v => (conf_add_server c env v []).2)).flatten } := by
  intro vs
  induction vs with
  | nil =>
    intro cp cp2 h
    simp only [handler_elements, Option.some.injEq] at h
    subst h
    simp
  | cons v vs ih =>
    intro cp cp2 h
    unfold handler_elements at h
    simp only [command_set] at h
    cases hm : (conf_add_server c env v cp.zookeeperserver).1 with
    | some m =>
      rw [hm] at h
      cases h
    | none =>
      rw [hm] at h
      dsimp only at h
      rw [ih _ _ h]
      have ha := conf_add_server_append c env v cp.zookeeperserver
      simp [congrArg Prod.snd ha]

theorem flatten_singletons_length {α β : Type} (f : α → List β) (hf : ∀ x, (f x).length = 1)
    (l : List α) : ((l.map f).flatten).length = l.length := by
  induction l with
  | nil => rfl
  | cons x xs ih => simp [hf x, ih]; omega

/-! ## Lemmas on the verdict of the server handlers -/

theorem conf_add_server_verdict (c : conf_constants) (env : parse_env) (value : String)
    (a : List conf_server) (w p : List Char)
    (hk : (conf_add_server_loop delim { rest := value.toList }).k = 3)
    (hhead : value.toList.head? ≠ some '/')
    (hw : (conf_add_server_loop delim { rest := value.toList }).weight = some w)
    (hp : (conf_add_server_loop delim { rest := value.toList }).port = some p) :
    ((conf_add_server c env value a).1 = none ↔
      0 < env.nc_atoi (String.mk w) ∧ 0 ≤ env.nc_atoi (String.mk p) ∧
      env.nc_valid_port (env.nc_atoi (String.mk p)) = true) ∧
    ∃ f, (conf_add_server c env value a).2 = a ++ [f] ∧
      ((conf_add_server c env value a).1 = none →
        f.valid = 1 ∧ f.weight = env.nc_atoi (String.mk w) ∧
        f.port = env.nc_atoi (String.mk p)) ∧
      ((conf_add_server c env value a).1 ≠ none → f.valid = 0) := by
  unfold conf_add_server
  dsimp only
  generalize conf_add_server_loop delim { rest := value.toList } = st at hk hw hp
  rw [hw, hp]
  simp only [Option.getD_some]
  generalize env.nc_atoi (String.mk w) = wv
  generalize env.nc_atoi (String.mk p) = pv
  generalize String.mk (List.take (if (st.name.getD []).length > 0
    then value.length - ((st.name.getD []).length + 1) else value.length) value.toList) = pn
  rw [if_neg hhead, hk]
  rw [if_neg (by decide)]
  by_cases hw1 : wv < 0
  · rw [if_pos hw1]
    refine ⟨⟨fun h => by simp at h, fun h => by omega⟩, _, rfl, fun h => by simp at h, fun _ => rfl⟩
  · rw [if_neg hw1]
    by_cases hw0 : wv = 0
    · rw [if_pos hw0]
      refine ⟨⟨fun h => by simp at h, fun h => by omega⟩, _, rfl, fun h => by simp at h,
        fun _ => rfl⟩
    · rw [if_neg hw0]
      simp only [hhead, ne_eq, not_false_eq_true, if_true, true_and]
      by_cases hpv : pv < 0 ∨ env.nc_valid_port pv = false
      · rw [if_pos hpv]
        refine ⟨⟨fun h => by simp at h, fun h => ?_⟩, _, rfl, fun h => by simp at h, fun _ => rfl⟩
        rcases hpv with hpv | hpv
        · omega
        · rw [hpv] at h
          exact absurd h.2.2 (by decide)
      · rw [if_neg hpv]
        refine ⟨⟨fun _ => ⟨by omega, ?_, ?_⟩, fun _ => rfl⟩, _, rfl,
          fun _ => ⟨rfl, rfl, rfl⟩, fun h => absurd rfl h⟩
        · by_contra hc
          exact hpv (Or.inl (by omega))
        · cases hv : env.nc_valid_port pv with
          | true => rfl
          | false => exact absurd (Or.inr hv) hpv

theorem group_token_ok_iff (env : parse_env) (t : List Char × List Char × List Char) :
    group_token_ok env t ↔ group_token_shaped t ∧
      0 ≤ env.nc_atoi (String.mk t.2.1) ∧
      env.nc_valid_port (env.nc_atoi (String.mk t.2.1)) = true ∧
      0 < env.nc_atoi (String.mk t.2.2) := by
  unfold group_token_ok group_token_shaped
  tauto

theorem conf_add_server_group_token_bad (env : parse_env)
    (t : List Char × List Char × List Char) (hs : group_token_shaped t)
    (hbad : ¬ group_token_ok env t) :
    ∃ msg, conf_add_server_group_token env t.1 (t.2.1 ++ ':' :: t.2.2) = .error msg := by
  have hp1 : ':' ∉ t.2.1 := hs.2.2.1
  have hnum : ¬ (0 ≤ env.nc_atoi (String.mk t.2.1) ∧
      env.nc_valid_port (env.nc_atoi (String.mk t.2.1)) = true ∧
      0 < env.nc_atoi (String.mk t.2.2)) := fun h => hbad ((group_token_ok_iff env t).mpr ⟨hs, h⟩)
  unfold conf_add_server_group_token
  dsimp only
  rw [nc_strchr_append ':' t.2.1 t.2.2 hp1]
  dsimp only
  have hd : List.drop (t.2.1.length + 1) (t.2.1 ++ ':' :: t.2.2) = t.2.2 := by
    have : t.2.1 ++ ':' :: t.2.2 = (t.2.1 ++ [':']) ++ t.2.2 := by simp
    rw [this]
    exact List.drop_left' (by simp)
  rw [List.take_left, hd]
  generalize env.nc_atoi (String.mk t.2.1) = p at hnum
  generalize env.nc_atoi (String.mk t.2.2) = w at hnum
  by_cases hp : p < 0 ∨ env.nc_valid_port p = false
  · rw [if_pos hp]
    exact ⟨_, rfl⟩
  · rw [if_neg hp]
    by_cases hw : w < 0
    · rw [if_pos hw]
      exact ⟨_, rfl⟩
    · rw [if_neg hw]
      by_cases hw0 : w = 0
      · rw [if_pos hw0]
        exact ⟨_, rfl⟩
      · exfalso
        apply hnum
        refine ⟨?_, ?_, by omega⟩
        · by_contra hc
          exact hp (Or.inl (by omega))
        · cases hv : env.nc_valid_port p with
          | true => rfl
          | false => exact absurd (Or.inr hv) hp

theorem group_token_shape_facts (t : List Char × List Char × List Char)
    (h : group_token_shaped t) :
    ' ' ∉ group_token t ∧ 2 ≤ (group_token t).length ∧
    (group_token t).head? ≠ some ' ' ∧
    nc_strchr ':' (group_token t) = some t.1.length ∧
    List.take t.1.length (group_token t) = t.1 ∧
    List.drop (t.1.length + 1) (group_token t) = t.2.1 ++ ':' :: t.2.2 := by
  obtain ⟨hh1, hh2, _, hp2, _, hw2⟩ := h
  unfold group_token
  refine ⟨by simp [hh2, hp2, hw2], by simp; omega, ?_, nc_strchr_append ':' _ _ hh1,
    List.take_left _ _, ?_⟩
  · cases hc : t.1 with
    | nil => simp
    | cons x xs =>
      have hx : ¬ x = ' ' := fun hx => hh2 (by rw [hc, hx]; exact List.mem_cons_self _ _)
      simp [hx]
  · have : t.1 ++ ':' :: (t.2.1 ++ ':' :: t.2.2) = (t.1 ++ [':']) ++ (t.2.1 ++ ':' :: t.2.2) := by
      simp
    rw [this]
    exact List.drop_left' (by simp)

theorem group_value_shape_facts (t : List Char × List Char × List Char)
    (rest : List (List Char × List Char × List Char)) (h : group_token_shaped t) :
    2 ≤ (group_value (t :: rest)).length ∧ (group_value (t :: rest)).head? ≠ some ' ' := by
  obtain ⟨_, h2, h3, _⟩ := group_token_shape_facts t h
  cases rest with
  | nil => exact ⟨h2, h3⟩
  | cons t2 rest2 =>
    show 2 ≤ (group_token t ++ ' ' :: group_value (t2 :: rest2)).length ∧
      (group_token t ++ ' ' :: group_value (t2 :: rest2)).head? ≠ some ' '
    refine ⟨by simp; omega, ?_⟩
    cases hc : group_token t with
    | nil =>
      rw [hc] at h2
      simp at h2
    | cons x xs =>
      rw [hc] at h3
      simpa using h3

theorem conf_add_server_group_loop_verdict (env : parse_env) :
    ∀ (tokens : List (List Char × List Char × List Char)) (fuel : Nat)
      (group : conf_server_group),
      (∀ t ∈ tokens, group_token_shaped t) → (group_value tokens).length ≤ fuel →
      ((conf_add_server_group_loop env fuel (group_value tokens) group).1 = none ↔
        ∀ t ∈ tokens, group_token_ok env t) ∧
      (conf_add_server_group_loop env fuel (group_value tokens) group).2
        = { group with
            server := group.server ++
              (tokens.takeWhile (fun t => decide (group_token_ok env t))).map
                (group_server env) } := by
  intro tokens
  induction tokens with
  | nil =>
    intro fuel group _ _
    cases fuel <;> simp [conf_add_server_group_loop, group_value]
  | cons t rest ih =>
    intro fuel group hshape hfuel
    have ht := hshape t (List.mem_cons_self _ _)
    obtain ⟨hsp, hlen, hhead, hchr, htake, hdrop⟩ := group_token_shape_facts t ht
    have hv := group_value_shape_facts t rest ht
    cases fuel with
    | zero => omega
    | succ n =>
      unfold conf_add_server_group_loop
      rw [if_neg (by omega)]
      dsimp only
      by_cases hok : group_token_ok env t
      · have htw : (t :: rest).takeWhile (fun t => decide (group_token_ok env t))
            = t :: rest.takeWhile (fun t => decide (group_token_ok env t)) := by
          simp [List.takeWhile, hok]
        rw [htw]
        cases rest with
        | nil =>
          have hs : group_value [t] = group_token t := rfl
          rw [hs]
          have hq : nc_strchr ' ' (group_token t).dropLast = none :=
            nc_strchr_none _ _ (fun hc => hsp (List.dropLast_subset _ hc))
          rw [hq]
          simp only [Option.getD_none, List.take_length, hchr, htake, hdrop,
            conf_add_server_group_token_spec env t hok]
          refine ⟨⟨fun _ x hx => ?_, fun _ => by trivial⟩, by trivial⟩
          rw [List.mem_singleton.mp hx]
          exact hok
        | cons t2 rest2 =>
          have hs : group_value (t :: t2 :: rest2)
              = group_token t ++ ' ' :: group_value (t2 :: rest2) := rfl
          have ht2 := hshape t2 (List.mem_cons_of_mem _ (List.mem_cons_self _ _))
          have hv2 := group_value_shape_facts t2 rest2 ht2
          rw [hs] at hfuel ⊢
          have hne : group_value (t2 :: rest2) ≠ [] := by
            intro hc
            rw [hc] at hv2
            simp at hv2
          have hq : nc_strchr ' ' (group_token t ++ ' ' :: group_value (t2 :: rest2)).dropLast
              = some (group_token t).length := by
            have : (group_token t ++ ' ' :: group_value (t2 :: rest2)).dropLast
                = group_token t ++ ' ' :: (group_value (t2 :: rest2)).dropLast := by
              rw [List.dropLast_append_of_ne_nil _ (by simp), List.dropLast_cons_of_ne_nil hne]
            rw [this]
            exact nc_strchr_append ' ' _ _ hsp
          rw [hq]
          have htk : List.take (group_token t).length
              (group_token t ++ ' ' :: group_value (t2 :: rest2)) = group_token t :=
            List.take_left _ _
          have hdr : List.drop ((group_token t).length + 1)
              (group_token t ++ ' ' :: group_value (t2 :: rest2)) = group_value (t2 :: rest2) := by
            have : group_token t ++ ' ' :: group_value (t2 :: rest2)
                = (group_token t ++ [' ']) ++ group_value (t2 :: rest2) := by simp
            rw [this]
            exact List.drop_left' (by simp)
          simp only [Option.getD_some, htk, hchr, htake, hdrop,
            conf_add_server_group_token_spec env t hok, hdr, skip_spaces_id _ hv2.2]
          have hfuel2 : (group_value (t2 :: rest2)).length ≤ n := by
            simp at hfuel
            omega
          obtain ⟨ih1, ih2⟩ := ih n { group with server := group.server ++ [group_server env t] }
            (fun x hx => hshape x (List.mem_cons_of_mem _ hx)) hfuel2
          refine ⟨ih1.trans ⟨fun h x hx => ?_, fun h x hx => h x (List.mem_cons_of_mem _ hx)⟩, ?_⟩
          · rcases List.mem_cons.mp hx with hx | hx
            · rw [hx]
              exact hok
            · exact h x hx
          · rw [ih2]
            simp
      · have htw : (t :: rest).takeWhile (fun t => decide (group_token_ok env t)) = [] := by
          simp [List.takeWhile, hok]
        rw [htw]
        obtain ⟨msg, hmsg⟩ := conf_add_server_group_token_bad env t ht hok
        have hiff : ¬ ∀ x ∈ t :: rest, group_token_ok env x :=
          fun h => hok (h t (List.mem_cons_self _ _))
        cases rest with
        | nil =>
          have hs : group_value [t] = group_token t := rfl
          rw [hs]
          have hq : nc_strchr ' ' (group_token t).dropLast = none :=
            nc_strchr_none _ _ (fun hc => hsp (List.dropLast_subset _ hc))
          rw [hq]
          simp only [Option.getD_none, List.take_length, hchr, htake, hdrop, hmsg]
          refine ⟨⟨fun h => by simp at h, fun h => absurd h hiff⟩, by simp⟩
        | cons t2 rest2 =>
          have hs : group_value (t :: t2 :: rest2)
              = group_token t ++ ' ' :: group_value (t2 :: rest2) := rfl
          have ht2 := hshape t2 (List.mem_cons_of_mem _ (List.mem_cons_self _ _))
          have hv2 := group_value_shape_facts t2 rest2 ht2
          rw [hs] at hfuel ⊢
          have hne : group_value (t2 :: rest2) ≠ [] := by
            intro hc
            rw [hc] at hv2
            simp at hv2
          have hq : nc_strchr ' ' (group_token t ++ ' ' :: group_value (t2 :: rest2)).dropLast
              = some (group_token t).length := by
            have : (group_token t ++ ' ' :: group_value (t2 :: rest2)).dropLast
                = group_token t ++ ' ' :: (group_value (t2 :: rest2)).dropLast := by
              rw [List.dropLast_append_of_ne_nil _ (by simp), List.dropLast_cons_of_ne_nil hne]
            rw [this]
            exact nc_strchr_append ' ' _ _ hsp
          rw [hq]
          have htk : List.take (group_token t).length
              (group_token t ++ ' ' :: group_value (t2 :: rest2)) = group_token t :=
            List.take_left _ _
          simp only [Option.getD_some, htk, hchr, htake, hdrop, hmsg]
          refine ⟨⟨fun h => by simp at h, fun h => absurd h hiff⟩, by simp⟩

/-! ## Lemma on a fetch whose pairs are all admitted -/

theorem nodes_child_watch_noop_of_all_matched (hash_crc16 : String → Nat)
    (stale_s stale_bs : conf_server) (is_child_event : Bool) (zk : zk_fetch) (sp : server_pool)
    (h : ∀ p ∈ zk.server.zip zk.backupserver,
      crc_pair hash_crc16 p.1 p.2 ∈ sp.server_identifier ∨
      crc_pair hash_crc16 p.2 p.1 ∈ sp.server_identifier) :
    nodes_child_watch hash_crc16 stale_s stale_bs is_child_event zk sp = sp := by
  unfold nodes_child_watch
  split
  · split
    · rfl
    · split
      · rfl
      · by_cases hlen : zk.server.length = zk.backupserver.length
        · apply nodes_child_watch_body_all_matched
          intro i hi
          have hi2 : i < zk.backupserver.length := hlen ▸ hi
          have hmem : (zk.server[i], zk.backupserver[i]) ∈ zk.server.zip zk.backupserver := by
            have hz : i < (zk.server.zip zk.backupserver).length := by
              simp [List.length_zip, hi, hi2]
            have := List.getElem_mem hz
            simpa [List.getElem_zip] using this
          have hm := h _ hmem
          have e1 : array_get zk.server i stale_s = zk.server[i] := by
            simp [array_get, List.getD_eq_getElem?_getD, List.getElem?_eq_getElem hi]
          have e2 : array_get zk.backupserver i stale_bs = zk.backupserver[i] := by
            simp [array_get, List.getD_eq_getElem?_getD, List.getElem?_eq_getElem hi2]
          rw [e1, e2]
          unfold unmatched
          rcases hm with hm | hm
          · exact fun hc => hc.1 hm
          · exact fun hc => hc.2 hm
        · unfold nodes_child_watch_body
          simp [hlen]
  · rfl
/-! ## Claims on membership reconciliation -/

/-- C1 (evaluation at the failing input). The pool has admitted pair a; the
registry lists pairs a, b, c and pair c matches no admitted fingerprint. The
scan stops at pair c and records the fingerprint of pair c, but the runtime
servers it appends are built from pair b, the pair at the position equal to
the number of admitted fingerprints. -/
theorem nodes_child_watch_appends_pair_at_identifier_count
    (hash_crc16 : String → Nat) (stale_s stale_bs : conf_server)
    (h : unmatched hash_crc16 (pool_with_a hash_crc16).server_identifier node_c node_c_slave) :
    nodes_child_watch hash_crc16 stale_s stale_bs true
        { server := [node_a, node_b, node_c]
          backupserver := [node_a_slave, node_b_slave, node_c_slave] }
        (pool_with_a hash_crc16)
      = { pool_with_a hash_crc16 with
          server := conf_server_init_new node_b (pool_with_a hash_crc16).server 0
          backup_server := conf_server_init_new node_b_slave (pool_with_a hash_crc16).backup_server 0
          server_identifier :=
            [crc_pair hash_crc16 node_a node_a_slave, crc_pair hash_crc16 node_c node_c_slave] } := by
  have ht := (scan_test_iff hash_crc16 _ node_c node_c_slave).mpr h
  have hi := scan_index_eq _ _ _ ht
  simp only [pool_with_a, List.length_singleton] at ht hi
  simp [nodes_child_watch, nodes_child_watch_body, scan_loop, array_get, pool_with_a, ht, hi]

/-- C1, instance of the evaluation at the sample checksum. -/
theorem nodes_child_watch_appends_pair_at_identifier_count_witness :
    unmatched sample_crc16 (pool_with_a sample_crc16).server_identifier node_c node_c_slave ∧
    nodes_child_watch sample_crc16 {} {} true
        { server := [node_a, node_b, node_c]
          backupserver := [node_a_slave, node_b_slave, node_c_slave] }
        (pool_with_a sample_crc16)
      = { pool_with_a sample_crc16 with
          server := conf_server_init_new node_b (pool_with_a sample_crc16).server 0
          backup_server :=
            conf_server_init_new node_b_slave (pool_with_a sample_crc16).backup_server 0
          server_identifier :=
            [crc_pair sample_crc16 node_a node_a_slave,
             crc_pair sample_crc16 node_c node_c_slave] } :=
  ⟨by decide, nodes_child_watch_appends_pair_at_identifier_count sample_crc16 {} {} (by decide)⟩

/-- C2. Every invocation of `nodes_child_watch` grows the primary collection,
the backup collection and the admitted-fingerprint set by one common amount
`d`, which is 0 or 1, whatever was fetched and whatever the pool held; so
collections of equal length before the call have equal length after it. -/
theorem nodes_child_watch_grows_in_step (hash_crc16 : String → Nat)
    (stale_s stale_bs : conf_server) (is_child_event : Bool) (zk : zk_fetch) (sp : server_pool) :
    (∃ d, d ≤ 1 ∧
      (nodes_child_watch hash_crc16 stale_s stale_bs is_child_event zk sp).server.length
        = sp.server.length + d ∧
      (nodes_child_watch hash_crc16 stale_s stale_bs is_child_event zk sp).backup_server.length
        = sp.backup_server.length + d ∧
      (nodes_child_watch hash_crc16 stale_s stale_bs is_child_event zk sp).server_identifier.length
        = sp.server_identifier.length + d) ∧
    (sp.server.length = sp.backup_server.length →
      (nodes_child_watch hash_crc16 stale_s stale_bs is_child_event zk sp).server.length
        = (nodes_child_watch hash_crc16 stale_s stale_bs is_child_event zk sp).backup_server.length) := by
  rcases nodes_child_watch_cases hash_crc16 stale_s stale_bs is_child_event zk sp with h | h
  · rw [h]
    exact ⟨⟨0, by omega, rfl, rfl, rfl⟩, fun e => e⟩
  · obtain ⟨cs, cbs, crc, h⟩ := h
    rw [h]
    refine ⟨⟨1, le_refl 1, ?_, ?_, ?_⟩, ?_⟩
    · simp [conf_server_init_new]
    · simp [conf_server_init_new]
    · simp
    · intro e
      simp [conf_server_init_new, e]

/-- C3. `nodes_child_watch` never removes or reindexes a server: the previous
primary and backup collections are prefixes of the new ones, so every existing
runtime server keeps its position and its index, and every runtime server past
the previous length carries that previous length as its index. -/
theorem nodes_child_watch_append_only (hash_crc16 : String → Nat)
    (stale_s stale_bs : conf_server) (is_child_event : Bool) (zk : zk_fetch) (sp : server_pool) :
    sp.server <+: (nodes_child_watch hash_crc16 stale_s stale_bs is_child_event zk sp).server ∧
    sp.backup_server
      <+: (nodes_child_watch hash_crc16 stale_s stale_bs is_child_event zk sp).backup_server ∧
    (∀ i, i < sp.server.length →
      (nodes_child_watch hash_crc16 stale_s stale_bs is_child_event zk sp).server[i]?
        = sp.server[i]?) ∧
    (∀ i, i < sp.backup_server.length →
      (nodes_child_watch hash_crc16 stale_s stale_bs is_child_event zk sp).backup_server[i]?
        = sp.backup_server[i]?) ∧
    (∀ s ∈ (nodes_child_watch hash_crc16 stale_s stale_bs is_child_event zk sp).server.drop
        sp.server.length, s.idx = sp.server.length) ∧
    (∀ s ∈ (nodes_child_watch hash_crc16 stale_s stale_bs is_child_event zk sp).backup_server.drop
        sp.backup_server.length, s.idx = sp.backup_server.length) := by
  rcases nodes_child_watch_cases hash_crc16 stale_s stale_bs is_child_event zk sp with h | h
  · rw [h]
    simp
  · obtain ⟨cs, cbs, crc, h⟩ := h
    rw [h]
    refine ⟨?_, ?_, ?_, ?_, ?_, ?_⟩
    · exact List.prefix_append _ _
    · exact List.prefix_append _ _
    · intro i hi
      simp only [conf_server_init_new]
      exact List.getElem?_append_left hi
    · intro i hi
      simp only [conf_server_init_new]
      exact List.getElem?_append_left hi
    · intro s hs
      simp only [conf_server_init_new, List.drop_left] at hs
      simp only [List.mem_singleton] at hs
      rw [hs]
    · intro s hs
      simp only [conf_server_init_new, List.drop_left] at hs
      simp only [List.mem_singleton] at hs
      rw [hs]

/-- C4. If every fetched pair has at least one of its two candidate
fingerprints in the admitted set, `nodes_child_watch` leaves the whole pool,
and so its primary collection, backup collection and admitted set, unchanged. -/
theorem nodes_child_watch_all_matched_noop (hash_crc16 : String → Nat)
    (stale_s stale_bs : conf_server) (is_child_event : Bool) (zk : zk_fetch) (sp : server_pool)
    (h : ∀ p ∈ zk.server.zip zk.backupserver,
      crc_pair hash_crc16 p.1 p.2 ∈ sp.server_identifier ∨
      crc_pair hash_crc16 p.2 p.1 ∈ sp.server_identifier) :
    nodes_child_watch hash_crc16 stale_s stale_bs is_child_event zk sp = sp :=
  nodes_child_watch_noop_of_all_matched hash_crc16 stale_s stale_bs is_child_event zk sp h

/-- C4, instance: the pool that admitted pair a sees pair a again. -/
theorem nodes_child_watch_all_matched_noop_witness :
    (∀ p ∈ [node_a].zip [node_a_slave],
      crc_pair sample_crc16 p.1 p.2 ∈ (pool_with_a sample_crc16).server_identifier ∨
      crc_pair sample_crc16 p.2 p.1 ∈ (pool_with_a sample_crc16).server_identifier) ∧
    nodes_child_watch sample_crc16 {} {} true
        { server := [node_a], backupserver := [node_a_slave] } (pool_with_a sample_crc16)
      = pool_with_a sample_crc16 :=
  ⟨by decide,
   nodes_child_watch_all_matched_noop sample_crc16 {} {} true
     { server := [node_a], backupserver := [node_a_slave] } (pool_with_a sample_crc16)
     (by decide)⟩

/-- The match test is order-independent: when the fingerprint of the pair
(p, b) is admitted, the scan treats a fetched pair (b, p) as matched (it moves
on to the next position without stopping there), and an invocation that
fetched only the swapped pair changes nothing in the pool. -/
theorem nodes_child_watch_swapped_pair_matched (hash_crc16 : String → Nat)
    (stale_s stale_bs : conf_server) (sp : server_pool) (p b : conf_server)
    (h : crc_pair hash_crc16 p b ∈ sp.server_identifier) :
    (∀ (srv bsrv : List conf_server) (k : Nat),
      array_get srv k stale_s = b → array_get bsrv k stale_bs = p →
      scan_loop hash_crc16 stale_s stale_bs sp.server_identifier srv bsrv (k + 1)
        = scan_loop hash_crc16 stale_s stale_bs sp.server_identifier srv bsrv k) ∧
    (∀ is_child_event : Bool,
      nodes_child_watch hash_crc16 stale_s stale_bs is_child_event
        { server := [b], backupserver := [p] } sp = sp) := by
  have hm : ¬ unmatched hash_crc16 sp.server_identifier b p := fun hc => hc.2 h
  constructor
  · intro srv bsrv k hs hb
    have ht := (scan_test_iff hash_crc16 sp.server_identifier b p).not.mpr hm
    simp only [scan_loop, hs, hb]
    rw [if_neg ht]
  · intro is_child_event
    apply nodes_child_watch_noop_of_all_matched
    intro q hq
    simp only [List.zip_cons_cons, List.zip_nil_right, List.mem_singleton] at hq
    subst hq
    exact Or.inr h

/-- Instance of the order-independent match test: the pool admitted
(a, a-slave) and the registry now lists (a-slave, a) alone. -/
theorem nodes_child_watch_swapped_pair_matched_witness :
    crc_pair sample_crc16 node_a node_a_slave ∈ (pool_with_a sample_crc16).server_identifier ∧
    nodes_child_watch sample_crc16 {} {} true
        { server := [node_a_slave], backupserver := [node_a] } (pool_with_a sample_crc16)
      = pool_with_a sample_crc16 :=
  ⟨by decide,
   (nodes_child_watch_swapped_pair_matched sample_crc16 {} {} (pool_with_a sample_crc16)
      node_a node_a_slave (by decide)).2 true⟩

/-- C5 (evaluation at the failing input). The pool has admitted pair a; the
registry now lists pair c, the pair a with primary and backup swapped, and pair
b, and pair b matches no admitted fingerprint.  The swapped pair is matched by
the scan test (the scan would pass over it), but the scan stops before it, at
pair b, and the runtime servers the invocation appends are built from the
swapped pair, the pair at the position equal to the number of admitted
fingerprints: the pair already admitted is admitted a second time, with its
primary and backup exchanged, under the fingerprint of pair b. -/
theorem nodes_child_watch_readmits_swapped_pair
    (hash_crc16 : String → Nat) (stale_s stale_bs : conf_server)
    (h : unmatched hash_crc16 (pool_with_a hash_crc16).server_identifier node_b node_b_slave) :
    crc_pair hash_crc16 node_a node_a_slave ∈ (pool_with_a hash_crc16).server_identifier ∧
    ¬ unmatched hash_crc16 (pool_with_a hash_crc16).server_identifier node_a_slave node_a ∧
    nodes_child_watch hash_crc16 stale_s stale_bs true
        { server := [node_c, node_a_slave, node_b]
          backupserver := [node_c_slave, node_a, node_b_slave] }
        (pool_with_a hash_crc16)
      = { pool_with_a hash_crc16 with
          server := conf_server_init_new node_a_slave (pool_with_a hash_crc16).server 0
          backup_server := conf_server_init_new node_a (pool_with_a hash_crc16).backup_server 0
          server_identifier :=
            [crc_pair hash_crc16 node_a node_a_slave, crc_pair hash_crc16 node_b node_b_slave] } := by
  have ht := (scan_test_iff hash_crc16 _ node_b node_b_slave).mpr h
  have hi := scan_index_eq _ _ _ ht
  simp only [pool_with_a, List.length_singleton] at ht hi
  refine ⟨by simp [pool_with_a], fun hc => hc.2 (by simp [pool_with_a]), ?_⟩
  simp [nodes_child_watch, nodes_child_watch_body, scan_loop, array_get, pool_with_a, ht, hi]

/-- C5, instance of the evaluation at the sample checksum: the pool ends with
two primaries, `10.0.0.1:8888` and `10.0.1.1:8888`, the second being the backup
of the pair it had admitted. -/
theorem nodes_child_watch_readmits_swapped_pair_witness :
    unmatched sample_crc16 (pool_with_a sample_crc16).server_identifier node_b node_b_slave ∧
    (nodes_child_watch sample_crc16 {} {} true
        { server := [node_c, node_a_slave, node_b]
          backupserver := [node_c_slave, node_a, node_b_slave] }
        (pool_with_a sample_crc16)).server.map (fun s => s.pname)
      = ["10.0.0.1:8888", "10.0.1.1:8888"] ∧
    (nodes_child_watch sample_crc16 {} {} true
        { server := [node_c, node_a_slave, node_b]
          backupserver := [node_c_slave, node_a, node_b_slave] }
        (pool_with_a sample_crc16)).backup_server.map (fun s => s.pname)
      = ["10.0.1.1:8888", "10.0.0.1:8888"] :=
  ⟨by decide,
   (nodes_child_watch_readmits_swapped_pair sample_crc16 {} {} (by decide)).2.2 ▸ by decide,
   (nodes_child_watch_readmits_swapped_pair sample_crc16 {} {} (by decide)).2.2 ▸ by decide⟩

/-- C6 (evaluation at the failing input). The pool has admitted pair a; the
registry lists pairs b, a, c, and pair c matches no admitted fingerprint (nor
does pair b, for a checksum that tells the pairs apart, as in the instance
below).  The scan stops at pair c, the last unmatched pair, and records the
fingerprint of pair c, but the runtime servers it appends are built from pair
a, the pair at the position equal to the number of admitted fingerprints: none
of the unmatched pairs is admitted, and the pair already admitted is admitted
again. -/
theorem nodes_child_watch_two_unmatched_admits_matched_pair
    (hash_crc16 : String → Nat) (stale_s stale_bs : conf_server)
    (hc : unmatched hash_crc16 (pool_with_a hash_crc16).server_identifier node_c node_c_slave) :
    ¬ unmatched hash_crc16 (pool_with_a hash_crc16).server_identifier node_a node_a_slave ∧
    nodes_child_watch hash_crc16 stale_s stale_bs true
        { server := [node_b, node_a, node_c]
          backupserver := [node_b_slave, node_a_slave, node_c_slave] }
        (pool_with_a hash_crc16)
      = { pool_with_a hash_crc16 with
          server := conf_server_init_new node_a (pool_with_a hash_crc16).server 0
          backup_server := conf_server_init_new node_a_slave (pool_with_a hash_crc16).backup_server 0
          server_identifier :=
            [crc_pair hash_crc16 node_a node_a_slave, crc_pair hash_crc16 node_c node_c_slave] } := by
  have ht := (scan_test_iff hash_crc16 _ node_c node_c_slave).mpr hc
  have hi := scan_index_eq _ _ _ ht
  simp only [pool_with_a, List.length_singleton] at ht hi
  refine ⟨fun hn => hn.1 (by simp [pool_with_a]), ?_⟩
  simp [nodes_child_watch, nodes_child_watch_body, scan_loop, array_get, pool_with_a, ht, hi]

/-- C6, instance of the evaluation at the sample checksum: both primaries of
the pool are `10.0.0.1:8888` afterwards. -/
theorem nodes_child_watch_two_unmatched_admits_matched_pair_witness :
    unmatched sample_crc16 (pool_with_a sample_crc16).server_identifier node_b node_b_slave ∧
    unmatched sample_crc16 (pool_with_a sample_crc16).server_identifier node_c node_c_slave ∧
    (nodes_child_watch sample_crc16 {} {} true
        { server := [node_b, node_a, node_c]
          backupserver := [node_b_slave, node_a_slave, node_c_slave] }
        (pool_with_a sample_crc16)).server.map (fun s => s.pname)
      = ["10.0.0.1:8888", "10.0.0.1:8888"] :=
  ⟨by decide, by decide,
   (nodes_child_watch_two_unmatched_admits_matched_pair sample_crc16 {} {}
      (by decide)).2 ▸ by decide⟩

/-- C7. If the fetched primary and backup lists differ in length, or the
fetched primary list is empty, `nodes_child_watch` changes nothing in the pool:
collections, their lengths and the admitted set stay as they were. -/
theorem nodes_child_watch_length_mismatch_noop (hash_crc16 : String → Nat)
    (stale_s stale_bs : conf_server) (is_child_event : Bool) (zk : zk_fetch) (sp : server_pool)
    (h : zk.server.length ≠ zk.backupserver.length ∨ zk.server.length = 0) :
    nodes_child_watch hash_crc16 stale_s stale_bs is_child_event zk sp = sp := by
  unfold nodes_child_watch nodes_child_watch_body
  rcases h with h | h
  · simp [h]
  · simp [h]

/-- C7, instance: three fetched primaries against two fetched backups. -/
theorem nodes_child_watch_length_mismatch_noop_witness :
    (([node_a, node_b, node_c] : List conf_server).length
        ≠ ([node_a_slave, node_b_slave] : List conf_server).length ∨
      ([node_a, node_b, node_c] : List conf_server).length = 0) ∧
    nodes_child_watch sample_crc16 {} {} true
        { server := [node_a, node_b, node_c], backupserver := [node_a_slave, node_b_slave] }
        (pool_with_a sample_crc16)
      = pool_with_a sample_crc16 :=
  ⟨by decide,
   nodes_child_watch_length_mismatch_noop sample_crc16 {} {} true
     { server := [node_a, node_b, node_c], backupserver := [node_a_slave, node_b_slave] }
     (pool_with_a sample_crc16) (by decide)⟩

/-- C8 (counterexample): the document `alpha:` / `  listen: 127.0.0.1:6000` /
`  zookeeperservers:` / `    - 10.0.9.1:2181:1` names a registry and declares no
server.  `conf_parse` accepts it and leaves one pool with one registry server,
no server and no server group, and `conf_post_validate` refuses that pool
(`conf_validate_server`: the pool has no servers): a registry-backed pool with
zero declared servers is never transformed and never reconciled. -/
theorem conf_post_validate_refuses_registry_pool_without_servers :
    conf_validate_structure 1 2 registry_only_events = NC_OK ∧
    (conf_parse sample_constants sample_parse_env 1 {} registry_only_events {}).map
        (fun r => (r.1, r.2.pool.map (fun cp =>
          (cp.name, cp.zookeeperserver.length, cp.server.length, cp.servergroup.length))))
      = some (NC_OK, [("alpha", 1, 0, 0)]) ∧
    (registry_only_pools.map (fun cp => (conf_validate_pool sample_constants (fun _ => {}) cp).1))
      = [NC_ERROR] ∧
    (conf_post_validate sample_constants (fun _ _ => {}) sample_data_compare sample_array_sort
        registry_only_pools).1 = NC_ERROR := by
  refine ⟨by decide, by decide, by decide, by decide⟩

/-- C8 (amended): let a pool that names registry servers be transformed by
`conf_pool_each_transform`, the fetch of line 620 succeed with exactly one pair
(`s`, `b`), the initialisers of `nc_server.c` build one primary and one backup
runtime server from the pair and record a fingerprint of the pair, and the
library handle be there.  Then the call returns `NC_OK`, the runtime pool is
marked initialised and has exactly one primary and one backup runtime server,
and a later `nodes_child_watch` that fetches the identical pair leaves the
runtime pool unchanged, so both counts stay at one. -/
theorem conf_pool_each_transform_registry_pair_idempotent (hash_crc16 : String → Nat)
    (env : transform_env) (stale : server_pool) (cp : conf_pool) (pool_array : List server_pool)
    (s b : conf_server) (srv bsrv : List server) (ident : List Nat)
    (hreg : cp.zookeeperserver.length ≠ 0)
    (hst : env.zk.status = NC_OK) (hzs : env.zk.server = [s]) (hzb : env.zk.backupserver = [b])
    (hs : env.server_init [s] pool_array.length = (NC_OK, srv)) (hsl : srv.length = 1)
    (hb : env.backup_server_init [b] pool_array.length = (NC_OK, bsrv)) (hbl : bsrv.length = 1)
    (hi : env.server_identifier_init srv bsrv = (NC_OK, ident))
    (hid : crc_pair hash_crc16 s b ∈ ident ∨ crc_pair hash_crc16 b s ∈ ident)
    (hm : env.slotmap_ctx_init = NC_OK) (hh : env.ssdb_handle = true) :
    (conf_pool_each_transform env stale cp pool_array).1 = NC_OK ∧
    (conf_pool_each_transform env stale cp pool_array).2.1.finish_init = 1 ∧
    (conf_pool_each_transform env stale cp pool_array).2.1.server.length = 1 ∧
    (conf_pool_each_transform env stale cp pool_array).2.1.backup_server.length = 1 ∧
    ∀ (stale_s stale_bs : conf_server) (is_child_event : Bool),
      nodes_child_watch hash_crc16 stale_s stale_bs is_child_event
          { server := [s], backupserver := [b] }
          (conf_pool_each_transform env stale cp pool_array).2.1
        = (conf_pool_each_transform env stale cp pool_array).2.1 := by
  have hr : conf_pool_each_transform env stale cp pool_array
      = (NC_OK, { conf_pool_copy stale cp pool_array.length with
                  server := srv, backup_server := bsrv, server_identifier := ident
                  finish_init := 1 },
         { cp with server := [s], backupserver := [b] }) := by
    unfold conf_pool_each_transform
    simp only [if_pos hreg, hst, hzs, hzb]
    simp [conf_pool_transform_servers, conf_pool_copy, hs, hb, hi, hm, hh]
  rw [hr]
  refine ⟨rfl, rfl, hsl, hbl, ?_⟩
  intro stale_s stale_bs is_child_event
  apply nodes_child_watch_noop_of_all_matched
  intro q hq
  simp only [List.zip_cons_cons, List.zip_nil_right, List.mem_singleton] at hq
  subst hq
  exact hid

/-- Instance of `conf_pool_each_transform_registry_pair_idempotent` at the
registry pool and the sample collaborators, the registry listing the pair
(`node_a`, `node_a_slave`): one primary and one backup after the
transformation, and after a reconciliation on the same pair. -/
theorem conf_pool_each_transform_registry_pair_idempotent_witness :
    (conf_pool_each_transform registry_env {} registry_pool []).2.1.server.length = 1 ∧
    (conf_pool_each_transform registry_env {} registry_pool []).2.1.backup_server.length = 1 ∧
    (nodes_child_watch sample_crc16 {} {} true
        { server := [node_a], backupserver := [node_a_slave] }
        (conf_pool_each_transform registry_env {} registry_pool []).2.1).server.length = 1 ∧
    (nodes_child_watch sample_crc16 {} {} true
        { server := [node_a], backupserver := [node_a_slave] }
        (conf_pool_each_transform registry_env {} registry_pool []).2.1).backup_server.length
      = 1 :=
  have h := conf_pool_each_transform_registry_pair_idempotent sample_crc16 registry_env {}
    registry_pool [] node_a node_a_slave
    (conf_server_init_new node_a [] 0) (conf_server_init_new node_a_slave [] 0)
    [crc_pair sample_crc16 node_a node_a_slave]
    (by decide) rfl rfl rfl rfl rfl rfl rfl (by decide) (Or.inl (List.mem_singleton.mpr rfl))
    rfl rfl
  ⟨h.2.2.1, h.2.2.2.1, (h.2.2.2.2 {} {} true).symm ▸ h.2.2.1,
   (h.2.2.2.2 {} {} true).symm ▸ h.2.2.2.1⟩

/-! ## Claims on pool validation -/

/-- C9. For a non-empty pool list in which every pool passes
`conf_validate_pool`, and with a `string_compare` that is 0 exactly on equal
strings and antisymmetric and an `array_sort` that sorts by it,
`conf_post_validate` succeeds if and only if no two pools share a listen
address string and no two pools share a name; otherwise it returns
`NC_ERROR`, and `conf_create` then hands back no configuration from which a
runtime pool could be built. -/
theorem conf_post_validate_ok_iff_no_duplicates (c : conf_constants)
    (stale : Nat → Nat → conf_server) (st : Nat → conf_server)
    (string_compare : String → String → Int)
    (array_sort : (conf_pool → conf_pool → Int) → List conf_pool → List conf_pool)
    (pool : List conf_pool)
    (hzero : ∀ a b, string_compare a b = 0 ↔ a = b)
    (hanti : ∀ a b, string_compare a b ≤ 0 → string_compare b a ≤ 0 → a = b)
    (hsort_listen : sorts_by (conf_pool_listen_cmp string_compare)
      (array_sort (conf_pool_listen_cmp string_compare)))
    (hsort_name : sorts_by (conf_pool_name_cmp string_compare)
      (array_sort (conf_pool_name_cmp string_compare)))
    (hne : pool ≠ [])
    (hvalid : ∀ cp ∈ pool, (conf_validate_pool c st cp).1 = NC_OK) :
    ((conf_post_validate c stale string_compare array_sort pool).1 = NC_OK ↔
      (pool.map (fun p => p.listen.pname)).Nodup ∧ (pool.map (fun p => p.name)).Nodup) ∧
    ((conf_post_validate c stale string_compare array_sort pool).1 = NC_OK ∨
      (conf_post_validate c stale string_compare array_sort pool).1 = NC_ERROR) ∧
    (¬ ((pool.map (fun p => p.listen.pname)).Nodup ∧ (pool.map (fun p => p.name)).Nodup) →
      ∀ (opened : Bool) (pre status : rstatus_t),
        conf_create c stale string_compare array_sort opened pre (status, pool) = none) := by
  suffices hmain :
      ((conf_post_validate c stale string_compare array_sort pool).1 = NC_OK ↔
        (pool.map (fun p => p.listen.pname)).Nodup ∧ (pool.map (fun p => p.name)).Nodup) ∧
      ((conf_post_validate c stale string_compare array_sort pool).1 = NC_OK ∨
        (conf_post_validate c stale string_compare array_sort pool).1 = NC_ERROR) by
    refine ⟨hmain.1, hmain.2, ?_⟩
    intro hdup opened pre status
    have hfail : (conf_post_validate c stale string_compare array_sort pool).1 ≠ NC_OK :=
      fun hc => hdup (hmain.1.mp hc)
    unfold conf_create
    split
    · rfl
    · split
      · rfl
      · split
        · rfl
        · split
          · rename_i heq
            simp only [heq] at hfail
            exact absurd rfl hfail
          · rfl
  obtain ⟨hok, hnames, hlistens⟩ := validate_pool_loop_ok c stale st pool 0 hvalid
  have hlen : ¬ pool.length = 0 := fun hc => hne (List.length_eq_zero.mp hc)
  unfold conf_post_validate
  rw [if_neg hlen]
  cases hv : validate_pool_loop c stale pool 0 with
  | mk status pool1 =>
    rw [hv] at hok hnames hlistens
    simp only at hok hnames hlistens
    subst hok
    simp only
    obtain ⟨hp2, hs2⟩ := hsort_listen pool1
    obtain ⟨hp3, hs3⟩ :=
      hsort_name (array_sort (conf_pool_listen_cmp string_compare) pool1)
    have hl := adjacent_loop_iff_nodup string_compare (fun p => p.listen.pname) hzero hanti
      (array_sort (conf_pool_listen_cmp string_compare) pool1) hs2
    have hn := adjacent_loop_iff_nodup string_compare (fun p => p.name) hzero hanti
      (array_sort (conf_pool_name_cmp string_compare)
        (array_sort (conf_pool_listen_cmp string_compare) pool1)) hs3
    rw [(hp2.map (fun p => p.listen.pname)).nodup_iff, hlistens] at hl
    rw [((hp3.trans hp2).map (fun p => p.name)).nodup_iff, hnames] at hn
    by_cases h1 : adjacent_loop string_compare (fun p => p.listen.pname)
        (array_sort (conf_pool_listen_cmp string_compare) pool1) = false
    · rw [if_pos h1]
      refine ⟨⟨(fun h => by cases h), fun h => ?_⟩, Or.inr rfl⟩
      have := hl.mpr h.1
      rw [h1] at this
      cases this
    · rw [if_neg h1]
      have h1t := hl.mp (by simpa using h1)
      by_cases h2 : adjacent_loop string_compare (fun p => p.name)
          (array_sort (conf_pool_name_cmp string_compare)
            (array_sort (conf_pool_listen_cmp string_compare) pool1)) = false
      · rw [if_pos h2]
        refine ⟨⟨(fun h => by cases h), fun h => ?_⟩, Or.inr rfl⟩
        have := hn.mpr h.2
        rw [h2] at this
        cases this
      · rw [if_neg h2]
        have h2t := hn.mp (by simpa using h2)
        exact ⟨⟨fun _ => ⟨h1t, h2t⟩, fun _ => rfl⟩, Or.inl rfl⟩

/-- C9, instance: the pools alpha and beta on two listen addresses pass, under
the sample comparator and sort. -/
theorem conf_post_validate_ok_iff_no_duplicates_witness :
    (conf_post_validate sample_constants (fun _ _ => {}) sample_string_compare
      sample_array_sort
      [sample_pool "beta" "127.0.0.1:6001", sample_pool "alpha" "127.0.0.1:6000"]).1 = NC_OK :=
  (conf_post_validate_ok_iff_no_duplicates sample_constants (fun _ _ => {}) (fun _ => {})
    sample_string_compare sample_array_sort
    [sample_pool "beta" "127.0.0.1:6001", sample_pool "alpha" "127.0.0.1:6000"]
    sample_string_compare_zero sample_string_compare_anti
    (sample_array_sort_sorts (fun p => p.listen.pname))
    (sample_array_sort_sorts (fun p => p.name))
    (by simp) (by decide)).1.mpr ⟨by decide, by decide⟩

/-- C10. With `CONF_UNSET_NUM` different from 0, `conf_validate_pool` returns
`NC_OK` and sets the pool's `valid` flag if and only if the pool has a valid
listen declaration, its `server_connections` is not 0, it does not pair a
non-empty `redis_auth` with a protocol other than redis, and its flat server
collection is non-empty after group expansion; on every failing path the
`valid` flag is the one the pool came with, so a flag that was 0 stays 0. -/
theorem conf_validate_pool_ok_iff (c : conf_constants) (stale : Nat → conf_server)
    (cp : conf_pool) (hunset : c.CONF_UNSET_NUM ≠ 0) :
    (((conf_validate_pool c stale cp).1 = NC_OK ∧ (conf_validate_pool c stale cp).2.valid = 1) ↔
      (cp.listen.valid ≠ 0 ∧
       cp.server_connections ≠ 0 ∧
       ¬ (pool_protocol c cp ≠ c.PROTOCOL_REDIS ∧ cp.redis_auth.length > 0) ∧
       conf_expand_groups stale cp ≠ [])) ∧
    ((conf_validate_pool c stale cp).1 ≠ NC_OK →
      (conf_validate_pool c stale cp).2.valid = cp.valid) ∧
    ((conf_validate_pool c stale cp).1 ≠ NC_OK → cp.valid = 0 →
      (conf_validate_pool c stale cp).2.valid = 0) := by
  obtain ⟨h1, h2, h3, _, _⟩ := conf_validate_pool_status c stale cp
  have hsc : ¬ (cp.server_connections ≠ c.CONF_UNSET_NUM ∧ cp.server_connections = 0)
      ↔ cp.server_connections ≠ 0 := by
    constructor
    · intro h hz
      exact h ⟨fun hu => hunset (hu ▸ hz), hz⟩
    · intro h hc
      exact h hc.2
  refine ⟨⟨fun h => ?_, fun h => ?_⟩, fun h => (h3 h).2, fun h hv => ?_⟩
  · obtain ⟨a1, a2, a3, a4⟩ := h1.mp h.1
    exact ⟨a1, hsc.mp a2, a3, a4⟩
  · have hok := h1.mpr ⟨h.1, hsc.mpr h.2.1, h.2.2.1, h.2.2.2⟩
    exact ⟨hok, h2 hok⟩
  · rw [(h3 h).2, hv]

/-- C10, instance: the sample pool alpha is accepted and marked valid. -/
theorem conf_validate_pool_ok_iff_witness :
    sample_constants.CONF_UNSET_NUM ≠ 0 ∧
    (conf_validate_pool sample_constants (fun _ => {})
        (sample_pool "alpha" "127.0.0.1:6000")).1 = NC_OK ∧
    (conf_validate_pool sample_constants (fun _ => {})
        (sample_pool "alpha" "127.0.0.1:6000")).2.valid = 1 :=
  ⟨by decide,
   (conf_validate_pool_ok_iff sample_constants (fun _ => {})
      (sample_pool "alpha" "127.0.0.1:6000") (by decide)).1.mpr
      ⟨by decide, by decide, by decide, by decide⟩⟩
/-! ## Claims on defaulting and group expansion -/

/-- C11 (evaluation at the failing input). A pool with no flat server and one
group of two member servers passes `conf_validate_pool`, but its flat
collection then holds one server, a copy of the group's first member only: the
second member is never copied and the size is 1, not the member count 2. -/
theorem conf_validate_pool_copies_first_member_only (stale : Nat → conf_server) :
    grouped_pool.server = [] ∧
    (grouped_pool.servergroup.map (fun g => g.server.length)).sum = 2 ∧
    (conf_validate_pool sample_constants stale grouped_pool).1 = NC_OK ∧
    (conf_validate_pool sample_constants stale grouped_pool).2.server
      = [{ pname := "10.0.0.1", name := "10.0.0.1", addrstr := "10.0.0.1",
           port := 11211, weight := 1, valid := 1 }] :=
  ⟨rfl, rfl, rfl, rfl⟩

/-- C12. After `conf_validate_pool` succeeds, each of hash, distribution,
timeout, backlog, protocol, tcpkeepalive, redis_db, preconnect, master,
auto_eject_hosts, server_connections, server_retry_timeout and
server_failure_limit holds the value the pool came with when that was not the
unset marker, and its `CONF_DEFAULT_*` constant when it was; a pool that came
with `server_connections` 0 (the unset marker being another value) cannot
succeed, and one that came with it unset is not rejected by the zero test and
gets `CONF_DEFAULT_SERVER_CONNECTIONS`. -/
theorem conf_validate_pool_defaults (c : conf_constants) (stale : Nat → conf_server)
    (cp : conf_pool) (hok : (conf_validate_pool c stale cp).1 = NC_OK) :
    (conf_validate_pool c stale cp).2.hash
      = (if cp.hash = c.CONF_UNSET_HASH then c.CONF_DEFAULT_HASH else cp.hash) ∧
    (conf_validate_pool c stale cp).2.distribution
      = (if cp.distribution = c.CONF_UNSET_DIST then c.CONF_DEFAULT_DIST else cp.distribution) ∧
    (conf_validate_pool c stale cp).2.timeout
      = (if cp.timeout = c.CONF_UNSET_NUM then c.CONF_DEFAULT_TIMEOUT else cp.timeout) ∧
    (conf_validate_pool c stale cp).2.backlog
      = (if cp.backlog = c.CONF_UNSET_NUM then c.CONF_DEFAULT_LISTEN_BACKLOG else cp.backlog) ∧
    (conf_validate_pool c stale cp).2.protocol
      = (if cp.protocol = c.CONF_UNSET_NUM then c.CONF_DEFAULT_REDIS else cp.protocol) ∧
    (conf_validate_pool c stale cp).2.tcpkeepalive
      = (if cp.tcpkeepalive = c.CONF_UNSET_NUM then c.CONF_DEFAULT_TCPKEEPALIVE
          else cp.tcpkeepalive) ∧
    (conf_validate_pool c stale cp).2.redis_db
      = (if cp.redis_db = c.CONF_UNSET_NUM then c.CONF_DEFAULT_REDIS_DB else cp.redis_db) ∧
    (conf_validate_pool c stale cp).2.preconnect
      = (if cp.preconnect = c.CONF_UNSET_NUM then c.CONF_DEFAULT_PRECONNECT
          else cp.preconnect) ∧
    (conf_validate_pool c stale cp).2.master
      = (if cp.master = c.CONF_UNSET_NUM then c.CONF_DEFAULT_MASTER else cp.master) ∧
    (conf_validate_pool c stale cp).2.auto_eject_hosts
      = (if cp.auto_eject_hosts = c.CONF_UNSET_NUM then c.CONF_DEFAULT_AUTO_EJECT_HOSTS
          else cp.auto_eject_hosts) ∧
    (conf_validate_pool c stale cp).2.server_connections
      = (if cp.server_connections = c.CONF_UNSET_NUM then c.CONF_DEFAULT_SERVER_CONNECTIONS
          else cp.server_connections) ∧
    (conf_validate_pool c stale cp).2.server_retry_timeout
      = (if cp.server_retry_timeout = c.CONF_UNSET_NUM then c.CONF_DEFAULT_SERVER_RETRY_TIMEOUT
          else cp.server_retry_timeout) ∧
    (conf_validate_pool c stale cp).2.server_failure_limit
      = (if cp.server_failure_limit = c.CONF_UNSET_NUM then c.CONF_DEFAULT_SERVER_FAILURE_LIMIT
          else cp.server_failure_limit) ∧
    (c.CONF_UNSET_NUM ≠ 0 → cp.server_connections ≠ 0) ∧
    (cp.server_connections = c.CONF_UNSET_NUM →
      (conf_validate_pool c stale cp).2.server_connections
        = c.CONF_DEFAULT_SERVER_CONNECTIONS) := by
  obtain ⟨v, hv⟩ := conf_validate_pool_ok_shape c stale cp hok
  obtain ⟨f1, f2, f3, f4, f5, f6, f7, f8, f9, f10, f11, f12, f13, _⟩ :=
    conf_pool_defaults_fields c cp
  have hacc := (conf_validate_pool_status c stale cp).1.mp hok
  rw [hv]
  refine ⟨f1, f2, f3, f4, f5, f6, f7, f8, f9, f10, f11, f12, f13, ?_, ?_⟩
  · intro hu hz
    exact hacc.2.1 ⟨fun he => hu (he ▸ hz), hz⟩
  · intro hu
    show (conf_pool_defaults_tail c (conf_pool_defaults_head c cp)).server_connections = _
    rw [f11, if_pos hu]

/-- C12, instance: the sample pool alpha came with every tunable unset and
leaves validation with the sample defaults. -/
theorem conf_validate_pool_defaults_witness :
    (conf_validate_pool sample_constants (fun _ => {})
        (sample_pool "alpha" "127.0.0.1:6000")).1 = NC_OK ∧
    (conf_validate_pool sample_constants (fun _ => {})
        (sample_pool "alpha" "127.0.0.1:6000")).2.server_connections = 1 ∧
    (conf_validate_pool sample_constants (fun _ => {})
        (sample_pool "alpha" "127.0.0.1:6000")).2.backlog = 512 :=
  ⟨by decide,
   (conf_validate_pool_defaults sample_constants (fun _ => {})
      (sample_pool "alpha" "127.0.0.1:6000") (by decide)).2.2.2.2.2.2.2.2.2.2.2.2.2.2 rfl,
   (conf_validate_pool_defaults sample_constants (fun _ => {})
      (sample_pool "alpha" "127.0.0.1:6000") (by decide)).2.2.2.1.trans (by decide)⟩
/-! ## Claims on document validation -/

/-- C13 (evaluation at the failing input). With root depth 1 and maximum depth
2, the structural pass accepts the events of a pool whose sequence holds a
nested sequence; the nested sequence start is met at depth 2 while two scalars
(`k` and `x`) have been counted at that depth and the `seq` flag is already
set, so it is not the value of a key. -/
theorem conf_validate_structure_accepts_nested_sequence :
    conf_validate_structure 1 2 nested_sequence_events = NC_OK ∧
    nested_sequence_events
      = [YAML_STREAM_START_EVENT, YAML_DOCUMENT_START_EVENT, YAML_MAPPING_START_EVENT,
         YAML_SCALAR_EVENT "a", YAML_MAPPING_START_EVENT, YAML_SCALAR_EVENT "k",
         YAML_SEQUENCE_START_EVENT, YAML_SCALAR_EVENT "x"]
        ++ YAML_SEQUENCE_START_EVENT ::
          [YAML_SCALAR_EVENT "y", YAML_SEQUENCE_END_EVENT, YAML_SEQUENCE_END_EVENT,
           YAML_MAPPING_END_EVENT, YAML_MAPPING_END_EVENT, YAML_DOCUMENT_END_EVENT,
           YAML_STREAM_END_EVENT] ∧
    (structure_walk 1 2
      [YAML_STREAM_START_EVENT, YAML_DOCUMENT_START_EVENT, YAML_MAPPING_START_EVENT,
       YAML_SCALAR_EVENT "a", YAML_MAPPING_START_EVENT, YAML_SCALAR_EVENT "k",
       YAML_SEQUENCE_START_EVENT, YAML_SCALAR_EVENT "x"] structure_init).depth = 2 ∧
    (structure_walk 1 2
      [YAML_STREAM_START_EVENT, YAML_DOCUMENT_START_EVENT, YAML_MAPPING_START_EVENT,
       YAML_SCALAR_EVENT "a", YAML_MAPPING_START_EVENT, YAML_SCALAR_EVENT "k",
       YAML_SEQUENCE_START_EVENT, YAML_SCALAR_EVENT "x"] structure_init).count 2 = 2 ∧
    (structure_walk 1 2
      [YAML_STREAM_START_EVENT, YAML_DOCUMENT_START_EVENT, YAML_MAPPING_START_EVENT,
       YAML_SCALAR_EVENT "a", YAML_MAPPING_START_EVENT, YAML_SCALAR_EVENT "k",
       YAML_SEQUENCE_START_EVENT, YAML_SCALAR_EVENT "x"] structure_init).seq = true := by
  decide

/-- C14. In a stream the structural pass accepts, the tracked depth is at most
`CONF_MAX_DEPTH` after every processed prefix; and a mapping start that arrives
when the depth is already `CONF_MAX_DEPTH` or more makes the pass return
`NC_ERROR`. -/
theorem conf_validate_structure_depth_bounded (R M : Nat) (pre post : List yaml_event)
    (hpre : YAML_STREAM_END_EVENT ∉ pre) :
    (conf_validate_structure R M (pre ++ post) = NC_OK →
      (structure_walk R M pre structure_init).depth ≤ M) ∧
    ((structure_walk R M pre structure_init).depth ≥ M →
      conf_validate_structure R M (pre ++ YAML_MAPPING_START_EVENT :: post) = NC_ERROR) := by
  constructor
  · intro h
    obtain ⟨st2, hrun, hok⟩ := conf_validate_structure_ok R M _ h
    exact structure_walk_invariant R M (fun st => st.depth ≤ M)
      (fun st e hP _ hne => structure_step_depth_le R M st e hP hne)
      pre post structure_init st2 (by simp [structure_init]) rfl rfl hpre hrun hok
  · intro hd
    apply conf_validate_structure_error_of_not_ok
    intro h
    obtain ⟨_, _, hne⟩ := conf_validate_structure_no_error R M pre post _ h hpre
    rw [structure_step_mapping_start_error R M _ hd] at hne
    cases hne

/-- C14, instance: the events of the pool alpha are accepted, and after the
first five of them (both mappings open) the depth is within the bound 2. -/
theorem conf_validate_structure_depth_bounded_witness :
    conf_validate_structure 1 2 alpha_events = NC_OK ∧
    (structure_walk 1 2 (alpha_events.take 5) structure_init).depth ≤ 2 :=
  ⟨by decide,
   (conf_validate_structure_depth_bounded 1 2 (alpha_events.take 5) (alpha_events.drop 5)
     (by decide)).1 (by decide)⟩

/-- C15. In a stream the structural pass accepts, when a mapping opens at root
depth the counter of scalars at that depth is exactly 1, and (no sequence end
being met at root depth) exactly one scalar event has been met at root depth
since the last mapping end that came back there.  Two scalars in a row at root
depth, a mapping opened at root depth when no scalar has been counted there,
and a scalar at depth 0 each make the pass return `NC_ERROR`. -/
theorem conf_validate_structure_root_key (R M : Nat) (pre post : List yaml_event)
    (hpre : YAML_STREAM_END_EVENT ∉ pre) :
    (conf_validate_structure R M (pre ++ YAML_MAPPING_START_EVENT :: post) = NC_OK →
      event_depth pre 0 = R →
      (structure_walk R M pre structure_init).count R = 1 ∧
      ((∀ p q, pre = p ++ YAML_SEQUENCE_END_EVENT :: q → event_depth p 0 ≠ R) →
        keys_since_close R pre 0 0 = 1)) ∧
    (event_depth pre 0 = R → ∀ a b,
      conf_validate_structure R M (pre ++ YAML_SCALAR_EVENT a :: YAML_SCALAR_EVENT b :: post)
        = NC_ERROR) ∧
    (event_depth pre 0 = R → (structure_walk R M pre structure_init).count R = 0 →
      conf_validate_structure R M (pre ++ YAML_MAPPING_START_EVENT :: post) = NC_ERROR) ∧
    (event_depth pre 0 = 0 → ∀ a,
      conf_validate_structure R M (pre ++ YAML_SCALAR_EVENT a :: post) = NC_ERROR) := by
  have hdepth : (structure_walk R M pre structure_init).depth = event_depth pre 0 :=
    structure_walk_depth R M pre structure_init
  have hroot : conf_validate_structure R M (pre ++ YAML_MAPPING_START_EVENT :: post) = NC_OK →
      event_depth pre 0 = R → (structure_walk R M pre structure_init).count R = 1 := by
    intro h hd
    obtain ⟨_, _, hne⟩ := conf_validate_structure_no_error R M pre post _ h hpre
    exact structure_step_mapping_start_root R M _ (hdepth.trans hd) hne
  refine ⟨?_, ?_, ?_, ?_⟩
  · intro h hd
    refine ⟨hroot h hd, ?_⟩
    intro hseq
    obtain ⟨st2, hrun, hok⟩ := conf_validate_structure_ok R M _ h
    have hc := structure_walk_root_count R M pre (YAML_MAPPING_START_EVENT :: post)
      structure_init st2 rfl rfl hpre hrun hok hseq
    rw [hroot h hd] at hc
    exact hc.symm
  · intro hd a b
    apply conf_validate_structure_error_of_not_ok
    intro h
    obtain ⟨_, _, hne⟩ := conf_validate_structure_no_error R M pre
      (YAML_SCALAR_EVENT b :: post) _ h hpre
    have hc := structure_step_scalar_root_count R M _ a (hdepth.trans hd) hne
    have h2 : conf_validate_structure R M
        ((pre ++ [YAML_SCALAR_EVENT a]) ++ YAML_SCALAR_EVENT b :: post) = NC_OK := by
      simpa using h
    have hpre2 : YAML_STREAM_END_EVENT ∉ pre ++ [YAML_SCALAR_EVENT a] := by
      simp [hpre]
    obtain ⟨_, _, hne2⟩ := conf_validate_structure_no_error R M _ post _ h2 hpre2
    rw [structure_walk_append] at hne2
    have hw : structure_walk R M [YAML_SCALAR_EVENT a] (structure_walk R M pre structure_init)
        = structure_step R M (structure_walk R M pre structure_init) (YAML_SCALAR_EVENT a) := rfl
    rw [hw, structure_step_scalar_root R M _ b hc.2 (by rw [hc.1]; decide)] at hne2
    cases hne2
  · intro hd hc0
    apply conf_validate_structure_error_of_not_ok
    intro h
    have := hroot h hd
    rw [hc0] at this
    cases this
  · intro hd a
    apply conf_validate_structure_error_of_not_ok
    intro h
    obtain ⟨_, _, hne⟩ := conf_validate_structure_no_error R M pre post _ h hpre
    rw [structure_step_scalar_zero R M _ a (hdepth.trans hd)] at hne
    cases hne

/-- C15, instance: in the events of the pool alpha the pool mapping opens at
root depth 1 after the single key `alpha`. -/
theorem conf_validate_structure_root_key_witness :
    conf_validate_structure 1 2 alpha_events = NC_OK ∧
    keys_since_close 1 (alpha_events.take 4) 0 0 = 1 :=
  ⟨by decide,
   ((conf_validate_structure_root_key 1 2 (alpha_events.take 4) (alpha_events.drop 5)
     (by decide)).1 (by decide) (by decide)).2
     (fun p q h => absurd
       (h ▸ List.mem_append_right p (List.mem_cons_self _ _) :
         YAML_SEQUENCE_END_EVENT ∈ alpha_events.take 4)
       (by decide))⟩

theorem token_loop_disallowed (pre post : List yaml_token_type) (t : yaml_token_type)
    (hpre : YAML_STREAM_END_TOKEN ∉ pre) (hbad : token_allowed t = false) :
    token_loop (pre ++ t :: post) false false ≠ some false := by
  induction pre with
  | nil =>
    have he : ¬ (token_switch t false false).2 = false := by
      intro hc
      rw [(token_switch_fresh t).2.mp hc] at hbad
      cases hbad
    simp only [List.nil_append, token_loop]
    rw [if_neg (fun hc => he hc.2)]
    exact fun hc => he (Option.some.inj hc)
  | cons p pre ih =>
    have hpre2 : YAML_STREAM_END_TOKEN ∉ pre := fun hc => hpre (List.mem_cons_of_mem _ hc)
    simp only [List.cons_append, token_loop]
    by_cases hl : (token_switch p false false).1 = false ∧ (token_switch p false false).2 = false
    · rw [if_pos hl, hl.1, hl.2]
      exact ih hpre2
    · rw [if_neg hl]
      intro hc
      have he := Option.some.inj hc
      have hd : (token_switch p false false).1 = false := by
        cases hx : (token_switch p false false).1
        · rfl
        · exact absurd ((token_switch_fresh p).1.mp hx)
            (fun hp => hpre (hp ▸ List.mem_cons_self _ _))
      exact hl ⟨hd, he⟩


/-- C16. `conf_validate_tokens` returns `NC_OK` if and only if the token
stream reaches a stream-end token and every token scanned before the first one
is in the allow-list (stream start, block sequence start, block mapping start,
block end, block entry, key, value, scalar; the stream end itself is allowed
too); a version or tag directive, document start or end, flow sequence or
mapping start or end, flow entry, alias, anchor or tag token scanned before
the stream end makes it return `NC_ERROR`. -/
theorem conf_validate_tokens_ok_iff (tokens : List yaml_token_type) :
    (conf_validate_tokens tokens = NC_OK ↔
      ∃ pre post, tokens = pre ++ YAML_STREAM_END_TOKEN :: post ∧
        ∀ t ∈ pre, t ≠ YAML_STREAM_END_TOKEN ∧ token_allowed t = true) ∧
    token_allowed YAML_STREAM_END_TOKEN = true ∧
    (∀ t ∈ [YAML_VERSION_DIRECTIVE_TOKEN, YAML_TAG_DIRECTIVE_TOKEN, YAML_DOCUMENT_START_TOKEN,
        YAML_DOCUMENT_END_TOKEN, YAML_FLOW_SEQUENCE_START_TOKEN, YAML_FLOW_SEQUENCE_END_TOKEN,
        YAML_FLOW_MAPPING_START_TOKEN, YAML_FLOW_MAPPING_END_TOKEN, YAML_FLOW_ENTRY_TOKEN,
        YAML_ALIAS_TOKEN, YAML_ANCHOR_TOKEN, YAML_TAG_TOKEN],
      ∀ pre post, YAML_STREAM_END_TOKEN ∉ pre →
        conf_validate_tokens (pre ++ t :: post) = NC_ERROR) := by
  have hiff : ∀ toks, conf_validate_tokens toks = NC_OK ↔
      ∃ pre post, toks = pre ++ YAML_STREAM_END_TOKEN :: post ∧
        ∀ t ∈ pre, t ≠ YAML_STREAM_END_TOKEN ∧ token_allowed t = true :=
    fun toks => (conf_validate_tokens_status toks).1.trans (token_loop_ok_iff toks)
  refine ⟨hiff tokens, by decide, ?_⟩
  intro t ht pre post hpre
  have hbad : token_allowed t = false ∧ t ≠ YAML_STREAM_END_TOKEN := by
    simp only [List.mem_cons, List.mem_singleton, List.not_mem_nil, or_false] at ht
    rcases ht with h | h | h | h | h | h | h | h | h | h | h | h <;> subst h <;> decide
  rcases (conf_validate_tokens_status (pre ++ t :: post)).2 with hok | herr
  · exact absurd ((conf_validate_tokens_status _).1.mp hok)
      (token_loop_disallowed pre post t hpre hbad.1)
  · exact herr

/-! ## Claims on the runtime transformation -/

theorem conf_pool_copy_finish_init (stale : server_pool) (cp : conf_pool) (idx : Nat) :
    (conf_pool_copy stale cp idx).finish_init = 0 := rfl

/-- C20 (counterexample). A valid pool that declares one server, two backup
servers and a registry server is transformed successfully and marked
initialised when the registry answers with one pair: the declared collections
of unequal length are replaced by the fetched ones before the length check. -/
theorem conf_pool_each_transform_registry_replaces_declared :
    registry_pool.backupserver ≠ [] ∧
    registry_pool.backupserver.length ≠ registry_pool.server.length ∧
    (conf_pool_each_transform sample_env {} registry_pool []).1 = NC_OK ∧
    (conf_pool_each_transform sample_env {} registry_pool []).2.1.finish_init = 1 := by
  decide

/-- C20 (amended). `conf_pool_each_transform` fails whenever the backup-server
collection its length check looks at (the declared one for a pool without
registry servers, the one fetched from the registry otherwise) is non-empty and
differs in length from the primary collection; in that case `finish_init` is
0.  For a pool without registry servers the collections checked are the
declared ones. -/
theorem conf_pool_each_transform_length_check (env : transform_env) (stale : server_pool)
    (cp : conf_pool) (pool_array : List server_pool)
    (hb : (checked_servers env cp).2 ≠ [])
    (hl : (checked_servers env cp).2.length ≠ (checked_servers env cp).1.length) :
    (conf_pool_each_transform env stale cp pool_array).1 ≠ NC_OK ∧
    (conf_pool_each_transform env stale cp pool_array).2.1.finish_init = 0 ∧
    (cp.zookeeperserver = [] → checked_servers env cp = (cp.server, cp.backupserver)) := by
  have hcheck : ∀ (cq : conf_pool) (sp : server_pool), cq.backupserver ≠ [] →
      cq.backupserver.length ≠ cq.server.length →
      (conf_pool_transform_servers env cq sp).1 = NC_ERROR ∧
      (conf_pool_transform_servers env cq sp).2 = sp := by
    intro cq sp h1 h2
    have h3 : cq.backupserver.length ≠ 0 := fun hc => h1 (List.length_eq_zero.mp hc)
    unfold conf_pool_transform_servers
    rw [if_pos h3, if_pos h2]
    exact ⟨rfl, rfl⟩
  refine ⟨?_, ?_, ?_⟩
  · unfold conf_pool_each_transform
    unfold checked_servers at hb hl
    by_cases hz : cp.zookeeperserver.length ≠ 0
    · rw [if_pos hz] at hb hl
      simp only [if_pos hz]
      by_cases hs : env.zk.status ≠ NC_OK
      · simp only [if_pos hs]
        exact hs
      · simp only [if_neg hs]
        rw [(hcheck { cp with server := env.zk.server, backupserver := env.zk.backupserver }
          _ hb hl).1]
        exact fun hc => by cases hc
    · rw [if_neg hz] at hb hl
      simp only [if_neg hz]
      rw [(hcheck cp _ hb hl).1]
      exact fun hc => by cases hc
  · unfold conf_pool_each_transform
    unfold checked_servers at hb hl
    by_cases hz : cp.zookeeperserver.length ≠ 0
    · rw [if_pos hz] at hb hl
      simp only [if_pos hz]
      by_cases hs : env.zk.status ≠ NC_OK
      · simp only [if_pos hs]
        rfl
      · simp only [if_neg hs]
        rw [(hcheck { cp with server := env.zk.server, backupserver := env.zk.backupserver }
          _ hb hl).2]
        rfl
    · rw [if_neg hz] at hb hl
      simp only [if_neg hz]
      rw [(hcheck cp _ hb hl).2]
      rfl
  · intro hz
    unfold checked_servers
    rw [hz]
    rfl

/-- C20, instance: the same pool without its registry server is refused. -/
theorem conf_pool_each_transform_length_check_witness :
    (conf_pool_each_transform sample_env {} { registry_pool with zookeeperserver := [] } []).1
      ≠ NC_OK ∧
    (conf_pool_each_transform sample_env {}
      { registry_pool with zookeeperserver := [] } []).2.1.finish_init = 0 :=
  ⟨(conf_pool_each_transform_length_check sample_env {}
      { registry_pool with zookeeperserver := [] } [] (by decide) (by decide)).1,
   (conf_pool_each_transform_length_check sample_env {}
      { registry_pool with zookeeperserver := [] } [] (by decide) (by decide)).2.1⟩

theorem conf_set_listen_twice (c : conf_constants) (env : parse_env) (name : String)
    (f : conf_field) (v1 v2 : String) (cp cp1 : conf_pool)
    (h1 : command_set c env ⟨name, .conf_set_listen, f⟩ v1 cp = (none, cp1)) :
    command_set c env ⟨name, .conf_set_listen, f⟩ v2 cp1 = (some "is a duplicate", cp1) := by
  simp only [command_set] at h1 ⊢
  have ha := (Prod.mk.inj h1).1
  have hb := (Prod.mk.inj h1).2
  have hvalid : cp1.listen.valid = 1 := by
    rw [← hb]
    exact conf_set_listen_ok_valid env v1 cp.listen ha
  have hdup : conf_set_listen env v2 cp1.listen = (some "is a duplicate", cp1.listen) := by
    unfold conf_set_listen
    rw [if_pos hvalid]
  rw [hdup]

/-! ## Claims on the command table and the handlers -/

/-- C17. With a `string_compare` that is 0 exactly on equal strings,
`conf_handler` called with two or more stacked arguments finds a row of the
command table, and hands the value to that row's handler, if and only if the
key (second from the top of the stack) is one of the 20 directive names,
compared exactly; for every other key it returns `NC_ERROR` and leaves the pool
as it was. -/
theorem conf_handler_dispatch (c : conf_constants) (env : parse_env) (arg : List String)
    (cp : conf_pool) (hzero : ∀ a b, env.string_compare a b = 0 ↔ a = b)
    (hn : 2 ≤ arg.length) :
    ((command_loop env.string_compare (arg.getD (arg.length - 2) "") conf_commands).isSome = true
      ↔ arg.getD (arg.length - 2) "" ∈ directive_names) ∧
    (∀ cmd, command_loop env.string_compare (arg.getD (arg.length - 2) "") conf_commands
        = some cmd →
      cmd ∈ conf_commands ∧ cmd.name = arg.getD (arg.length - 2) "" ∧
      (conf_handler c env arg cp).2 = (command_set c env cmd (arg.getD (arg.length - 1) "") cp).2 ∧
      ((conf_handler c env arg cp).1 = NC_OK ↔
        (command_set c env cmd (arg.getD (arg.length - 1) "") cp).1 = none)) ∧
    (arg.getD (arg.length - 2) "" ∉ directive_names →
      conf_handler c env arg cp = (NC_ERROR, cp)) := by
  have hlen : ¬ arg.length = 1 := by omega
  refine ⟨command_loop_is_some_iff env.string_compare hzero _, ?_, ?_⟩
  · intro cmd hcmd
    obtain ⟨hm, hname⟩ := command_loop_some env.string_compare hzero _ cmd hcmd
    have hh : conf_handler c env arg cp =
        (match command_set c env cmd (arg.getD (arg.length - 1) "") cp with
          | (none, cq) => (NC_OK, cq)
          | (some _, cq) => (NC_ERROR, cq)) := by
      unfold conf_handler
      rw [if_neg hlen, hcmd]
    rw [hh]
    generalize command_set c env cmd (arg.getD (arg.length - 1) "") cp = r
    rcases r with ⟨_ | msg, cq⟩
    · exact ⟨hm, hname, rfl, ⟨fun _ => rfl, fun _ => rfl⟩⟩
    · exact ⟨hm, hname, rfl, ⟨(fun h => by cases h), (fun h => by cases h)⟩⟩
  · intro hnot
    have hnone : command_loop env.string_compare (arg.getD (arg.length - 2) "") conf_commands
        = none := by
      cases hl : command_loop env.string_compare (arg.getD (arg.length - 2) "") conf_commands with
      | none => rfl
      | some cmd =>
        exfalso
        apply hnot
        rw [← command_loop_is_some_iff env.string_compare hzero, hl]
        rfl
    unfold conf_handler
    rw [if_neg hlen, hnone]

/-- C18. For every write-once directive, once its handler has returned
`CONF_OK` on a pool (for a non-empty value, as every value the parser hands
over is), a second call on the pool so obtained returns "is a duplicate" for
any value and leaves the pool unchanged.  The unset markers are taken to be
outside what the handlers store: `CONF_UNSET_NUM` negative, `CONF_UNSET_HASH`
and `CONF_UNSET_DIST` not an index of their name tables, and the three protocol
constants different from `CONF_UNSET_NUM`. -/
theorem command_set_write_once (c : conf_constants) (env : parse_env) (cmd : command)
    (v1 v2 : String) (cp cp1 : conf_pool)
    (hm : cmd ∈ conf_commands) (hname : cmd.name ∈ write_once_names)
    (hnum : c.CONF_UNSET_NUM < 0)
    (hhash : ∀ i : Nat, i < env.hash_strings.length → (i : Int) ≠ c.CONF_UNSET_HASH)
    (hdist : ∀ i : Nat, i < env.dist_strings.length → (i : Int) ≠ c.CONF_UNSET_DIST)
    (hproto : c.PROTOCOL_REDIS ≠ c.CONF_UNSET_NUM ∧ env.PROTOCOL_SSDB ≠ c.CONF_UNSET_NUM ∧
      env.PROTOCOL_MEMCACHE ≠ c.CONF_UNSET_NUM)
    (hv1 : v1 ≠ "")
    (h1 : command_set c env cmd v1 cp = (none, cp1)) :
    command_set c env cmd v2 cp1 = (some "is a duplicate", cp1) := by
  simp only [conf_commands, List.mem_cons, List.mem_singleton, List.not_mem_nil, or_false] at hm
  rcases hm with h | h | h | h | h | h | h | h | h | h | h | h | h | h | h | h | h | h | h | h <;>
    subst h <;> first
      | exact absurd hname (by decide)
      | exact conf_set_listen_twice c env _ _ v1 v2 cp cp1 h1
      | exact conf_set_num_twice c env _ v1 v2 cp cp1 (fun _ _ => rfl) hnum h1
      | exact conf_set_bool_twice c env _ v1 v2 cp cp1 (fun _ _ => rfl) hnum h1
      | exact conf_set_protocol_twice c env _ v1 v2 cp cp1 (fun _ _ => rfl) hproto h1
      | exact conf_set_hash_twice c env _ v1 v2 cp cp1 (fun _ _ => rfl) hhash h1
      | exact conf_set_distribution_twice c env _ v1 v2 cp cp1 (fun _ _ => rfl) hdist h1
      | exact conf_set_hashtag_twice _ v1 v2 cp cp1 (fun _ _ => rfl) h1
      | exact conf_set_string_twice _ v1 v2 cp cp1 (fun _ _ => rfl) hv1 h1

/-- Instance of `conf_handler_dispatch`: with the stack `alpha`, `Timeout`,
`400` the key `Timeout` differs in case from every table name, so the call
fails and the pool is unchanged. -/
theorem conf_handler_dispatch_witness :
    2 ≤ ["alpha", "Timeout", "400"].length ∧
    conf_handler sample_constants sample_parse_env ["alpha", "Timeout", "400"]
        (sample_pool "alpha" "127.0.0.1:22121")
      = (NC_ERROR, sample_pool "alpha" "127.0.0.1:22121") :=
  ⟨by decide,
   (conf_handler_dispatch sample_constants sample_parse_env ["alpha", "Timeout", "400"]
      (sample_pool "alpha" "127.0.0.1:22121") sample_key_compare_zero (by decide)).2.2
      (by decide)⟩

/-- Instance of `command_set_write_once`: `timeout: 400` succeeds on a fresh
pool, and a following `timeout: 5` is refused as a duplicate with the value 400
kept. -/
theorem command_set_write_once_witness :
    command_set sample_constants sample_parse_env ⟨"timeout", .conf_set_num, .timeout⟩ "400"
        (conf_pool_init sample_constants {} "alpha")
      = (none, field_num_set .timeout 400 (conf_pool_init sample_constants {} "alpha")) ∧
    command_set sample_constants sample_parse_env ⟨"timeout", .conf_set_num, .timeout⟩ "5"
        (field_num_set .timeout 400 (conf_pool_init sample_constants {} "alpha"))
      = (some "is a duplicate",
         field_num_set .timeout 400 (conf_pool_init sample_constants {} "alpha")) :=
  ⟨by decide,
   command_set_write_once sample_constants sample_parse_env ⟨"timeout", .conf_set_num, .timeout⟩
     "400" "5" (conf_pool_init sample_constants {} "alpha")
     (field_num_set .timeout 400 (conf_pool_init sample_constants {} "alpha"))
     (by decide) (by decide) (by decide)
     (fun i _ => by show (i : Int) ≠ -1; omega)
     (fun i _ => by show (i : Int) ≠ -1; omega)
     (by decide) (by decide) (by decide)⟩

/-! ## C19: a directive after a nested sequence is not applied -/

/-- C19 (failing input): the document `a:` / `  servers:` /
`    - - 127.0.0.1:8888:1` / `  timeout: 5` passes the structural pass (root
depth 1, maximum depth 2) and `conf_parse` returns `NC_OK` on it, yet the one
pool it leaves has `timeout` still unset: the two closing sequence events pop
`servers` and the pool name `a`, so `timeout` and `5` sit too low on the stack
to be dispatched, and `timeout` is left on the stack.  On the same document
without the nesting the directive is applied (`timeout = 5`). -/
theorem conf_parse_drops_directive_after_nested_sequence :
    conf_validate_structure 1 2 dropped_directive_events = NC_OK ∧
    conf_parse sample_constants sample_parse_env 1 {} dropped_directive_events {}
      = some (NC_OK, dropped_directive_result) ∧
    dropped_directive_result.pool.map (fun cp => (cp.name, cp.timeout))
      = [("a", sample_constants.CONF_UNSET_NUM)] ∧
    (conf_parse sample_constants sample_parse_env 1 {} kept_directive_events {}).map
        (fun r => (r.1, r.2.pool.map (fun cp => (cp.name, cp.timeout))))
      = some (NC_OK, [("a", 5)]) := by
  refine ⟨by decide, by decide, by decide, by decide⟩
/-! ## C29: the hash tag handler -/

/-- C29: `conf_set_hashtag` on the `hash_tag` field returns `CONF_OK` if and
only if the field is still unset and the value is exactly 2 characters long;
it then stores the value verbatim and changes nothing else, and on every
refusal (a duplicate, or a value of another length) the pool is unchanged, so
an absent hash tag stays absent. -/
theorem conf_set_hashtag_accepts_iff (value : String) (cp : conf_pool) :
    ((conf_set_hashtag .hash_tag value cp).1 = none ↔ cp.hash_tag = "" ∧ value.length = 2) ∧
    ((conf_set_hashtag .hash_tag value cp).1 = none →
      (conf_set_hashtag .hash_tag value cp).2 = { cp with hash_tag := value }) ∧
    ((conf_set_hashtag .hash_tag value cp).1 ≠ none →
      (conf_set_hashtag .hash_tag value cp).2 = cp) ∧
    (value.length ≠ 2 → cp.hash_tag = "" →
      conf_set_hashtag .hash_tag value cp
        = (some "is not a valid hash tag string with two characters", cp)) := by
  unfold conf_set_hashtag
  simp only [field_str_get, field_str_set]
  by_cases h1 : cp.hash_tag = ""
  · by_cases h2 : value.length = 2
    · simp [h1, h2]
    · simp [h1, h2]
  · simp [h1]

/-! ## C30: the two candidate fingerprints -/

/-- C30: when both checksums are below `2^16`, the fingerprint
`nodes_child_watch` computes for a pair with a 16-bit shift and a 32-bit
addition is `(crc16(p) << 16) | crc16(b)`, the one for the swapped pair is
`(crc16(b) << 16) | crc16(p)`, and neither sum reaches `2^32`. -/
theorem crc_pair_eq_shift_or (hash_crc16 : String → Nat) (s bs : conf_server)
    (hs : hash_crc16 s.pname < 65536) (hb : hash_crc16 bs.pname < 65536) :
    crc_pair hash_crc16 s bs = (hash_crc16 s.pname <<< 16) ||| hash_crc16 bs.pname ∧
    crc_pair hash_crc16 bs s = (hash_crc16 bs.pname <<< 16) ||| hash_crc16 s.pname ∧
    hash_crc16 s.pname * 65536 + hash_crc16 bs.pname < 4294967296 ∧
    hash_crc16 bs.pname * 65536 + hash_crc16 s.pname < 4294967296 := by
  have key : ∀ a b : Nat, a < 65536 → b < 65536 →
      ((a % 4294967296) * 65536 % 4294967296 + b % 4294967296) % 4294967296
        = (a <<< 16) ||| b := by
    intro a b ha hb2
    have h1 : a % 4294967296 = a := Nat.mod_eq_of_lt (by omega)
    have h2 : b % 4294967296 = b := Nat.mod_eq_of_lt (by omega)
    have h3 : a * 65536 % 4294967296 = a * 65536 := Nat.mod_eq_of_lt (by omega)
    have h4 : (a * 65536 + b) % 4294967296 = a * 65536 + b := Nat.mod_eq_of_lt (by omega)
    rw [h1, h2, h3, h4, Nat.shiftLeft_eq]
    have h5 := Nat.mul_add_lt_is_or (show b < 2 ^ 16 by omega) a
    rw [Nat.mul_comm] at h5
    exact h5
  refine ⟨key _ _ hs hb, key _ _ hb hs, by omega, by omega⟩

/-- Instance of `crc_pair_eq_shift_or` at the sample pair (`node_a`,
`node_a_slave`) and the sample checksum. -/
theorem crc_pair_eq_shift_or_witness :
    sample_crc16 node_a.pname < 65536 ∧ sample_crc16 node_a_slave.pname < 65536 ∧
    crc_pair sample_crc16 node_a node_a_slave
      = (sample_crc16 node_a.pname <<< 16) ||| sample_crc16 node_a_slave.pname :=
  ⟨by decide, by decide,
   (crc_pair_eq_shift_or sample_crc16 node_a node_a_slave (by decide) (by decide)).1⟩

/-! ## C22: the scalar fields of the runtime pool -/

/-- C22: whatever the outcome of the server initialisations, the runtime pool
`conf_pool_each_transform` builds from a declaration `cp` (whose
`server_retry_timeout` is a 32-bit `int`) has `server_retry_timeout` equal to
the declared value times 1000, the 64-bit product not wrapping; `require_auth`
is 1 exactly when `redis_auth` is non-empty (and 0 otherwise); `timeout`,
`backlog`, `redis_db`, the hash selector and the distribution selector equal
the declared values. -/
theorem conf_pool_each_transform_scalars (env : transform_env) (stale : server_pool)
    (cp : conf_pool) (pool_array : List server_pool)
    (hlo : -2147483648 ≤ cp.server_retry_timeout) (hhi : cp.server_retry_timeout ≤ 2147483647) :
    (conf_pool_each_transform env stale cp pool_array).2.1.server_retry_timeout
      = cp.server_retry_timeout * 1000 ∧
    -9223372036854775808 ≤ cp.server_retry_timeout * 1000 ∧
    cp.server_retry_timeout * 1000 ≤ 9223372036854775807 ∧
    ((conf_pool_each_transform env stale cp pool_array).2.1.require_auth = 1
      ↔ cp.redis_auth ≠ "") ∧
    ((conf_pool_each_transform env stale cp pool_array).2.1.require_auth = 0
      ↔ cp.redis_auth = "") ∧
    (conf_pool_each_transform env stale cp pool_array).2.1.timeout = cp.timeout ∧
    (conf_pool_each_transform env stale cp pool_array).2.1.backlog = cp.backlog ∧
    (conf_pool_each_transform env stale cp pool_array).2.1.redis_db = cp.redis_db ∧
    (conf_pool_each_transform env stale cp pool_array).2.1.key_hash_type = cp.hash ∧
    (conf_pool_each_transform env stale cp pool_array).2.1.dist_type = cp.distribution := by
  have hcopy : ∀ sp : server_pool,
      (sp = conf_pool_copy stale cp pool_array.length ∨
        ∃ cq, sp = (conf_pool_transform_servers env cq
          (conf_pool_copy stale cp pool_array.length)).2) →
      sp.server_retry_timeout = int64_wrap (cp.server_retry_timeout * 1000) ∧
      sp.require_auth = (if cp.redis_auth.length > 0 then 1 else 0) ∧
      sp.timeout = cp.timeout ∧ sp.backlog = cp.backlog ∧ sp.redis_db = cp.redis_db ∧
      sp.key_hash_type = cp.hash ∧ sp.dist_type = cp.distribution := by
    intro sp h
    rcases h with h | ⟨cq, h⟩
    · subst h
      exact ⟨rfl, rfl, rfl, rfl, rfl, rfl, rfl⟩
    · subst h
      have hs := conf_pool_transform_servers_scalars env cq
        (conf_pool_copy stale cp pool_array.length)
      exact ⟨hs.1, hs.2.1, hs.2.2.1, hs.2.2.2.1, hs.2.2.2.2.1, hs.2.2.2.2.2.1,
        hs.2.2.2.2.2.2⟩
  have hsp : (conf_pool_each_transform env stale cp pool_array).2.1
        = conf_pool_copy stale cp pool_array.length ∨
      ∃ cq, (conf_pool_each_transform env stale cp pool_array).2.1
        = (conf_pool_transform_servers env cq (conf_pool_copy stale cp pool_array.length)).2 := by
    unfold conf_pool_each_transform
    dsimp only
    split_ifs
    · exact Or.inl rfl
    · exact Or.inr ⟨_, rfl⟩
    · exact Or.inr ⟨_, rfl⟩
  obtain ⟨h1, h2, h3, h4, h5, h6, h7⟩ := hcopy _ hsp
  have hlen : cp.redis_auth.length > 0 ↔ cp.redis_auth ≠ "" := by
    constructor
    · intro h hc
      rw [hc] at h
      exact absurd h (by decide)
    · intro h
      by_contra hn
      have h0 : cp.redis_auth.data.length = 0 := by
        have : cp.redis_auth.length = 0 := by omega
        exact this
      exact h (String.ext (List.length_eq_zero.mp h0))
  refine ⟨by rw [h1]; exact int64_wrap_of_int32 _ hlo hhi, by omega, by omega, ?_, ?_,
    h3, h4, h5, h6, h7⟩
  · rw [h2]
    by_cases hl : cp.redis_auth.length > 0
    · simp [hl, hlen.mp hl]
    · have : cp.redis_auth = "" := by
        by_contra hc
        exact hl (hlen.mpr hc)
      simp [this]
  · rw [h2]
    by_cases hl : cp.redis_auth.length > 0
    · simp [hl, hlen.mp hl]
    · have : cp.redis_auth = "" := by
        by_contra hc
        exact hl (hlen.mpr hc)
      simp [this]

/-- Instance of `conf_pool_each_transform_scalars` at the registry pool with
the largest 32-bit retry timeout: the product 2147483647000 is stored. -/
theorem conf_pool_each_transform_scalars_witness :
    (conf_pool_each_transform sample_env {}
        { registry_pool with server_retry_timeout := 2147483647 } []).2.1.server_retry_timeout
      = 2147483647000 :=
  (conf_pool_each_transform_scalars sample_env {}
    { registry_pool with server_retry_timeout := 2147483647 } [] (by decide) (by decide)).1

/-! ## C23: the TCP form of `listen` -/

/-- C23: on a fresh listen declaration and a value that does not start with
`/` (ports being valid exactly in 1..65535): a value without `:` is refused;
for a value `host:port` whose `port` part holds no `:` (so the split is at the
last `:`), the value is refused when `nc_atoi` does not read `port` as a number
in 1..65535, and otherwise, the resolver succeeding, the call returns `CONF_OK`
with that port stored, `host` as the name, the whole value as the printable
name, the resolved address, and the declaration marked valid. -/
theorem conf_set_listen_tcp (env : parse_env) (value : String) (field : conf_listen)
    (hvalid : ∀ n, env.nc_valid_port n = true ↔ 1 ≤ n ∧ n ≤ 65535)
    (hfresh : field.valid ≠ 1) (hhead : value.toList.head? ≠ some '/') :
    (':' ∉ value.toList →
      (conf_set_listen env value field).1
        = some "has an invalid \"hostname:port\" format string") ∧
    (∀ host port : List Char, value.toList = host ++ ':' :: port → ':' ∉ port →
      (¬ (1 ≤ env.nc_atoi (String.mk port) ∧ env.nc_atoi (String.mk port) ≤ 65535) →
        (conf_set_listen env value field).1
          = some "has an invalid port in \"hostname:port\" format string") ∧
      (1 ≤ env.nc_atoi (String.mk port) ∧ env.nc_atoi (String.mk port) ≤ 65535 →
        ∀ info, env.nc_resolve (String.mk host) (env.nc_atoi (String.mk port)) = (NC_OK, info) →
          conf_set_listen env value field
            = (none, { field with pname := value, port := env.nc_atoi (String.mk port),
                                  name := String.mk host, info := info, valid := 1 }))) := by
  constructor
  · intro h
    unfold conf_set_listen
    rw [if_neg hfresh]
    dsimp only
    rw [if_neg hhead, split_last_none _ _ h]
  · intro host port hv hp
    have hs := split_last_append ':' host port hp
    rw [← hv] at hs
    constructor
    · intro hbad
      unfold conf_set_listen
      rw [if_neg hfresh]
      dsimp only
      rw [if_neg hhead, hs]
      dsimp only
      have hc : env.nc_atoi (String.mk port) < 0 ∨
          env.nc_valid_port (env.nc_atoi (String.mk port)) = false := by
        by_cases h0 : env.nc_atoi (String.mk port) < 0
        · exact Or.inl h0
        · right
          cases hb : env.nc_valid_port (env.nc_atoi (String.mk port)) with
          | false => rfl
          | true => exact absurd ((hvalid _).mp hb) hbad
      rw [if_pos hc]
    · intro hok info hres
      unfold conf_set_listen
      rw [if_neg hfresh]
      dsimp only
      rw [if_neg hhead, hs]
      dsimp only
      have hc : ¬ (env.nc_atoi (String.mk port) < 0 ∨
          env.nc_valid_port (env.nc_atoi (String.mk port)) = false) := by
        intro h
        rcases h with h | h
        · omega
        · rw [(hvalid _).mpr hok] at h
          cases h
      rw [if_neg hc]
      unfold conf_set_listen_finish
      dsimp only
      rw [hres]

/-- Instance of `conf_set_listen_tcp` at `127.0.0.1:6000` with the sample
collaborators: port 6000, name `127.0.0.1`, marked valid. -/
theorem conf_set_listen_tcp_witness :
    conf_set_listen sample_parse_env "127.0.0.1:6000" {}
      = (none, { pname := "127.0.0.1:6000", port := 6000, name := "127.0.0.1", info := 0,
                 valid := 1 }) :=
  ((conf_set_listen_tcp sample_parse_env "127.0.0.1:6000" {} sample_nc_valid_port
      (by decide) (by decide)).2 "127.0.0.1".toList "6000".toList (by decide) (by decide)).2
    (by decide) 0 (by decide)

/-! ## C24: the permission field of a socket path -/

/-- C24 (failing input): `listen: /tmp/nc.sock 649`.  The permission field
`649` is not an octal number, yet `strtol` in base 8 reads its leading `64`
(52) without setting `errno`, and `conf_set_listen`, which passes no end
pointer, accepts the value: permissions 064, path `/tmp/nc.sock`, declaration
marked valid. -/
theorem conf_set_listen_accepts_non_octal_permission (env : parse_env) (field : conf_listen)
    (info : Nat) (hfresh : field.valid ≠ 1) (hstrtol : env.strtol_octal "649" = (52, false))
    (hres : env.nc_resolve "/tmp/nc.sock" field.port = (NC_OK, info)) :
    conf_set_listen env "/tmp/nc.sock 649" field
      = (none, { field with pname := "/tmp/nc.sock 649", perm := 52, name := "/tmp/nc.sock",
                            info := info, valid := 1 }) := by
  have hs : split_last ' ' "/tmp/nc.sock 649".toList
      = some ("/tmp/nc.sock".toList, "649".toList) := by decide
  unfold conf_set_listen
  rw [if_neg hfresh]
  dsimp only
  rw [if_pos (by decide), hs]
  dsimp only
  have h1 : String.mk "649".toList = "649" := rfl
  have h2 : String.mk "/tmp/nc.sock".toList = "/tmp/nc.sock" := rfl
  rw [h1, h2, hstrtol]
  dsimp only
  rw [if_neg (by decide)]
  unfold conf_set_listen_finish
  dsimp only
  rw [hres]
  rfl

/-- Instance of `conf_set_listen_accepts_non_octal_permission` with the sample
collaborators, whose `strtol` reads `649` as 52. -/
theorem conf_set_listen_accepts_non_octal_permission_witness :
    sample_parse_env.strtol_octal "649" = (52, false) ∧
    conf_set_listen sample_parse_env "/tmp/nc.sock 649" {}
      = (none, { pname := "/tmp/nc.sock 649", perm := 52, name := "/tmp/nc.sock",
                 info := 0, valid := 1 }) :=
  ⟨by decide,
   conf_set_listen_accepts_non_octal_permission sample_parse_env {} 0 (by decide) (by decide)
     (by decide)⟩

/-! ## C25: `conf_add_server` on `host:port:weight[ name]` -/

/-- C25 (counterexample): the host `/h` is free of `:` and of spaces, 80 is a
port in 1..65535 and the weight 1 is positive, yet `conf_add_server` refuses
`/h:80:1`: a value that starts with `/` is read as a socket path, which may
hold one colon only.  A host that holds a NUL byte is refused too: the
delimiter loop also searches for the terminator of `delim`. -/
theorem conf_add_server_slash_host_refused :
    ':' ∉ "/h".toList ∧ ' ' ∉ "/h".toList ∧
    sample_parse_env.nc_atoi "80" = 80 ∧ sample_parse_env.nc_atoi "1" = 1 ∧
    conf_add_server sample_constants sample_parse_env "/h:80:1" []
      = (some ("has an invalid \"hostname:port:weight [name]\"or " ++
          "\"/path/unix_socket:weight [name]\" format string"), [{}]) ∧
    (conf_add_server sample_constants sample_parse_env
      (String.mk ['h', Char.ofNat 0, ':', '8', '0', ':', '1']) []).1 ≠ none := by
  refine ⟨by decide, by decide, by decide, by decide, by decide, by decide⟩

/-- C25 (amended): for a host that is free of `:` and of spaces, holds no NUL
byte and does not start with `/`, a port text read by `nc_atoi` as a valid port
`p` (valid ports being 1..65535) and a weight text read as `w > 0`, both texts
free of `:` and of spaces, `conf_add_server` on `host:port:weight` returns
`CONF_OK` and appends the declaration with `host` as the host identifier, port
`p`, weight `w`, the whole value as the printable name and, as display name,
`host` when `p` is `CONF_DEFAULT_KETAMA_PORT` and `host:port` otherwise, marked
valid; on `host:port:weight name`, with `name` non-empty and free of spaces,
the display name is `name` and the printable name is `host:port:weight`. -/
theorem conf_add_server_host_port_weight (c : conf_constants) (env : parse_env)
    (host port weight : List Char) (p w : Int) (a : List conf_server)
    (hvalid : ∀ n, env.nc_valid_port n = true ↔ 1 ≤ n ∧ n ≤ 65535)
    (hh1 : ':' ∉ host) (hh2 : ' ' ∉ host) (hh3 : Char.ofNat 0 ∉ host)
    (hh4 : host.head? ≠ some '/')
    (hp1 : ':' ∉ port) (hp2 : ' ' ∉ port) (hw1 : ':' ∉ weight) (hw2 : ' ' ∉ weight)
    (hp : env.nc_atoi (String.mk port) = p) (hprange : 1 ≤ p ∧ p ≤ 65535)
    (hw : env.nc_atoi (String.mk weight) = w) (hwpos : 0 < w) :
    conf_add_server c env (String.mk (host ++ ':' :: (port ++ ':' :: weight))) a
      = (none, a ++ [{ pname := String.mk (host ++ ':' :: (port ++ ':' :: weight)),
                       name := if p = c.CONF_DEFAULT_KETAMA_PORT
                                 then String.mk host else String.mk (host ++ ':' :: port),
                       addrstr := String.mk host, port := p, weight := w,
                       info := 0, valid := 1 }]) ∧
    (∀ name : List Char, name ≠ [] → ' ' ∉ name →
      conf_add_server c env
          (String.mk (host ++ ':' :: (port ++ ':' :: (weight ++ ' ' :: name)))) a
        = (none, a ++ [{ pname := String.mk (host ++ ':' :: (port ++ ':' :: weight)),
                         name := String.mk name,
                         addrstr := String.mk host, port := p, weight := w,
                         info := 0, valid := 1 }])) := by
  have hport : 0 ≤ env.nc_atoi (String.mk port) ∧
      env.nc_valid_port (env.nc_atoi (String.mk port)) = true := by
    rw [hp]
    exact ⟨by omega, (hvalid p).mpr hprange⟩
  have hweight : 0 < env.nc_atoi (String.mk weight) := by
    rw [hw]
    exact hwpos
  have _ := hh1
  constructor
  · have h := conf_add_server_plain c env host port weight a hh2 hh3 hh4 hp1 hp2 hw1 hw2
      hport hweight
    rw [hp, hw] at h
    exact h
  · intro name hne hn
    have h := conf_add_server_named c env host port weight name a hh3 hh4 hp1 hw1 hn hne
      hport hweight
    rw [hp, hw] at h
    exact h

/-- Instance of `conf_add_server_host_port_weight` at `10.0.0.1:6379:2` with
the sample constants and collaborators: display name `10.0.0.1:6379`. -/
theorem conf_add_server_host_port_weight_witness :
    conf_add_server sample_constants sample_parse_env "10.0.0.1:6379:2" []
      = (none, [{ pname := "10.0.0.1:6379:2", name := "10.0.0.1:6379", addrstr := "10.0.0.1",
                  port := 6379, weight := 2, info := 0, valid := 1 }]) :=
  (conf_add_server_host_port_weight sample_constants sample_parse_env "10.0.0.1".toList
    "6379".toList "2".toList 6379 2 [] sample_nc_valid_port (by decide) (by decide) (by decide)
    (by decide) (by decide) (by decide) (by decide) (by decide) (by decide) (by decide)
    (by decide) (by decide)).1

/-! ## C26: valid server declarations -/

/-- C26: valid ports being 1..65535.
(1) The declaration `conf_add_server` pushes is marked valid exactly when the
call returns `CONF_OK`, and a valid one has weight > 0 and, for a value that
does not start with `/`, a port in 1..65535.
(2) Every declaration in the group `conf_add_server_group` pushes is marked
valid and has weight > 0 and a port in 1..65535.
(3) On a value `host:port:weight`, and (4) on a value `host:port:weight name`,
`conf_add_server` returns `CONF_OK` exactly when `nc_atoi` reads the weight
text as a number above 0 and the port text as a number in 1..65535; the
declaration then holds those two numbers and is marked valid; in every other
case (a weight or port text that `nc_atoi` reads as negative, which is how it
reports a non-numeric text, a zero weight, a port out of range) a message is
returned and the validity flag stays 0.
(5) On a value made of tokens `host:port:weight` separated by single spaces,
`conf_add_server_group` returns `CONF_OK` exactly when every token has such a
weight and such a port; the group it pushes holds the declarations of the
tokens before the first one that has not, each with the numbers `nc_atoi` read
for it, so a token with a bad weight or port ends the call with a message and
makes no declaration. -/
theorem valid_declarations_weight_port (c : conf_constants) (env : parse_env) (value : String)
    (hvalid : ∀ n, env.nc_valid_port n = true ↔ 1 ≤ n ∧ n ≤ 65535) :
    (∀ a, ∃ f, (conf_add_server c env value a).2 = a ++ [f] ∧
      (f.valid = 1 ↔ (conf_add_server c env value a).1 = none) ∧
      (f.valid = 1 → 0 < f.weight ∧
        (value.toList.head? ≠ some '/' → 1 ≤ f.port ∧ f.port ≤ 65535))) ∧
    (∀ a, ∃ g, (conf_add_server_group env value a).2 = a ++ [g] ∧
      ∀ s ∈ g.server, s.valid = 1 ∧ 0 < s.weight ∧ 1 ≤ s.port ∧ s.port ≤ 65535) ∧
    (∀ (host port weight : List Char) (a : List conf_server),
      ' ' ∉ host → Char.ofNat 0 ∉ host → host.head? ≠ some '/' →
      ':' ∉ port → ' ' ∉ port → ':' ∉ weight → ' ' ∉ weight →
      ((conf_add_server c env (String.mk (host ++ ':' :: (port ++ ':' :: weight))) a).1 = none ↔
        0 < env.nc_atoi (String.mk weight) ∧
        1 ≤ env.nc_atoi (String.mk port) ∧ env.nc_atoi (String.mk port) ≤ 65535) ∧
      ∃ f, (conf_add_server c env (String.mk (host ++ ':' :: (port ++ ':' :: weight))) a).2
          = a ++ [f] ∧
        ((conf_add_server c env (String.mk (host ++ ':' :: (port ++ ':' :: weight))) a).1 = none →
          f.valid = 1 ∧ f.weight = env.nc_atoi (String.mk weight) ∧
          f.port = env.nc_atoi (String.mk port)) ∧
        ((conf_add_server c env (String.mk (host ++ ':' :: (port ++ ':' :: weight))) a).1 ≠ none →
          f.valid = 0)) ∧
    (∀ (host port weight name : List Char) (a : List conf_server),
      Char.ofNat 0 ∉ host → host.head? ≠ some '/' →
      ':' ∉ port → ':' ∉ weight → ' ' ∉ name →
      ((conf_add_server c env
          (String.mk (host ++ ':' :: (port ++ ':' :: (weight ++ ' ' :: name)))) a).1 = none ↔
        0 < env.nc_atoi (String.mk weight) ∧
        1 ≤ env.nc_atoi (String.mk port) ∧ env.nc_atoi (String.mk port) ≤ 65535) ∧
      ∃ f, (conf_add_server c env
          (String.mk (host ++ ':' :: (port ++ ':' :: (weight ++ ' ' :: name)))) a).2 = a ++ [f] ∧
        ((conf_add_server c env
            (String.mk (host ++ ':' :: (port ++ ':' :: (weight ++ ' ' :: name)))) a).1 = none →
          f.valid = 1 ∧ f.weight = env.nc_atoi (String.mk weight) ∧
          f.port = env.nc_atoi (String.mk port)) ∧
        ((conf_add_server c env
            (String.mk (host ++ ':' :: (port ++ ':' :: (weight ++ ' ' :: name)))) a).1 ≠ none →
          f.valid = 0)) ∧
    (∀ (tokens : List (List Char × List Char × List Char)) (a : List conf_server_group),
      (∀ t ∈ tokens, group_token_shaped t) →
      ((conf_add_server_group env (String.mk (group_value tokens)) a).1 = none ↔
        ∀ t ∈ tokens, 0 < env.nc_atoi (String.mk t.2.2) ∧
          1 ≤ env.nc_atoi (String.mk t.2.1) ∧ env.nc_atoi (String.mk t.2.1) ≤ 65535) ∧
      (conf_add_server_group env (String.mk (group_value tokens)) a).2
        = a ++ [{ server :=
                    (tokens.takeWhile (fun t => decide (0 < env.nc_atoi (String.mk t.2.2) ∧
                        1 ≤ env.nc_atoi (String.mk t.2.1) ∧
                        env.nc_atoi (String.mk t.2.1) ≤ 65535))).map (group_server env)
                  loop := 0 }]) := by
  have hnum : ∀ p w : Int, (0 < w ∧ 0 ≤ p ∧ env.nc_valid_port p = true) ↔
      (0 < w ∧ 1 ≤ p ∧ p ≤ 65535) := by
    intro p w
    rw [hvalid p]
    constructor
    · exact fun h => ⟨h.1, h.2.2⟩
    · exact fun h => ⟨h.1, by omega, h.2⟩
  refine ⟨?_, ?_, ?_, ?_, ?_⟩
  · intro a
    obtain ⟨f, h1, h2, h3⟩ := conf_add_server_pushed c env value a
    refine ⟨f, h1, h2, fun hv => ⟨(h3 hv).1, fun hh => (hvalid _).mp ((h3 hv).2 hh).2⟩⟩
  · intro a
    refine ⟨_, rfl, ?_⟩
    apply conf_add_server_group_loop_servers env
      (fun s => s.valid = 1 ∧ 0 < s.weight ∧ 1 ≤ s.port ∧ s.port ≤ 65535)
    · intro host tail f hf
      have h := conf_add_server_group_token_ok env host tail f hf
      exact ⟨h.1, h.2.1, (hvalid _).mp h.2.2.2.1⟩
    · intro x hx
      cases hx
  · intro host port weight a hh2 hh3 hh4 hp1 hp2 hw1 hw2
    have hl := conf_add_server_loop_plain host port weight hh2 hh3 hp1 hp2 hw1 hw2
    have hhead := head_append_ne host (port ++ ':' :: weight) hh4
    have hv := conf_add_server_verdict c env
      (String.mk (host ++ ':' :: (port ++ ':' :: weight))) a weight port
      (by show (conf_add_server_loop delim { rest := host ++ ':' :: (port ++ ':' :: weight) }).k = 3
          rw [hl])
      hhead
      (by show (conf_add_server_loop delim
            { rest := host ++ ':' :: (port ++ ':' :: weight) }).weight = some weight
          rw [hl])
      (by show (conf_add_server_loop delim
            { rest := host ++ ':' :: (port ++ ':' :: weight) }).port = some port
          rw [hl])
    exact ⟨hv.1.trans (hnum _ _), hv.2⟩
  · intro host port weight name a hh3 hh4 hp1 hw1 hn
    have hl := conf_add_server_loop_named host port weight name hh3 hp1 hw1 hn
    have he : host ++ ':' :: (port ++ ':' :: (weight ++ ' ' :: name))
        = (host ++ ':' :: (port ++ ':' :: weight)) ++ ' ' :: name := by simp
    have hhead := head_append_ne host (port ++ ':' :: (weight ++ ' ' :: name)) hh4
    rw [he] at hhead ⊢
    have hv := conf_add_server_verdict c env
      (String.mk ((host ++ ':' :: (port ++ ':' :: weight)) ++ ' ' :: name)) a weight port
      (by show (conf_add_server_loop delim
            { rest := (host ++ ':' :: (port ++ ':' :: weight)) ++ ' ' :: name }).k = 3
          rw [hl])
      hhead
      (by show (conf_add_server_loop delim
            { rest := (host ++ ':' :: (port ++ ':' :: weight)) ++ ' ' :: name }).weight
            = some weight
          rw [hl])
      (by show (conf_add_server_loop delim
            { rest := (host ++ ':' :: (port ++ ':' :: weight)) ++ ' ' :: name }).port = some port
          rw [hl])
    exact ⟨hv.1.trans (hnum _ _), hv.2⟩
  · intro tokens a hshape
    have hok : ∀ t ∈ tokens, (group_token_ok env t ↔
        0 < env.nc_atoi (String.mk t.2.2) ∧
        1 ≤ env.nc_atoi (String.mk t.2.1) ∧ env.nc_atoi (String.mk t.2.1) ≤ 65535) := by
      intro t ht
      rw [group_token_ok_iff, ← hnum]
      constructor
      · exact fun h => ⟨h.2.2.2, h.2.1, h.2.2.1⟩
      · exact fun h => ⟨hshape t ht, h.2.1, h.2.2, h.1⟩
    have htw : ∀ l : List (List Char × List Char × List Char), (∀ t ∈ l, t ∈ tokens) →
        l.takeWhile (fun t => decide (group_token_ok env t))
          = l.takeWhile (fun t => decide (0 < env.nc_atoi (String.mk t.2.2) ∧
              1 ≤ env.nc_atoi (String.mk t.2.1) ∧ env.nc_atoi (String.mk t.2.1) ≤ 65535)) := by
      intro l
      induction l with
      | nil => intro _; rfl
      | cons x xs ih =>
        intro hmem
        have hx := hok x (hmem x (List.mem_cons_self _ _))
        have ih2 := ih (fun t ht => hmem t (List.mem_cons_of_mem _ ht))
        simp only [List.takeWhile, decide_eq_decide.mpr hx, ih2]
    obtain ⟨h1, h2⟩ := conf_add_server_group_loop_verdict env tokens (group_value tokens).length
      { server := [], loop := 0 } hshape (le_refl _)
    constructor
    · show (conf_add_server_group_loop env (group_value tokens).length (group_value tokens)
          { server := [], loop := 0 }).1 = none ↔ _
      rw [h1]
      constructor
      · exact fun h t ht => (hok t ht).mp (h t ht)
      · exact fun h t ht => (hok t ht).mpr (h t ht)
    · show a ++ [(conf_add_server_group_loop env (group_value tokens).length (group_value tokens)
          { server := [], loop := 0 }).2] = _
      rw [h2, htw tokens (fun t ht => ht)]
      rfl

/-- Instance of `valid_declarations_weight_port` with the sample collaborators:
a group of two well-formed servers is pushed whole; a zero weight, a
non-numeric weight and a port above 65535 are refused by `conf_add_server`;
a group whose second token has a zero weight is refused with only the first
server in it. -/
theorem valid_declarations_weight_port_witness :
    (∃ g, (conf_add_server_group sample_parse_env "10.0.0.1:11211:1 10.0.0.2:11212:3" []).2
        = [] ++ [g] ∧
      ∀ s ∈ g.server, s.valid = 1 ∧ 0 < s.weight ∧ 1 ≤ s.port ∧ s.port ≤ 65535) ∧
    (conf_add_server sample_constants sample_parse_env "10.0.0.1:11211:0" []).1 ≠ none ∧
    (conf_add_server sample_constants sample_parse_env "10.0.0.1:11211:abc" []).1 ≠ none ∧
    (conf_add_server sample_constants sample_parse_env "10.0.0.1:70000:1 n1" []).1 ≠ none ∧
    (conf_add_server_group sample_parse_env "10.0.0.1:11211:1 10.0.0.2:11212:0" []).1 ≠ none ∧
    (conf_add_server_group sample_parse_env "10.0.0.1:11211:1 10.0.0.2:11212:0" []).2.map
        (fun g => g.server.map (fun s => (s.port, s.weight)))
      = [[(11211, 1)]] :=
  ⟨(valid_declarations_weight_port sample_constants sample_parse_env
      "10.0.0.1:11211:1 10.0.0.2:11212:3" sample_nc_valid_port).2.1 [],
   fun h => absurd
     (((valid_declarations_weight_port sample_constants sample_parse_env "" sample_nc_valid_port
        ).2.2.1 "10.0.0.1".toList "11211".toList "0".toList [] (by decide) (by decide)
        (by decide) (by decide) (by decide) (by decide) (by decide)).1.mp h) (by decide),
   fun h => absurd
     (((valid_declarations_weight_port sample_constants sample_parse_env "" sample_nc_valid_port
        ).2.2.1 "10.0.0.1".toList "11211".toList "abc".toList [] (by decide) (by decide)
        (by decide) (by decide) (by decide) (by decide) (by decide)).1.mp h) (by decide),
   fun h => absurd
     (((valid_declarations_weight_port sample_constants sample_parse_env "" sample_nc_valid_port
        ).2.2.2.1 "10.0.0.1".toList "70000".toList "1".toList "n1".toList [] (by decide)
        (by decide) (by decide) (by decide) (by decide)).1.mp h) (by decide),
   fun h => absurd
     (((valid_declarations_weight_port sample_constants sample_parse_env "" sample_nc_valid_port
        ).2.2.2.2
        [("10.0.0.1".toList, "11211".toList, "1".toList),
         ("10.0.0.2".toList, "11212".toList, "0".toList)] [] (by decide)).1.mp h) (by decide),
   by decide⟩

/-! ## C27: the `loop` marker of a server group -/

/-- C27 (failing input): `servers: - 10.0.0.1:11211:1 abcd`.  The trailing
token `abcd` is not the literal `loop`, yet the group's `loop` flag is set: the
test is `namelen == 4 || strncmp(start, "loop", 4) == 0`, true for every
4-byte token and for every token that starts with `loop` (`looping`).  A token
of another length (`xyz`) leaves the flag clear and `loop` sets it. -/
theorem conf_add_server_group_loop_flag_any_four_bytes :
    (conf_add_server_group sample_parse_env "10.0.0.1:11211:1 abcd" []).2.map
        (fun g => (g.server.length, g.loop)) = [(1, 1)] ∧
    (conf_add_server_group sample_parse_env "10.0.0.1:11211:1 looping" []).2.map
        (fun g => (g.server.length, g.loop)) = [(1, 1)] ∧
    (conf_add_server_group sample_parse_env "10.0.0.1:11211:1 xyz" []).2.map
        (fun g => (g.server.length, g.loop)) = [(1, 0)] ∧
    (conf_add_server_group sample_parse_env "10.0.0.1:11211:1 loop" []).2.map
        (fun g => (g.server.length, g.loop)) = [(1, 1)] := by
  refine ⟨by decide, by decide, by decide, by decide⟩

/-! ## C28: the printable name of a grouped server -/

/-- C28 (failing input): `servers: - 10.0.0.1:8888:1`.  The declaration
`conf_add_server_group` builds from the token has the printable name
`10.0.0.1`, the host alone (`pnamelen = find - start`, the text before the
first colon), not `10.0.0.1:8888`; the registry path builds `10.0.0.1:8888`
for the same address, so the two printable names, and with them the
checksums taken over them, differ. -/
theorem conf_add_server_group_pname_is_host :
    conf_add_server_group sample_parse_env "10.0.0.1:8888:1" []
      = (none, [{ server := [{ pname := "10.0.0.1", name := "10.0.0.1", addrstr := "10.0.0.1",
                               port := 8888, weight := 1, info := 0, valid := 1 }],
                  loop := 0 }]) ∧
    (zk_conf_server "10.0.0.1" 8888).pname = "10.0.0.1:8888" ∧
    (conf_add_server_group sample_parse_env "10.0.0.1:8888:1" []).2.map
        (fun g => g.server.map (fun s => s.pname))
      ≠ [[(zk_conf_server "10.0.0.1" 8888).pname]] := by
  refine ⟨by decide, by decide, by decide⟩

/-! ## C31: what a successful registry fetch builds -/

/-- C31: when `conf_from_zookeeper` returns `NC_OK`, `zk_get_children`
succeeded, there is at least one child, and every child was fetched and has
both `ip` and `slave_ip`; the primary and the backup list both have as many
entries as there are children, and the entries for the i-th child are the
declarations with printable names `ip:port` and `slave_ip:slave_port` (the
port in decimal, 0 for a missing port field), names and address strings `ip`
and `slave_ip`, those ports, and weight 1. -/
theorem conf_from_zookeeper_ok (child_ret : Int) (nodes : List zk_node)
    (servers backup_servers : List conf_server)
    (h : (conf_from_zookeeper child_ret nodes servers backup_servers).1 = NC_OK) :
    child_ret = 0 ∧ 1 ≤ nodes.length ∧
    (∀ n ∈ nodes, n.get_ret = 0 ∧ n.ip ≠ none ∧ n.slave_ip ≠ none) ∧
    (conf_from_zookeeper child_ret nodes servers backup_servers).2.1.length = nodes.length ∧
    (conf_from_zookeeper child_ret nodes servers backup_servers).2.2.length = nodes.length ∧
    (∀ (i : Nat) (n : zk_node), nodes[i]? = some n →
      ∃ s b : conf_server,
        (conf_from_zookeeper child_ret nodes servers backup_servers).2.1[i]? = some s ∧
        (conf_from_zookeeper child_ret nodes servers backup_servers).2.2[i]? = some b ∧
        s.pname = n.ip.getD "" ++ ":" ++ toString (n.port.getD 0) ∧
        b.pname = n.slave_ip.getD "" ++ ":" ++ toString (n.slave_port.getD 0) ∧
        s.name = n.ip.getD "" ∧ b.name = n.slave_ip.getD "" ∧
        s.addrstr = n.ip.getD "" ∧ b.addrstr = n.slave_ip.getD "" ∧
        s.port = n.port.getD 0 ∧ b.port = n.slave_port.getD 0 ∧
        s.weight = 1 ∧ b.weight = 1) := by
  unfold conf_from_zookeeper at h ⊢
  by_cases hc : child_ret ≠ 0
  · rw [if_pos hc] at h
    cases h
  · rw [if_neg hc] at h ⊢
    by_cases hn : nodes.length = 0
    · rw [if_pos hn] at h
      cases h
    · rw [if_neg hn] at h ⊢
      obtain ⟨h1, h2, h3⟩ := conf_from_zookeeper_loop_ok nodes [] [] h
      rw [h2, h3]
      refine ⟨not_not.mp hc, by omega, h1, by simp, by simp, ?_⟩
      intro i n hi
      refine ⟨zk_conf_server (n.ip.getD "") (n.port.getD 0),
        zk_conf_server (n.slave_ip.getD "") (n.slave_port.getD 0), ?_, ?_,
        rfl, rfl, rfl, rfl, rfl, rfl, rfl, rfl, rfl, rfl⟩
      · simp [hi]
      · simp [hi]

/-- Instance of `conf_from_zookeeper_ok` at the three sample children: the
fetch succeeds and both lists have three entries. -/
theorem conf_from_zookeeper_ok_witness :
    (conf_from_zookeeper 0 sample_nodes [] []).1 = NC_OK ∧
    (conf_from_zookeeper 0 sample_nodes [] []).2.1.length = 3 ∧
    (conf_from_zookeeper 0 sample_nodes [] []).2.2.length = 3 :=
  ⟨by decide,
   (conf_from_zookeeper_ok 0 sample_nodes [] [] (by decide)).2.2.2.1,
   (conf_from_zookeeper_ok 0 sample_nodes [] [] (by decide)).2.2.2.2.1⟩

/-! ## C37: the validity flag of registry declarations -/

/-- C37 (failing input): no declaration that a successful `conf_from_zookeeper`
builds has its validity flag set: `conf_server_init` clears it and nothing
sets it afterwards, so each one has `valid = 0`, against the opening
`ASSERT(cs->valid)` of `conf_server_init_new`. -/
theorem conf_from_zookeeper_valid_unset (child_ret : Int) (nodes : List zk_node)
    (servers backup_servers : List conf_server)
    (h : (conf_from_zookeeper child_ret nodes servers backup_servers).1 = NC_OK) :
    (∀ s ∈ (conf_from_zookeeper child_ret nodes servers backup_servers).2.1, s.valid = 0) ∧
    (∀ b ∈ (conf_from_zookeeper child_ret nodes servers backup_servers).2.2, b.valid = 0) := by
  unfold conf_from_zookeeper at h ⊢
  by_cases hc : child_ret ≠ 0
  · rw [if_pos hc] at h
    cases h
  · rw [if_neg hc] at h ⊢
    by_cases hn : nodes.length = 0
    · rw [if_pos hn] at h
      cases h
    · rw [if_neg hn] at h ⊢
      obtain ⟨_, h2, h3⟩ := conf_from_zookeeper_loop_ok nodes [] [] h
      rw [h2, h3]
      constructor
      · intro s hs
        simp only [List.nil_append, List.mem_map] at hs
        obtain ⟨n, _, rfl⟩ := hs
        rfl
      · intro b hb
        simp only [List.nil_append, List.mem_map] at hb
        obtain ⟨n, _, rfl⟩ := hb
        rfl

/-- Instance of `conf_from_zookeeper_valid_unset` at the three sample children,
fetched for a pool that has admitted the first pair: `nodes_child_watch` admits
one more pair, built by `conf_server_init_new` from the declarations at index
1 of the fetched lists, and both have `valid = 0`. -/
theorem conf_from_zookeeper_valid_unset_witness :
    (conf_from_zookeeper 0 sample_nodes [] []).1 = NC_OK ∧
    (∀ s ∈ (conf_from_zookeeper 0 sample_nodes [] []).2.1, s.valid = 0) ∧
    nodes_child_watch sample_crc16 {} {} true
        { child_ret := 0
          status := (conf_from_zookeeper 0 sample_nodes [] []).1
          server := (conf_from_zookeeper 0 sample_nodes [] []).2.1
          backupserver := (conf_from_zookeeper 0 sample_nodes [] []).2.2 }
        (pool_with_a sample_crc16)
      = { pool_with_a sample_crc16 with
          server := conf_server_init_new
            (array_get (conf_from_zookeeper 0 sample_nodes [] []).2.1 1 {})
            (pool_with_a sample_crc16).server 0
          backup_server := conf_server_init_new
            (array_get (conf_from_zookeeper 0 sample_nodes [] []).2.2 1 {})
            (pool_with_a sample_crc16).backup_server 0
          server_identifier :=
            [crc_pair sample_crc16 node_a node_a_slave,
             crc_pair sample_crc16 node_c node_c_slave] } ∧
    (array_get (conf_from_zookeeper 0 sample_nodes [] []).2.1 1 {}).valid = 0 ∧
    (array_get (conf_from_zookeeper 0 sample_nodes [] []).2.2 1 {}).valid = 0 :=
  ⟨by decide, (conf_from_zookeeper_valid_unset 0 sample_nodes [] [] (by decide)).1,
   by decide, by decide, by decide⟩

/-! ## C40: a pool needs a sequence -/

/-- C40: in every event stream that `conf_validate_structure` accepts, when a
mapping end closes a mapping at depth `CONF_MAX_DEPTH` (a pool's mapping), a
sequence start has been met since the mapping start that opened it: a stream
in which a pool's mapping closes without having contained a sequence is
rejected. -/
theorem conf_validate_structure_pool_needs_sequence (R M : Nat) (pre post : List yaml_event)
    (h : conf_validate_structure R M (pre ++ YAML_MAPPING_END_EVENT :: post) = NC_OK)
    (hpre : YAML_STREAM_END_EVENT ∉ pre) (hdepth : event_depth pre 0 = M) :
    sequence_since_mapping_start pre = true := by
  have hok : ∀ p q, pre = p ++ q → (structure_walk R M p structure_init).error = false := by
    intro p q hpq
    cases q with
    | nil =>
      rw [List.append_nil] at hpq
      rw [← hpq]
      exact (conf_validate_structure_no_error R M pre post _ h hpre).2.1
    | cons e q =>
      have hp : YAML_STREAM_END_EVENT ∉ p := by
        intro hc
        exact hpre (by rw [hpq]; exact List.mem_append_left _ hc)
      have h2 : conf_validate_structure R M (p ++ e :: (q ++ YAML_MAPPING_END_EVENT :: post))
          = NC_OK := by
        rw [hpq] at h
        simpa using h
      exact (conf_validate_structure_no_error R M p _ e h2 hp).2.1
  obtain ⟨_, _, h3⟩ := structure_walk_seq_invariant R M pre hok
  apply h3
  have hstep := (conf_validate_structure_no_error R M pre post _ h hpre).2.2
  have hd : (structure_walk R M pre structure_init).depth = M := by
    rw [structure_walk_depth]
    exact hdepth
  simp only [structure_step] at hstep
  rw [if_pos hd] at hstep
  by_cases hs : (structure_walk R M pre structure_init).seq = true
  · exact hs
  · rw [if_neg hs] at hstep
    cases hstep

/-- Instance of `conf_validate_structure_pool_needs_sequence` at the pool of
`alpha_events`, whose mapping holds the `servers` sequence; a pool made of the
single pair `k: v` is rejected. -/
theorem conf_validate_structure_pool_needs_sequence_witness :
    sequence_since_mapping_start (alpha_events.take 11) = true ∧
    conf_validate_structure 1 2 scalar_pool_events = NC_ERROR :=
  ⟨conf_validate_structure_pool_needs_sequence 1 2 (alpha_events.take 11)
     (alpha_events.drop 12) (by decide) (by decide) (by decide),
   by decide⟩

/-! ## C39: the pool list after `conf_post_validate` -/

/-- C39: with a `string_compare` that is 0 exactly on equal strings and
antisymmetric, and an `array_sort` that sorts by the name comparator, a
successful `conf_post_validate` leaves a pool list that is a permutation of the
validated pools (the parsed pools with their defaults applied, names
unchanged), in which each pool's name compares strictly below the name of
every later pool, so also of its neighbour: the order is name order, whatever
the document order was. -/
theorem conf_post_validate_sorted_by_name (c : conf_constants)
    (stale : Nat → Nat → conf_server) (string_compare : String → String → Int)
    (array_sort : (conf_pool → conf_pool → Int) → List conf_pool → List conf_pool)
    (pool : List conf_pool)
    (hzero : ∀ a b, string_compare a b = 0 ↔ a = b)
    (hanti : ∀ a b, string_compare a b ≤ 0 → string_compare b a ≤ 0 → a = b)
    (hsort_listen : sorts_by (conf_pool_listen_cmp string_compare)
      (array_sort (conf_pool_listen_cmp string_compare)))
    (hsort_name : sorts_by (conf_pool_name_cmp string_compare)
      (array_sort (conf_pool_name_cmp string_compare)))
    (h : (conf_post_validate c stale string_compare array_sort pool).1 = NC_OK) :
    (conf_post_validate c stale string_compare array_sort pool).2.Perm
      (validate_pool_loop c stale pool 0).2 ∧
    ((conf_post_validate c stale string_compare array_sort pool).2.map (fun p => p.name)).Perm
      (pool.map (fun p => p.name)) ∧
    (conf_post_validate c stale string_compare array_sort pool).2.Pairwise
      (fun p q => string_compare p.name q.name < 0) ∧
    (conf_post_validate c stale string_compare array_sort pool).2.Chain'
      (fun p q => string_compare p.name q.name < 0) := by
  unfold conf_post_validate at h ⊢
  by_cases hlen : pool.length = 0
  · rw [if_pos hlen] at h
    cases h
  · rw [if_neg hlen] at h ⊢
    have hnames := validate_pool_loop_names c stale pool 0
    cases hv : validate_pool_loop c stale pool 0 with
    | mk status vp =>
      rw [hv] at h hnames
      cases status with
      | NC_OK =>
        dsimp only at h hnames ⊢
        by_cases ha1 : adjacent_loop string_compare (fun p => p.listen.pname)
            (array_sort (conf_pool_listen_cmp string_compare) vp) = false
        · rw [if_pos ha1] at h
          cases h
        · rw [if_neg ha1] at h ⊢
          by_cases ha2 : adjacent_loop string_compare (fun p => p.name)
              (array_sort (conf_pool_name_cmp string_compare)
                (array_sort (conf_pool_listen_cmp string_compare) vp)) = false
          · rw [if_pos ha2] at h
            cases h
          · rw [if_neg ha2]
            have ha : adjacent_loop string_compare (fun p => p.name)
                (array_sort (conf_pool_name_cmp string_compare)
                  (array_sort (conf_pool_listen_cmp string_compare) vp)) = true := by
              cases hb : adjacent_loop string_compare (fun p => p.name)
                (array_sort (conf_pool_name_cmp string_compare)
                  (array_sort (conf_pool_listen_cmp string_compare) vp)) with
              | true => rfl
              | false => exact absurd hb ha2
            have hp1 := (hsort_listen vp).1
            have hp2 := hsort_name (array_sort (conf_pool_listen_cmp string_compare) vp)
            have hperm := hp2.1.trans hp1
            have hsorted : (array_sort (conf_pool_name_cmp string_compare)
                (array_sort (conf_pool_listen_cmp string_compare) vp)).Pairwise
                (fun x y => string_compare x.name y.name ≤ 0) := hp2.2
            have hnodup := (adjacent_loop_iff_nodup string_compare (fun p => p.name) hzero hanti
              _ hsorted).mp ha
            refine ⟨hperm, ?_, ?_, adjacent_loop_chain string_compare (fun p => p.name) _
              hsorted ha⟩
            · rw [← hnames]
              exact hperm.map _
            · have hpw := List.Pairwise.and hsorted (List.pairwise_map.mp hnodup)
              exact hpw.imp (fun hxy => by
                have hne : ¬ string_compare _ _ = 0 := fun hc => hxy.2 ((hzero _ _).mp hc)
                omega)
      | NC_ERROR => cases h
      | NC_ENOMEM => cases h

/-- Instance of `conf_post_validate_sorted_by_name` with the sample comparator
and sort at the pools `beta`, `alpha` in document order: the list that comes
out holds `alpha` before `beta`. -/
theorem conf_post_validate_sorted_by_name_witness :
    ((conf_post_validate sample_constants (fun _ _ => {}) sample_data_compare
        sample_array_sort
        [sample_pool "beta" "127.0.0.1:6001", sample_pool "alpha" "127.0.0.1:6000"]).2.map
      (fun p => p.name)).Perm ["beta", "alpha"] ∧
    (conf_post_validate sample_constants (fun _ _ => {}) sample_data_compare
        sample_array_sort
        [sample_pool "beta" "127.0.0.1:6001", sample_pool "alpha" "127.0.0.1:6000"]).2.Chain'
      (fun p q => sample_data_compare p.name q.name < 0) :=
  have h := conf_post_validate_sorted_by_name sample_constants (fun _ _ => {})
    sample_data_compare sample_array_sort
    [sample_pool "beta" "127.0.0.1:6001", sample_pool "alpha" "127.0.0.1:6000"]
    sample_data_compare_zero sample_data_compare_anti
    (sample_array_sort_sorts_data (fun p => p.listen.pname))
    (sample_array_sort_sorts_data (fun p => p.name))
    (by decide)
  ⟨h.2.1, h.2.2.2⟩

/-! ## C32: one runtime server per declaration -/

/-- C32 (counterexample): a registry child whose descriptor has port 70000 and
slave port -1.  `conf_from_zookeeper` returns `NC_OK` and builds declarations
with those ports, unchecked; `conf_server_each_transform` on them appends
runtime servers with ports 4464 and 65535 (the cast to `uint16_t`), not the
declarations' ports. -/
theorem conf_server_each_transform_truncates_registry_port :
    conf_from_zookeeper 0
        [{ ip := some "10.0.0.1", slave_ip := some "10.0.1.1", port := some 70000,
           slave_port := some (-1) }] [] []
      = (NC_OK, [zk_conf_server "10.0.0.1" 70000], [zk_conf_server "10.0.1.1" (-1)]) ∧
    (zk_conf_server "10.0.0.1" 70000).port = 70000 ∧
    (conf_server_each_transform (zk_conf_server "10.0.0.1" 70000) []).map (fun s => s.port)
      = [4464] ∧
    (zk_conf_server "10.0.1.1" (-1)).port = -1 ∧
    (conf_server_each_transform (zk_conf_server "10.0.1.1" (-1)) []).map (fun s => s.port)
      = [65535] := by
  refine ⟨by decide, by decide, by decide, by decide, by decide⟩

/-- C32 (amended): `conf_server_each_transform` returns the target array with
exactly one server appended, the earlier ones unchanged: its index is the
previous length, its port is the declaration's port reduced modulo 2^16 and its
weight the declaration's weight reduced modulo 2^32, so they equal the
declaration's when the port lies in 0..65535 and the weight in 0..4294967295;
its failure count and next-retry time are 0 and it is marked connected.
Applied to declarations in order on an empty array it yields servers with
indices 0..n-1 whose printable names are the declarations', in declaration
order. -/
theorem conf_server_each_transform_appends (cs : conf_server) (srv : List server) :
    (∃ s, conf_server_each_transform cs srv = srv ++ [s] ∧
      s.idx = srv.length ∧
      s.port = (cs.port % 65536).toNat ∧ s.weight = (cs.weight % 4294967296).toNat ∧
      (0 ≤ cs.port ∧ cs.port < 65536 → (s.port : Int) = cs.port) ∧
      (0 ≤ cs.weight ∧ cs.weight < 4294967296 → (s.weight : Int) = cs.weight) ∧
      s.failure_count = 0 ∧ s.next_retry = 0 ∧ s.connected = 1 ∧
      s.pname = cs.pname ∧ s.name = cs.name) ∧
    (∀ ds : List conf_server,
      (conf_server_each_transform_all ds []).map (fun s => s.idx) = List.range ds.length ∧
      (conf_server_each_transform_all ds []).map (fun s => s.pname)
        = ds.map (fun d => d.pname)) := by
  constructor
  · refine ⟨_, rfl, rfl, rfl, rfl, ?_, ?_, rfl, rfl, rfl, rfl, rfl⟩
    · intro hport
      show (((cs.port % 65536).toNat : Nat) : Int) = cs.port
      omega
    · intro hweight
      show (((cs.weight % 4294967296).toNat : Nat) : Int) = cs.weight
      omega
  · intro ds
    have h := conf_server_each_transform_all_spec ds []
    refine ⟨?_, by simpa using h.2⟩
    rw [h.1, List.range_eq_range']
    simp

/-- Instance of `conf_server_each_transform_appends` at the sample declarations:
the server built from `node_a` has port 8888 and weight 1, and three
declarations give the indices 0, 1, 2. -/
theorem conf_server_each_transform_appends_witness :
    (∃ s, conf_server_each_transform node_a [] = [] ++ [s] ∧
      (s.port : Int) = 8888 ∧ (s.weight : Int) = 1) ∧
    (conf_server_each_transform_all [node_a, node_b, node_c] []).map (fun s => s.idx)
      = List.range 3 :=
  ⟨(conf_server_each_transform_appends node_a []).1.imp
      (fun _ h => ⟨h.1, h.2.2.2.2.1 (by decide), h.2.2.2.2.2.1 (by decide)⟩),
   ((conf_server_each_transform_appends node_a []).2 [node_a, node_b, node_c]).1⟩

/-! ## C36: an empty fingerprint set admits nothing -/

/-- C36: when the pool's admitted-fingerprint set is empty, `nodes_child_watch`
returns the pool unchanged, whatever the event and whatever was fetched: the
primary collection, the backup collection and the fingerprint set stay as they
were. -/
theorem nodes_child_watch_empty_identifier_noop (hash_crc16 : String → Nat)
    (stale_s stale_bs : conf_server) (is_child_event : Bool) (zk : zk_fetch)
    (sp : server_pool) (h : sp.server_identifier = []) :
    nodes_child_watch hash_crc16 stale_s stale_bs is_child_event zk sp = sp := by
  unfold nodes_child_watch
  split_ifs
  · rfl
  · rfl
  · exact nodes_child_watch_body_nil_identifier hash_crc16 stale_s stale_bs _ _ sp h
  · rfl

/-- Instance of `nodes_child_watch_empty_identifier_noop` at the empty pool and
three fetched pairs. -/
theorem nodes_child_watch_empty_identifier_noop_witness :
    nodes_child_watch sample_crc16 {} {} true
        { server := [node_a, node_b, node_c]
          backupserver := [node_a_slave, node_b_slave, node_c_slave] }
        empty_pool
      = empty_pool :=
  nodes_child_watch_empty_identifier_noop sample_crc16 {} {} true _ empty_pool (by decide)

/-! ## C38: `client_connections` after validation -/

/-- C38: after a successful `conf_validate_pool` the pool's
`client_connections` is `CONF_DEFAULT_CLIENT_CONNECTIONS`, whatever value the
declaration came with: the assignment of line 1554 is not guarded. -/
theorem conf_validate_pool_client_connections (c : conf_constants) (stale : Nat → conf_server)
    (cp : conf_pool) (h : (conf_validate_pool c stale cp).1 = NC_OK) :
    (conf_validate_pool c stale cp).2.client_connections
      = c.CONF_DEFAULT_CLIENT_CONNECTIONS := by
  obtain ⟨v, hv⟩ := conf_validate_pool_ok_shape c stale cp h
  rw [hv]
  show (conf_pool_defaults_tail c (conf_pool_defaults_head c cp)).client_connections = _
  simp only [conf_pool_defaults_tail, conf_pool_defaults_head,
    apply_ite conf_pool.client_connections, ite_self]

/-- Instance of `conf_validate_pool_client_connections` at a sample pool that
declares 7 client connections. -/
theorem conf_validate_pool_client_connections_witness :
    (conf_validate_pool sample_constants (fun _ => {})
        { sample_pool "alpha" "127.0.0.1:6000" with
          client_connections := 7 }).2.client_connections
      = sample_constants.CONF_DEFAULT_CLIENT_CONNECTIONS :=
  conf_validate_pool_client_connections sample_constants (fun _ => {})
    { sample_pool "alpha" "127.0.0.1:6000" with client_connections := 7 } (by decide)

/-! ## C34: a group of `host:port:weight` tokens -/

/-- C34: for a value made of one or more tokens `host:port:weight` separated
by single spaces, the parts of each token holding no colon and no space, each
port text read by `nc_atoi` as a valid port and each weight text as a number
above 0, `conf_add_server_group` returns `CONF_OK` and appends one group with
the `loop` flag clear that holds exactly one declaration per token, in token
order, the i-th with the host, port and weight of the i-th token. -/
theorem conf_add_server_group_tokens (env : parse_env)
    (tokens : List (List Char × List Char × List Char)) (a : List conf_server_group)
    (hne : tokens ≠ []) (hok : ∀ t ∈ tokens, group_token_ok env t) :
    conf_add_server_group env (String.mk (group_value tokens)) a
      = (none, a ++ [{ server := tokens.map (group_server env), loop := 0 }]) ∧
    (tokens.map (group_server env)).length = tokens.length ∧
    (∀ (i : Nat) (t : List Char × List Char × List Char), tokens[i]? = some t →
      ∃ s, (tokens.map (group_server env))[i]? = some s ∧
        s.addrstr = String.mk t.1 ∧ s.name = String.mk t.1 ∧
        s.port = env.nc_atoi (String.mk t.2.1) ∧ s.weight = env.nc_atoi (String.mk t.2.2) ∧
        s.valid = 1) := by
  have _ := hne
  refine ⟨?_, by simp, ?_⟩
  · unfold conf_add_server_group
    have h := conf_add_server_group_loop_tokens env tokens (group_value tokens).length
      { server := [], loop := 0 } hok (le_refl _)
    show ((conf_add_server_group_loop env (group_value tokens).length (group_value tokens)
        { server := [], loop := 0 }).1,
      a ++ [(conf_add_server_group_loop env (group_value tokens).length (group_value tokens)
        { server := [], loop := 0 }).2]) = _
    rw [h]
    simp
  · intro i t hi
    exact ⟨group_server env t, by simp [hi], rfl, rfl, rfl, rfl, rfl⟩

/-- Instance of `conf_add_server_group_tokens` at two tokens with the sample
collaborators. -/
theorem conf_add_server_group_tokens_witness :
    conf_add_server_group sample_parse_env "10.0.0.1:11211:1 10.0.0.2:11212:3" []
      = (none, [{ server :=
                    [{ pname := "10.0.0.1", name := "10.0.0.1", addrstr := "10.0.0.1",
                       port := 11211, weight := 1, info := 0, valid := 1 },
                     { pname := "10.0.0.2", name := "10.0.0.2", addrstr := "10.0.0.2",
                       port := 11212, weight := 3, info := 0, valid := 1 }]
                  loop := 0 }]) :=
  (conf_add_server_group_tokens sample_parse_env
    [("10.0.0.1".toList, "11211".toList, "1".toList),
     ("10.0.0.2".toList, "11212".toList, "3".toList)] [] (by decide) (by decide)).1

/-! ## C33: the elements of a sequence -/

/-- C33: with a `string_compare` that is 0 exactly on equal strings, in a
sequence (`seq` set) under the key `servers`, `backupservers` or
`zookeeperservers` of the pool at index `i` (stack: pool name, key), `k`
non-empty scalar elements on which the key's handler, called once per element
in order with (key, element), returns `CONF_OK` each time, take
`conf_parse_core` to the state with the same stack (each element is popped
right after its call) and the pool as those `k` calls left it: the
server-group collection for `servers`, the backup collection for
`backupservers`, the registry collection for `zookeeperservers` has exactly `k`
entries appended, in element order, the earlier entries and every other field
unchanged. -/
theorem conf_parse_core_sequence_elements (c : conf_constants) (env : parse_env) (R : Nat)
    (stale : conf_pool) (name key : String) (vs : List String) (cf : conf) (i : Nat)
    (cp cp2 : conf_pool) (rest : List yaml_event)
    (hzero : ∀ a b, env.string_compare a b = 0 ↔ a = b)
    (hkey : key = "servers" ∨ key = "backupservers" ∨ key = "zookeeperservers")
    (hv : ∀ v ∈ vs, v ≠ "") (hseq : cf.seq ≠ 0) (harg : cf.arg = [name, key])
    (hpool : cf.pool[i]? = some cp) :
    ∃ cmd, command_loop env.string_compare key conf_commands = some cmd ∧
      (handler_elements c env cmd vs cp = some cp2 →
        conf_parse_core c env R stale (vs.map YAML_SCALAR_EVENT ++ rest) cf (some i)
          = conf_parse_core c env R stale rest { cf with pool := cf.pool.set i cp2 } (some i) ∧
        (key = "servers" →
          cp2 = { cp with servergroup := cp.servergroup
            ++ (vs.map (fun v => (conf_add_server_group env v []).2)).flatten } ∧
          ((vs.map (fun v => (conf_add_server_group env v []).2)).flatten).length
            = vs.length) ∧
        (key = "backupservers" →
          cp2 = { cp with backupserver := cp.backupserver
            ++ (vs.map (fun v => (conf_add_server c env v []).2)).flatten } ∧
          ((vs.map (fun v => (conf_add_server c env v []).2)).flatten).length = vs.length) ∧
        (key = "zookeeperservers" →
          cp2 = { cp with zookeeperserver := cp.zookeeperserver
            ++ (vs.map (fun v => (conf_add_server c env v []).2)).flatten } ∧
          ((vs.map (fun v => (conf_add_server c env v []).2)).flatten).length = vs.length)) := by
  have harg2 : cf.arg = [name] ++ [key] := harg
  have hlen_g : ∀ v, (conf_add_server_group env v []).2.length = 1 := by
    intro v
    simp [conf_add_server_group]
  have hlen_s : ∀ v, (conf_add_server c env v []).2.length = 1 := by
    intro v
    obtain ⟨f, hf, _⟩ := conf_add_server_pushed c env v []
    rw [hf]
    rfl
  rcases hkey with hk | hk | hk
  · subst hk
    refine ⟨_, command_loop_servers env.string_compare hzero, fun h => ⟨?_, ?_, ?_, ?_⟩⟩
    · exact conf_parse_core_elements c env R stale [name] "servers" _ i rest (by simp)
        (command_loop_servers env.string_compare hzero) vs cf cp cp2 hv hseq harg2 hpool h
    · intro _
      exact ⟨handler_elements_servers c env vs cp cp2 h,
        flatten_singletons_length _ hlen_g vs⟩
    · intro hc
      exact absurd hc (by decide)
    · intro hc
      exact absurd hc (by decide)
  · subst hk
    refine ⟨_, command_loop_backupservers env.string_compare hzero, fun h => ⟨?_, ?_, ?_, ?_⟩⟩
    · exact conf_parse_core_elements c env R stale [name] "backupservers" _ i rest (by simp)
        (command_loop_backupservers env.string_compare hzero) vs cf cp cp2 hv hseq harg2 hpool h
    · intro hc
      exact absurd hc (by decide)
    · intro _
      exact ⟨handler_elements_backupservers c env vs cp cp2 h,
        flatten_singletons_length _ hlen_s vs⟩
    · intro hc
      exact absurd hc (by decide)
  · subst hk
    refine ⟨_, command_loop_zookeeperservers env.string_compare hzero,
      fun h => ⟨?_, ?_, ?_, ?_⟩⟩
    · exact conf_parse_core_elements c env R stale [name] "zookeeperservers" _ i rest (by simp)
        (command_loop_zookeeperservers env.string_compare hzero) vs cf cp cp2 hv hseq harg2
        hpool h
    · intro hc
      exact absurd hc (by decide)
    · intro hc
      exact absurd hc (by decide)
    · intro _
      exact ⟨handler_elements_zookeeperservers c env vs cp cp2 h,
        flatten_singletons_length _ hlen_s vs⟩

/-- Instance of `conf_parse_core_sequence_elements` with the sample
collaborators: two elements under `servers` of a fresh pool `a`; the handler
found is the one of the `servers` row. -/
theorem conf_parse_core_sequence_elements_witness :
    (∃ cmd, command_loop sample_parse_env.string_compare "servers" conf_commands = some cmd) ∧
    ((handler_elements sample_constants sample_parse_env
        ⟨"servers", .conf_add_server_group, .servergroup⟩
        ["10.0.0.1:11211:1", "10.0.0.2:11212:3"] (conf_pool_init sample_constants {} "a")).map
      (fun cp => cp.servergroup.map (fun g => g.server.map (fun s => s.port))))
      = some [[11211], [11212]] :=
  ⟨(conf_parse_core_sequence_elements sample_constants sample_parse_env 1 {} "a"
    "servers" ["10.0.0.1:11211:1", "10.0.0.2:11212:3"]
    { arg := ["a", "servers"], pool := [conf_pool_init sample_constants {} "a"], depth := 2,
      seq := 1 } 0
    (conf_pool_init sample_constants {} "a") (conf_pool_init sample_constants {} "a") []
    sample_key_compare_zero (Or.inl rfl) (by decide) (by decide) rfl rfl).imp
    (fun _ h => h.1), by decide⟩

/-! ## C35: the argument stack on accepted documents -/

/-- C35 (failing input): the document `a:` / `  servers:` /
`    - - - 127.0.0.1:8888:1` passes the structural pass (root depth 1, maximum
depth 2), and on it `conf_parse` pops from an empty argument stack: the three
closing sequence events pop `servers`, the pool name `a`, and then nothing, so
the run has no defined result.  On the accepted document
`dropped_directive_events` the parse ends with `NC_OK` and a non-empty stack
(`timeout` is left on it). -/
theorem conf_parse_pops_empty_stack_on_accepted_document :
    conf_validate_structure 1 2 deep_sequence_events = NC_OK ∧
    conf_parse sample_constants sample_parse_env 1 {} deep_sequence_events {} = none ∧
    conf_validate_structure 1 2 dropped_directive_events = NC_OK ∧
    (conf_parse sample_constants sample_parse_env 1 {} dropped_directive_events {}).map
        (fun r => (r.1, r.2.arg))
      = some (NC_OK, ["timeout"]) := by
  refine ⟨by decide, by decide, by decide, by decide⟩

/-! ## C21: the pool `alpha` end to end -/

/-- C21 (failing input): the configuration of one pool `alpha` with listen
127.0.0.1:6000 and the single server 10.0.0.1:11211:1, in block style (`alpha:` /
`  listen: 127.0.0.1:6000` / `  servers:` / `    - 10.0.0.1:11211:1`).  It passes
the token pass and the structural pass, `conf_parse` returns `NC_OK` with one
pool `alpha` and an empty stack, `conf_post_validate` returns `NC_OK` and leaves
one declaration that holds one server of weight 1 and port 11211, and
`conf_pool_each_transform` on it returns `NC_OK` with a runtime pool named
`alpha`, listening on 127.0.0.1 port 6000, with the default hash, distribution
and protocol, marked initialised; yet that runtime pool holds no runtime
server: `server_init` is called only for a pool with backup servers.  (The
flow-style text `alpha: \x7blisten: 127.0.0.1:6000, servers: [10.0.0.1:11211:1]\x7d`
of the same configuration does not get that far: the token pass refuses its
flow tokens.) -/
theorem alpha_runtime_pool_holds_no_server :
    conf_validate_tokens alpha_block_tokens = NC_OK ∧
    conf_validate_structure 1 2 alpha_events = NC_OK ∧
    (conf_parse sample_constants sample_parse_env 1 {} alpha_events {}).map
        (fun r => (r.1, r.2.arg, r.2.pool.map (fun cp => cp.name)))
      = some (NC_OK, [], ["alpha"]) ∧
    (conf_post_validate sample_constants (fun _ _ => {}) sample_data_compare sample_array_sort
        alpha_parsed_pools).1 = NC_OK ∧
    alpha_validated_pools.map (fun cp => cp.server.map (fun s => (s.valid, s.port, s.weight)))
      = [[(1, 11211, 1)]] ∧
    alpha_validated_pools.map (fun cp => (cp.backupserver.length, cp.zookeeperserver.length))
      = [(0, 0)] ∧
    (conf_pool_each_transform sample_env {} (alpha_validated_pools.getD 0 {}) []).1 = NC_OK ∧
    (conf_pool_each_transform sample_env {} (alpha_validated_pools.getD 0 {}) []).2.1.name
      = "alpha" ∧
    (conf_pool_each_transform sample_env {} (alpha_validated_pools.getD 0 {}) []).2.1.addrstr
      = "127.0.0.1:6000" ∧
    (conf_pool_each_transform sample_env {} (alpha_validated_pools.getD 0 {}) []).2.1.port
      = 6000 ∧
    (conf_pool_each_transform sample_env {} (alpha_validated_pools.getD 0 {}) []).2.1.key_hash_type
      = sample_constants.CONF_DEFAULT_HASH ∧
    (conf_pool_each_transform sample_env {} (alpha_validated_pools.getD 0 {}) []).2.1.dist_type
      = sample_constants.CONF_DEFAULT_DIST ∧
    (conf_pool_each_transform sample_env {} (alpha_validated_pools.getD 0 {}) []).2.1.protocol
      = (sample_constants.PROTOCOL_REDIS % 4294967296).toNat ∧
    (conf_pool_each_transform sample_env {} (alpha_validated_pools.getD 0 {}) []).2.1.finish_init
      = 1 ∧
    (conf_pool_each_transform sample_env {} (alpha_validated_pools.getD 0 {}) []).2.1.server
      = [] ∧
    conf_validate_tokens alpha_flow_tokens = NC_ERROR := by
  and_intros <;> decide
end NcConf
